import Mathlib

/-!
# DirectPlay host emulation: the protocol engine of `Main.cpp`

A shallow embedding of the `Player`, `Session` and `Client` classes.

Conventions of the embedding

* A byte is a `Nat` below 256; a byte string is a `List Nat`.  Every store into
  a `uint8_t`, `uint16_t`, `uint32_t` or `size_t` is written with an explicit
  `% 2 ^ w` (`size_t` is taken to be 64 bits wide, the host little-endian).
* A pointer into a receive buffer is the pair of the underlying array `mem`
  and an offset.  A read inside `mem` succeeds whether or not it lies inside
  the message length the caller passed along; a read outside `mem`, a write
  past an allocation and a failed `assert` have no defined result, which is
  `none`.
* What the operating system decides (whether a connect or a send succeeds,
  the steady clock) is an explicit `Env` argument.
* Every function returns the new state together with the buffers handed to
  the sockets (`out`) and the lines written to the console (`log`).
-/

namespace DPlay

/-! ## Bytes -/

/-- One byte of `mem` at offset `i`. -/
def rd8 (mem : List Nat) (i : Nat) : Option Nat := mem[i]?

/-- A little-endian 16-bit load at offset `i`. -/
def rd16 (mem : List Nat) (i : Nat) : Option Nat := do
  let b0 ← rd8 mem i
  let b1 ← rd8 mem (i + 1)
  pure (b0 + 256 * b1)

/-- A little-endian 32-bit load at offset `i`. -/
def rd32 (mem : List Nat) (i : Nat) : Option Nat := do
  let b0 ← rd8 mem i
  let b1 ← rd8 mem (i + 1)
  let b2 ← rd8 mem (i + 2)
  let b3 ← rd8 mem (i + 3)
  pure (b0 + 256 * b1 + 65536 * b2 + 16777216 * b3)

/-- The `n` bytes of `mem` starting at offset `i` (`memcpy`, `memcmp`). -/
def rdBytes (mem : List Nat) (i n : Nat) : Option (List Nat) :=
  if i + n ≤ mem.length then some ((mem.drop i).take n) else none

/-- A little-endian 16-bit store. -/
def le16 (v : Nat) : List Nat := [v % 256, v / 256 % 256]

/-- A little-endian 32-bit store. -/
def le32 (v : Nat) : List Nat :=
  [v % 256, v / 256 % 256, v / 65536 % 256, v / 16777216 % 256]

/-- The four bytes of the signature `"play"`. -/
def playSignature : List Nat := [0x70, 0x6C, 0x61, 0x79]

/-! ## `DPRPFrameFlags` -/

def DPRPFrame_Reliable : Nat := 1 <<< 0
def DPRPFrame_Ack : Nat := 1 <<< 1
def DPRPFrame_SendAck : Nat := 1 <<< 2
def DPRPFrame_End : Nat := 1 <<< 3
def DPRPFrame_Start : Nat := 1 <<< 4
def DPRPFrame_Command : Nat := 1 <<< 5
def DPRPFrame_Big : Nat := 1 <<< 6
def DPRPFrame_Extended : Nat := 1 <<< 7

/-! ## The reliable-protocol header -/

/-- The id block of `Client::fillRPHeader` (written out twice there, once for
`from` and once for `to`): the bytes stored for one 16-bit id. -/
def fillRPId (id : Nat) : List Nat :=
  if id < 128 then
    [(id &&& 0x7F) % 256]
  else if id < 14384 then
    [((id &&& 0x7F) ||| 0x80) % 256, (id >>> 7) % 256]
  else
    [((id &&& 0x7F) ||| 0x80) % 256, (((id >>> 7) &&& 0x7F) ||| 0x80) % 256, (id >>> 14) % 256]

/-- Embeds `Client::fillRPHeader`: the bytes written at `data`; the returned pointer is
`data` advanced by their number. -/
def fillRPHeader (fromId toId flags messageId sequence serial : Nat) : List Nat :=
  fillRPId fromId ++ fillRPId toId ++ [flags % 256, messageId % 256, sequence % 256, serial % 256]

/-- The size contribution of one id in `Client::getRPHeaderSize`. -/
def rpIdSize (id : Nat) : Nat :=
  if id < 128 then 1 else if id < 16384 then 2 else 3

/-- Embeds `Client::getRPHeaderSize`. -/
def getRPHeaderSize (fromId toId : Nat) : Nat :=
  (4 + rpIdSize toId) + rpIdSize fromId

/-- The id decoder of `Client::handleUDPRead` (written out twice there): reads
one variable-length id at `ptr` and returns the `uint16_t` it yields together
with the advanced `ptr`. -/
def readRPId (buf : List Nat) (ptr : Nat) : Option (Nat × Nat) := do
  let b0 ← rd8 buf ptr
  let id := b0 % 65536
  let ptr := ptr + 1
  let (id, ptr) ←
    if id &&& 0x80 ≠ 0 then do
      let b1 ← rd8 buf ptr
      pure (((id &&& 0x7F) ||| (b1 <<< 7)) % 65536, ptr + 1)
    else pure (id, ptr)
  if id &&& 0x4000 ≠ 0 then do
    let b2 ← rd8 buf ptr
    pure (((id &&& 0x3FF) ||| (b2 <<< 14)) % 65536, ptr + 1)
  else pure (id, ptr)

/-! ## String conversion -/

/-- Embeds `convertUTF8ToUCS2`: UTF-8 bytes to 16-bit code units; the loop stops
without a word at a truncated sequence and at any byte that starts neither a
one-, two- nor three-byte sequence. -/
def convertUTF8ToUCS2 : List Nat → List Nat
  | [] => []
  | c :: rest =>
    if c < 0x80 then
      (c % 65536) :: convertUTF8ToUCS2 rest
    else if c &&& 0xE0 = 0xC0 then
      match rest with
      | [] => []
      | c1 :: rest1 =>
        ((((c &&& 0x1F) <<< 6) ||| (c1 &&& 0x3F)) % 65536) :: convertUTF8ToUCS2 rest1
    else if c &&& 0xF0 = 0xE0 then
      match rest with
      | c1 :: c2 :: rest2 =>
        (((((c &&& 0x0F) <<< 12) ||| ((c1 &&& 0x3F) <<< 6)) ||| (c2 &&& 0x3F)) % 65536)
          :: convertUTF8ToUCS2 rest2
      | _ => []
    else []

/-- The bytes `convertUCS2ToUTF8` appends for one code unit. -/
def utf8OfUnit (c : Nat) : List Nat :=
  if c ≤ 0x7F then
    [c % 256]
  else if c ≤ 0x7FF then
    [(0xC0 ||| (c >>> 6)) % 256, (0x80 ||| (c &&& 0x3F)) % 256]
  else
    [(0xE0 ||| (c >>> 12)) % 256, (0x80 ||| ((c >>> 6) &&& 0x3F)) % 256,
      (0x80 ||| (c &&& 0x3F)) % 256]

/-- Embeds `convertUCS2ToUTF8`: 16-bit code units to UTF-8 bytes; the `assert` on a
surrogate code unit ends the program (`none`). -/
def convertUCS2ToUTF8 : List Nat → Option (List Nat)
  | [] => some []
  | c :: rest =>
    if c < 0xD800 ∨ c ≥ 0xE000 then
      (convertUCS2ToUTF8 rest).map (fun tail => utf8OfUnit c ++ tail)
    else none

/-- The `n` little-endian 16-bit code units at offset `i` (what iterating a
`std::u16string_view(ptr, n)` reads). -/
def rdUnits (mem : List Nat) (i : Nat) : Nat → Option (List Nat)
  | 0 => some []
  | n + 1 => do
    let c ← rd16 mem i
    let rest ← rdUnits mem (i + 2) n
    pure (c :: rest)

/-- The length `std::u16string_view(ptr)` computes: the number of code units
before the first zero unit at or after offset `i`.  The scan has no bound of
its own; `fuel` only has to cover the units that fit into `mem`. -/
def u16Length (mem : List Nat) : Nat → Nat → Option Nat
  | 0, _ => none
  | fuel + 1, i => do
    let c ← rd16 mem i
    if c = 0 then pure 0
    else do
      let n ← u16Length mem fuel (i + 2)
      pure (n + 1)

/-! ## `Player` -/

def DPPlayer_System : Nat := 1 <<< 0
def DPPlayer_NameServer : Nat := 1 <<< 1
def DPPlayer_InGroup : Nat := 1 <<< 2
def DPPlayer_SendingMachine : Nat := 1 <<< 3

/-- The class `Player`.  `serviceProviderData` stands for the pair of the
owned array and `serviceProviderDataLen` (its length); the members `data` and
`dataLen` are never used. -/
structure Player where
  id : Nat
  flags : Nat
  systemPlayerId : Nat
  shortName : List Nat := []
  longName : List Nat := []
  serviceProviderData : List Nat := []
deriving DecidableEq, Repr

/-- The constructor `Player(id, systemPlayerId, flags)`. -/
def Player.init (id systemPlayerId flags : Nat) : Player :=
  { id := id, flags := flags, systemPlayerId := systemPlayerId }

def Player.getId (p : Player) : Nat := p.id

def Player.getSystemPlayerId (p : Player) : Nat := p.systemPlayerId

def Player.getFlags (p : Player) : Nat := p.flags

def Player.setShortName (p : Player) (name : List Nat) : Player :=
  { p with shortName := name }

def Player.setLongName (p : Player) (name : List Nat) : Player :=
  { p with longName := name }

def Player.getServiceProviderDataLen (p : Player) : Nat :=
  p.serviceProviderData.length % 2 ^ 32

def Player.getServiceProviderData (p : Player) : List Nat := p.serviceProviderData

/-- Embeds `Player::setServiceProviderData(data, len)`, `data` being the `len` bytes
the caller's pointer designates. -/
def Player.setServiceProviderData (p : Player) (data : List Nat) : Player :=
  { p with serviceProviderData := data }

/-! ## `std::map<uint32_t, Player>` as a list of entries in key order -/

def mapFind (m : List (Nat × Player)) (k : Nat) : Option Player :=
  (m.find? (fun e => e.1 == k)).map Prod.snd

/-- The member `emplace`: a new entry goes to its place in key order; an existing
key keeps its entry. -/
def mapEmplace : List (Nat × Player) → Nat → Player → List (Nat × Player)
  | [], k, p => [(k, p)]
  | e :: m, k, p =>
    if k < e.1 then (k, p) :: e :: m
    else if k = e.1 then e :: m
    else e :: mapEmplace m k p

/-- Assignment through the pointer `getPlayer` returns. -/
def mapSet (m : List (Nat × Player)) (k : Nat) (p : Player) : List (Nat × Player) :=
  m.map (fun e => if e.1 = k then (e.1, p) else e)

/-! ## `Session` -/

/-- The class `Session`; `startTime` is replaced by the tick count the
environment reports (`Env.tick`). -/
structure Session where
  guid : List Nat
  appGUID : List Nat
  name : List Nat
  flags : Nat
  maxPlayers : Nat := 10
  idXor : Nat := 0
  idUnique : Nat := 1
  players : List (Nat × Player) := []
deriving DecidableEq, Repr

/-- The constructor `Session(name, appGUID, flags)`. -/
def Session.init (name appGUID : List Nat) (flags : Nat) : Session :=
  { guid := List.replicate 16 1, appGUID := appGUID.take 16, name := name, flags := flags }

def Session.getGUID (s : Session) : List Nat := s.guid

def Session.getAppGUID (s : Session) : List Nat := s.appGUID

def Session.getName (s : Session) : List Nat := s.name

def Session.getFlags (s : Session) : Nat := s.flags

def Session.getMaxPlayers (s : Session) : Nat := s.maxPlayers

def Session.getCurrentPlayers (s : Session) : Nat :=
  (s.players.filter (fun e => e.2.getFlags &&& DPPlayer_System = 0)).length % 2 ^ 32

def Session.getIdXor (s : Session) : Nat := s.idXor

def Session.adjustId (s : Session) (id : Nat) : Nat := id ^^^ s.idXor

def Session.getPlayer (s : Session) (id : Nat) : Option Player := mapFind s.players id

def Session.getPlayers (s : Session) : List (Nat × Player) := s.players

/-- The `while` loop of `Session::allocPlayerId`.  The loop ends at the first
free id and never ends when all `2 ^ 32` ids are in use (`none`); `fuel` bounds
the rounds, and `players.size() + 1` rounds reach a free id whenever there is
one (`allocPlayerId_isSome`). -/
def allocPlayerIdLoop (players : List (Nat × Player)) : Nat → Nat → Option Nat
  | 0, _ => none
  | fuel + 1, newId =>
    if (mapFind players newId).isSome then allocPlayerIdLoop players fuel ((newId + 1) % 2 ^ 32)
    else some newId

/-- Embeds `Session::allocPlayerId`. -/
def Session.allocPlayerId (s : Session) : Option Nat :=
  allocPlayerIdLoop s.players (s.players.length + 1)
    ((s.players.length ||| ((s.idUnique <<< 16) % 2 ^ 32)) % 2 ^ 32)

/-- Embeds `Session::createNewSystemPlayer`: the new session and the player the
returned reference designates. -/
def Session.createNewSystemPlayer (s : Session) (flags : Nat := 0) :
    Option (Session × Player) := do
  let newId ← s.allocPlayerId
  let players := mapEmplace s.players newId (Player.init newId newId (flags ||| DPPlayer_System))
  pure ({ s with players := players }, (mapFind players newId).getD (Player.init newId newId 0))

/-- Embeds `Session::createNewPlayer`. -/
def Session.createNewPlayer (s : Session) (systemPlayerId : Nat) (flags : Nat := 0) :
    Option (Session × Player) := do
  let newId ← s.allocPlayerId
  let players := mapEmplace s.players newId (Player.init newId systemPlayerId flags)
  pure ({ s with players := players }, (mapFind players newId).getD (Player.init newId newId 0))

/-- Embeds `Session::deletePlayer`. -/
def Session.deletePlayer (s : Session) (id : Nat) : Session :=
  match mapFind s.players id with
  | none => s
  | some p =>
    if p.getFlags &&& DPPlayer_System ≠ 0 then
      { s with players := s.players.filter (fun e => e.2.getSystemPlayerId ≠ id) }
    else
      { s with players := s.players.filter (fun e => e.1 ≠ id) }

/-! ## `Client` -/

/-- What the operating system decides during one call. -/
structure Env where
  /-- The milliseconds `Session::getTickCount` measures. -/
  tick : Nat
  /-- Whether `tcpOutgoing.connect` reaches the client. -/
  tcpConnectOk : Bool
  /-- Whether connecting `udpSocket` succeeds. -/
  udpConnectOk : Bool
  /-- Whether `tcpOutgoing.sendAll` reports success. -/
  tcpSendOk : Bool
  /-- Whether `udpSocket.send` reports success. -/
  udpSendOk : Bool
deriving DecidableEq, Repr

/-- A buffer handed to a socket. -/
inductive Event where
  /-- The call `tcpOutgoing.sendAll(buffer, size)`. -/
  | tcpSend (bytes : List Nat)
  /-- The call `udpSocket.send(buffer, size)`. -/
  | udpSend (bytes : List Nat)
deriving DecidableEq, Repr

/-- A line written to `std::cout` or `std::cerr`. -/
inductive Diag where
  | shortFrame (len : Nat)
  | extFlags
  | frameTo (toId : Nat)
  | rpAck
  | rpMultiMsg
  | rpSeqErr
  | ackSendFailed
  | enumSessions (passwordOffset flags : Nat)
  | appGuidMismatch
  | enumSessionsReplyFailed
  | duplicateSystemPlayer
  | reqPlayerId (isSystem : Bool)
  | requestIdReplyFailed
  | playerNotFoundCreate
  | udpConnectFailed
  | playerNotFoundAddFwd
  | addForwardReplyFailed
  | badNestedPacket
  | packetFragment (packetIndex totalPackets : Nat)
  | unhandledCommand (command len : Nat)
  | rpMessage (bytes : List Nat)
  | openOutgoing
  | openOutgoingFailed
deriving DecidableEq, Repr

/-- The class `Client`.  A socket is represented by whether it holds a
descriptor (`getFd() != -1`); `tcpIncoming` is not touched by the member
functions embedded here and is left out. -/
structure Client where
  address : List Nat := []
  outgoingPort : Nat := 0
  tcpOutgoingOpen : Bool := false
  udpOpen : Bool := false
  systemPlayerId : Nat := 0xFFFFFFFF
  dataReceived : Nat := 0
  currentMessageId : Int := -1
  nextMessageSequence : Nat := 0
  messageBuffer : List Nat := []
deriving DecidableEq, Repr

/-- The state a member function of `Client` works on, what it has sent and
printed so far, and a record of the completed reliable-protocol messages. -/
structure World where
  session : Session
  client : Client
  out : List Event := []
  log : List Diag := []
  /-- The messages `handleCompletedRPMessage` has been called with. -/
  completed : List (List Nat) := []
deriving DecidableEq, Repr

def World.print (w : World) (d : Diag) : World := { w with log := w.log ++ [d] }

def World.emit (w : World) (e : Event) : World := { w with out := w.out ++ [e] }

/-- Embeds `Client::checkOutgoingSocket`. -/
def checkOutgoingSocket (env : Env) (w : World) : Bool × World :=
  if w.client.tcpOutgoingOpen then (true, w)
  else
    let w := w.print Diag.openOutgoing
    if env.tcpConnectOk then
      (true, { w with client := { w.client with tcpOutgoingOpen := true } })
    else
      (false, w.print Diag.openOutgoingFailed)

/-- Modelled from the spec: the three-argument `Socket::connect` that
`CreatePlayer` calls on `udpSocket` is not among the sources; as the
two-argument `Socket::connect` it refuses a socket that already holds a
descriptor and otherwise connects the socket to the client when the system
lets it. -/
def udpSocketConnect (env : Env) (w : World) : Bool × World :=
  if w.client.udpOpen then (false, w)
  else if env.udpConnectOk then (true, { w with client := { w.client with udpOpen := true } })
  else (false, w)

/-- Embeds `htons(port)` as the two bytes it leaves in memory. -/
def htonsBytes (port : Nat) : List Nat := [port % 65536 / 256, port % 256]

/-- Embeds `Client::fillOutgoingHeader`: the 28 bytes of the `DPSPMessageHeader`. -/
def fillOutgoingHeader (c : Client) (size command : Nat) : List Nat :=
  le32 ((size ||| (0xFAB <<< 20)) % 2 ^ 32)
    ++ le16 2 ++ htonsBytes c.outgoingPort ++ le32 0 ++ List.replicate 8 0
    ++ playSignature ++ le16 command ++ le16 14

/-- Embeds `Client::fillSessionDesc`: the 80 bytes of the `DPSessionDesc2`. -/
def fillSessionDesc (s : Session) : List Nat :=
  le32 80 ++ le32 s.getFlags ++ s.getGUID.take 16 ++ s.getAppGUID.take 16
    ++ le32 s.getMaxPlayers ++ le32 s.getCurrentPlayers
    ++ le32 0 ++ le32 0
    ++ le32 s.getIdXor ++ le32 0
    ++ le32 0 ++ le32 0 ++ le32 0 ++ le32 0

/-- The code units of a `std::u16string` as they lie in memory. -/
def unitsBytes (units : List Nat) : List Nat := units.flatMap le16

/-! ## `DPSPCommand` and the command handlers -/

def DPSPCommand.EnumSessionsReply : Nat := 1
def DPSPCommand.EnumSessions : Nat := 2
def DPSPCommand.RequestPlayerId : Nat := 5
def DPSPCommand.RequestPlayerReply : Nat := 7
def DPSPCommand.CreatePlayer : Nat := 8
def DPSPCommand.AddForwardRequest : Nat := 19
def DPSPCommand.Packet : Nat := 21
def DPSPCommand.SuperEnumPlayersReply : Nat := 41

def RequestPlayerId_System : Nat := 1 <<< 0

def DPSuperPlayer_ServiceProviderDataShift : Nat := 2

/-- What `sendAll` is given and what is printed when it fails. -/
def sendReply (env : Env) (w : World) (reply : List Nat) (failed : Diag) : World :=
  let w := w.emit (Event.tcpSend reply)
  if env.tcpSendOk then w else w.print failed

/-- The bytes of the `EnumSessionsReply` message built in `case EnumSessions`. -/
def enumSessionsReply (c : Client) (s : Session) : List Nat :=
  let sessionName := convertUTF8ToUCS2 s.getName
  let replySize := 28 + 84 + (sessionName.length + 1) * 2
  fillOutgoingHeader c replySize DPSPCommand.EnumSessionsReply
    ++ fillSessionDesc s ++ le32 (84 + 8) ++ unitsBytes sessionName ++ [0, 0]

/-- Embeds `case DPSPCommand::EnumSessions` of `Client::handleDPlayCommand`. -/
def handleEnumSessions (env : Env) (mem : List Nat) (data : Nat) (w : World) :
    Option (Bool × World) := do
  let passwordOffset ← rd32 mem (data + 16)
  let flags ← rd32 mem (data + 20)
  let w := w.print (Diag.enumSessions passwordOffset flags)
  let applicationGUID ← rdBytes mem data 16
  if applicationGUID ≠ w.session.getAppGUID.take 16 then
    pure (true, w.print Diag.appGuidMismatch)
  else
    let (ok, w) := checkOutgoingSocket env w
    if ok then
      pure (true, sendReply env w (enumSessionsReply w.client w.session)
        Diag.enumSessionsReplyFailed)
    else pure (true, w)

/-- The bytes of the `RequestPlayerReply` message built in
`case RequestPlayerId`: header, the id, and the zeroed rest of the body. -/
def requestPlayerReply (c : Client) (s : Session) (newPlayer : Player) : List Nat :=
  fillOutgoingHeader c (28 + 40) DPSPCommand.RequestPlayerReply
    ++ le32 (s.adjustId newPlayer.getId) ++ List.replicate 36 0

/-- Embeds `case DPSPCommand::RequestPlayerId` of `Client::handleDPlayCommand`. -/
def handleRequestPlayerId (env : Env) (mem : List Nat) (data : Nat) (w : World) :
    Option (Bool × World) := do
  let flags ← rd32 mem data
  let isSystem : Bool := decide (flags &&& RequestPlayerId_System ≠ 0)
  if isSystem ∧ w.client.systemPlayerId ≠ 0xFFFFFFFF then
    pure (true, w.print Diag.duplicateSystemPlayer)
  else
    let w := w.print (Diag.reqPlayerId isSystem)
    let (session, newPlayer) ←
      if isSystem then w.session.createNewSystemPlayer
      else w.session.createNewPlayer w.client.systemPlayerId
    let w := { w with session := session }
    let w :=
      if isSystem then { w with client := { w.client with systemPlayerId := newPlayer.getId } }
      else w
    let (ok, w) := checkOutgoingSocket env w
    if ok then
      pure (true, sendReply env w (requestPlayerReply w.client w.session newPlayer)
        Diag.requestIdReplyFailed)
    else pure (true, w)

/-- The statements that `case CreatePlayer` and `case AddForwardRequest` both
run on the player they found (`key` is its id, `info` the offset of the
`DPPackedPlayer`): short name, long name, service-provider data. -/
def storePlayerInfo (mem : List Nat) (info key : Nat) (player : Player) (s : Session) :
    Option Session := do
  let ptr := info + 48
  let shortNameLength ← rd32 mem (info + 12)
  let shortName ← rdUnits mem ptr (shortNameLength / 2)
  let ptr := ptr + shortNameLength
  let player := player.setShortName (← convertUCS2ToUTF8 shortName)
  let longNameLength ← rd32 mem (info + 16)
  let longName ← rdUnits mem ptr (longNameLength / 2)
  let ptr := ptr + longNameLength
  let player := player.setShortName (← convertUCS2ToUTF8 longName)
  let serviceProviderDataSize ← rd32 mem (info + 20)
  let player ←
    if serviceProviderDataSize ≠ 0 then
      (rdBytes mem ptr serviceProviderDataSize).map player.setServiceProviderData
    else some player
  pure { s with players := mapSet s.players key player }

/-- The pointer `data + cmd->createOffset - 8`; it has no meaning in front of
the underlying array. -/
def playerInfoOffset (mem : List Nat) (data : Nat) : Option Nat := do
  let createOffset ← rd32 mem (data + 12)
  if data + createOffset < 8 then none else pure (data + createOffset - 8)

/-- Embeds `case DPSPCommand::CreatePlayer` of `Client::handleDPlayCommand`. -/
def handleCreatePlayer (env : Env) (mem : List Nat) (data : Nat) (w : World) :
    Option (Bool × World) := do
  let info ← playerInfoOffset mem data
  let playerId ← rd32 mem (info + 8)
  let key := w.session.adjustId playerId
  match w.session.getPlayer key with
  | none => pure (true, w.print Diag.playerNotFoundCreate)
  | some player =>
    let session ← storePlayerInfo mem info key player w.session
    let w := { w with session := session }
    let (ok, w) := udpSocketConnect env w
    if ok then pure (true, w) else pure (true, w.print Diag.udpConnectFailed)

/-- One entry of the player list of the `SuperEnumPlayersReply`: the
`DPSuperPackedPlayer` and, for a player with service-provider data, the length
byte and the data. -/
def superPackedPlayer (s : Session) (e : Nat × Player) : List Nat :=
  let flags := e.2.getFlags % 2 ^ 32
  let spDataLen := e.2.getServiceProviderDataLen
  le32 16 ++ le32 flags ++ le32 (s.adjustId e.1)
    ++ le32 (if spDataLen ≠ 0 then 0 ||| (1 <<< DPSuperPlayer_ServiceProviderDataShift) else 0)
    ++ le32 (if flags &&& DPPlayer_System ≠ 0 then 14 else e.2.getSystemPlayerId)
    ++ (if spDataLen ≠ 0 then
          (spDataLen % 256) :: e.2.getServiceProviderData.take spDataLen
        else [])

/-- The `replySize` that `case AddForwardRequest` computes before it allocates
the reply. -/
def superEnumPlayersReplySize (s : Session) : Nat :=
  let sessionName := convertUTF8ToUCS2 s.getName
  28 + 28 + (80 + (sessionName.length + 1) * 2) + 20 * s.getPlayers.length
    + (s.getPlayers.map (fun e =>
        if e.2.getServiceProviderDataLen ≠ 0 then (e.2.getServiceProviderDataLen + 1) % 2 ^ 32
        else 0)).sum

/-- The bytes that `case AddForwardRequest` writes into the reply, in the order
of the write cursor. -/
def superEnumPlayersReply (c : Client) (s : Session) : List Nat :=
  let sessionName := convertUTF8ToUCS2 s.getName
  let descriptionOffset := 28 + 28 - 20
  let nameOffset := 28 + 28 + 80 - 20
  let packedOffset := 28 + 28 + 80 + sessionName.length * 2 + 2 - 20
  fillOutgoingHeader c (superEnumPlayersReplySize s) DPSPCommand.SuperEnumPlayersReply
    ++ (le32 s.getPlayers.length ++ le32 0 ++ le32 packedOffset ++ le32 0
        ++ le32 descriptionOffset ++ le32 nameOffset ++ le32 0)
    ++ fillSessionDesc s
    ++ unitsBytes sessionName ++ [0, 0]
    ++ s.getPlayers.flatMap (superPackedPlayer s)

/-- Embeds `case DPSPCommand::AddForwardRequest` of `Client::handleDPlayCommand`.  The
reply is sent when the bytes written fill the allocation exactly; writing past
it has no defined result. -/
def handleAddForwardRequest (env : Env) (mem : List Nat) (data : Nat) (w : World) :
    Option (Bool × World) := do
  let info ← playerInfoOffset mem data
  let size ← rd32 mem info
  let passwordLength ← u16Length mem (mem.length + 1) (info + size)
  let _tickCount ← rd32 mem (info + size + (passwordLength + 1) * 2)
  let playerId ← rd32 mem (info + 8)
  let key := w.session.adjustId playerId
  match w.session.getPlayer key with
  | none => pure (true, w.print Diag.playerNotFoundAddFwd)
  | some player =>
    let session ← storePlayerInfo mem info key player w.session
    let w := { w with session := session }
    let (ok, w) := checkOutgoingSocket env w
    if ok then
      let reply := superEnumPlayersReply w.client w.session
      if reply.length = superEnumPlayersReplySize w.session then
        pure (true, sendReply env w reply Diag.addForwardReplyFailed)
      else none
    else pure (true, w)

/-- Embeds `Client::handleDPlayCommand`, `data` being an offset into `mem`.  Only
`case Packet` calls the function again, on a body that starts 48 bytes further
into `mem`, so `fuel` bounds the nesting of `Packet` messages. -/
def handleDPlayCommandFuel (env : Env) (mem : List Nat) :
    Nat → Nat → Nat → Nat → World → Option (Bool × World)
  | 0, _, _, _, _ => none
  | fuel + 1, command, data, len, w =>
    if command = DPSPCommand.EnumSessions then handleEnumSessions env mem data w
    else if command = DPSPCommand.RequestPlayerId then handleRequestPlayerId env mem data w
    else if command = DPSPCommand.CreatePlayer then handleCreatePlayer env mem data w
    else if command = DPSPCommand.AddForwardRequest then handleAddForwardRequest env mem data w
    else if command = DPSPCommand.Packet then do
      let totalPackets ← rd32 mem (data + 28)
      if totalPackets = 1 then
        let packetHeader ← rdBytes mem (data + 40) 8
        let version ← rd16 packetHeader 6
        if version ≠ 14 ∨ packetHeader.take 4 ≠ playSignature then
          pure (true, w.print Diag.badNestedPacket)
        else
          let nested ← rd16 packetHeader 4
          let dataSize ← rd32 mem (data + 20)
          handleDPlayCommandFuel env mem fuel nested (data + 40 + 8) ((dataSize + 2 ^ 64 - 8) % 2 ^ 64) w
      else
        let packetIndex ← rd32 mem (data + 16)
        pure (true, w.print (Diag.packetFragment packetIndex totalPackets))
    else
      pure (false, w.print (Diag.unhandledCommand command len))

/-- Embeds `Client::handleDPlayCommand(command, data, len)`.  A nested call needs 48
bytes of `mem` in front of its body, so `mem.length + 1` levels always
suffice (`handleDPlayCommandFuel_enough`). -/
def handleDPlayCommand (env : Env) (mem : List Nat) (command data len : Nat) (w : World) :
    Option (Bool × World) :=
  handleDPlayCommandFuel env mem (mem.length + 1) command data len w

/-- The value and the effect of `Client::handleDPlayPacket(data, len)`: the
returned `bool`, the value left in the reference argument `len`, and the
state. -/
structure PacketResult where
  ret : Bool
  len : Nat
  world : World
deriving DecidableEq, Repr

/-- Embeds `Client::handleDPlayPacket`; `mem` is the array `data` points to the start
of. -/
def handleDPlayPacket (env : Env) (mem : List Nat) (len : Nat) (w : World) :
    Option PacketResult :=
  if len < 28 then
    some { ret := false, len := 0, world := w }
  else do
    let sizeToken ← rd32 mem 0
    let packetSize := sizeToken &&& 0xFFFFF
    if len < packetSize then
      pure { ret := false, len := packetSize, world := w }
    else
      let signature ← rdBytes mem 20 4
      if signature ≠ playSignature then
        pure { ret := false, len := packetSize, world := w }
      else
        let version ← rd16 mem 26
        if version ≠ 14 then
          pure { ret := false, len := packetSize, world := w }
        else
          let command ← rd16 mem 24
          let (ret, w) ← handleDPlayCommand env mem command 28 ((packetSize + 2 ^ 64 - 28) % 2 ^ 64) w
          pure { ret := ret, len := packetSize, world := w }

/-- Embeds `Client::handleCompletedRPMessage(data, len)`, `data` being an offset into
`mem`. -/
def handleCompletedRPMessage (env : Env) (mem : List Nat) (data len : Nat) (w : World) :
    Option World := do
  let w := { w with completed := w.completed ++ [(mem.drop data).take len] }
  let signature ← rdBytes mem data 4
  if signature = playSignature then
    let packetHeader ← rdBytes mem data 8
    let command ← rd16 packetHeader 4
    let (_, w) ← handleDPlayCommand env mem command (data + 8) ((len + 2 ^ 64 - 8) % 2 ^ 64) w
    pure w
  else
    let bytes ← rdBytes mem data len
    pure (w.print (Diag.rpMessage bytes))

/-! ## `Client::handleUDPRead` -/

/-- The fields `handleUDPRead` takes from the front of a datagram; `ptr` is the
offset of the payload, `idLen` the length of the two ids. -/
structure RPFrame where
  fromId : Nat
  toId : Nat
  idLen : Nat
  flags : Nat
  messageId : Nat
  sequence : Nat
  serial : Nat
  ptr : Nat
deriving DecidableEq, Repr

/-- The header part of `Client::handleUDPRead` for a datagram of `len >= 6`
bytes in `buf`: the two ids and the four fixed bytes.  The inner `none` is the
return taken when fewer than four bytes follow the ids. -/
def readRPFrame (buf : List Nat) (len : Nat) : Option (Option RPFrame) := do
  let (fromId, ptr) ← readRPId buf 0
  let (toId, ptr) ← readRPId buf ptr
  let idLen := ptr
  if (len : Int) - ptr < 4 then
    pure none
  else
    let flags ← rd8 buf ptr
    let messageId ← rd8 buf (ptr + 1)
    let sequence ← rd8 buf (ptr + 2)
    let serial ← rd8 buf (ptr + 3)
    pure (some { fromId := fromId, toId := toId, idLen := idLen, flags := flags,
                 messageId := messageId, sequence := sequence, serial := serial,
                 ptr := ptr + 4 })

/-- The `if (Ack) … else if (Start && End) … else …` statement of
`Client::handleUDPRead` for a frame whose payload is the `dataLen` bytes at
`f.ptr`.  The flag is `false` when the statement leaves the function (`rp seq
err`) and `true` when control goes on to the ack. -/
def assembleRPFrame (env : Env) (buf : List Nat) (f : RPFrame) (dataLen : Nat) (w : World) :
    Option (Bool × World) :=
  if f.flags &&& DPRPFrame_Ack ≠ 0 then
    some (true, w.print Diag.rpAck)
  else if f.flags &&& DPRPFrame_Start ≠ 0 ∧ f.flags &&& DPRPFrame_End ≠ 0 then
    (handleCompletedRPMessage env buf f.ptr dataLen w).map (fun w => (true, w))
  else do
    let step : Option World ←
      if f.flags &&& DPRPFrame_Start ≠ 0 then do
        let w := if w.client.currentMessageId ≠ -1 then w.print Diag.rpMultiMsg else w
        let payload ← rdBytes buf f.ptr dataLen
        pure (some { w with client := { w.client with
          currentMessageId := (f.messageId : Int)
          nextMessageSequence := (f.sequence + 1) % 256
          messageBuffer := payload } })
      else if f.sequence = w.client.nextMessageSequence then do
        let payload ← rdBytes buf f.ptr dataLen
        pure (some { w with client := { w.client with
          messageBuffer := w.client.messageBuffer ++ payload
          nextMessageSequence := (w.client.nextMessageSequence + 1) % 256 } })
      else pure none
    match step with
    | none => pure (false, w.print Diag.rpSeqErr)
    | some w =>
      if f.flags &&& DPRPFrame_End ≠ 0 then do
        let w ← handleCompletedRPMessage env w.client.messageBuffer 0
                  w.client.messageBuffer.length w
        pure (true, { w with client := { w.client with currentMessageId := -1 } })
      else pure (true, w)

/-- The bytes of the ack for the frame `f`: the header with the ids swapped and
the two 32-bit fields. -/
def rpAck (tick : Nat) (f : RPFrame) (dataReceived : Nat) : List Nat :=
  fillRPHeader f.toId f.fromId ((DPRPFrame_Ack ||| (f.flags &&& DPRPFrame_Reliable)) % 256)
      f.messageId f.sequence f.serial
    ++ le32 dataReceived ++ le32 (tick % 2 ^ 32)

/-- The ack that `Client::handleUDPRead` sends for a frame with `End` or
`SendAck`.  `replySize` bytes are allocated and sent; the frame is defined
when the bytes written fill the allocation exactly (writing past it has no
defined result). -/
def sendRPAck (env : Env) (f : RPFrame) (w : World) : Option World :=
  if f.flags &&& (DPRPFrame_End ||| DPRPFrame_SendAck) ≠ 0 then
    let replySize := getRPHeaderSize f.toId f.fromId + 8
    let reply := rpAck env.tick f w.client.dataReceived
    if reply.length = replySize then
      let w := w.emit (Event.udpSend reply)
      some (if env.udpSendOk then w else w.print Diag.ackSendFailed)
    else none
  else some w

/-- The statement `dataReceived += len - idLen`. -/
def World.received (w : World) (n : Nat) : World :=
  { w with client := { w.client with dataReceived := (w.client.dataReceived + n) % 2 ^ 32 } }

/-- Embeds `Client::handleUDPRead`.  `buf` is the content of the local array after
`recvfrom` has put a datagram at its front, `len` what `recvfrom` returned:
`Socket::recv` closes the socket on `0` and reports an error as it is. -/
def handleUDPRead (env : Env) (buf : List Nat) (len : Int) (w : World) : Option World :=
  if len = 0 then
    some { w with client := { w.client with udpOpen := false } }
  else if len < 0 then
    some w
  else
    let len := len.toNat
    if len < 6 then
      some (w.print (Diag.shortFrame len))
    else do
      match ← readRPFrame buf len with
      | none => pure (w.print (Diag.shortFrame len))
      | some f =>
        if f.flags &&& DPRPFrame_Extended ≠ 0 then
          pure (w.print Diag.extFlags)
        else
          let dataLen := len - f.ptr
          let w := w.received (len - f.idLen)
          if f.toId ≠ 0 then
            pure (w.print (Diag.frameTo f.toId))
          else
            let (goOn, w) ← assembleRPFrame env buf f dataLen w
            if goOn then sendRPAck env f w else pure w

/-- One datagram as `Client::handleUDPRead` finds it: the environment of the
call, the local array after `recvfrom`, and the length `recvfrom` returned. -/
structure Recv where
  env : Env
  buf : List Nat
  len : Int
deriving DecidableEq, Repr

/-- Successive calls of `Client::handleUDPRead`, one per datagram. -/
def handleUDPReads : List Recv → World → Option World
  | [], w => some w
  | d :: rest, w => (handleUDPRead d.env d.buf d.len w).bind (handleUDPReads rest)

/-- The frames among the buffers handed to `udpSocket.send`. -/
def udpFrames (out : List Event) : List (List Nat) :=
  out.filterMap (fun e => match e with
    | Event.udpSend bytes => some bytes
    | Event.tcpSend _ => none)

/-- The payload of a datagram of `len` bytes whose header is `f`. -/
def rpPayload (buf : List Nat) (len : Int) (f : RPFrame) : List Nat :=
  (buf.drop f.ptr).take (len.toNat - f.ptr)

/-! ## What the command handlers leave alone

The command handlers work on the session, on the two sockets and on
`systemPlayerId`; they never touch the reliable-protocol members of `Client`,
the record of completed messages, or the UDP socket's output. -/

/-- The part of the state that only `handleUDPRead` itself changes. -/
structure RPView where
  dataReceived : Nat
  currentMessageId : Int
  nextMessageSequence : Nat
  messageBuffer : List Nat
  completed : List (List Nat)
  frames : List (List Nat)
deriving DecidableEq, Repr

def World.rpView (w : World) : RPView :=
  { dataReceived := w.client.dataReceived
    currentMessageId := w.client.currentMessageId
    nextMessageSequence := w.client.nextMessageSequence
    messageBuffer := w.client.messageBuffer
    completed := w.completed
    frames := udpFrames w.out }

/-- The datagram `d` is one that `handleUDPRead` reads as the frame `f` and
takes up to the assembly: at least 6 bytes, all of them inside the array, the
four fixed bytes present, no `Extended` bit, addressed to id 0. -/
def Recv.Carries (d : Recv) (f : RPFrame) : Prop :=
  6 ≤ d.len ∧ d.len.toNat ≤ d.buf.length ∧ readRPFrame d.buf d.len.toNat = some (some f)
    ∧ f.flags &&& DPRPFrame_Extended = 0 ∧ f.toId = 0

instance (d : Recv) (f : RPFrame) : Decidable (d.Carries f) :=
  inferInstanceAs (Decidable (6 ≤ d.len ∧ d.len.toNat ≤ d.buf.length
    ∧ readRPFrame d.buf d.len.toNat = some (some f)
    ∧ f.flags &&& DPRPFrame_Extended = 0 ∧ f.toId = 0))

/-- What a frame without `Ack` that `handleUDPRead` takes up to the assembly
does to the reliable-protocol part of the state, as a function of that part
alone (`handleUDPRead_rpView` proves it of `handleUDPRead`): `len` is the
length of the datagram and `payload` its payload. -/
def rpViewAfter (tick : Nat) (f : RPFrame) (len : Nat) (payload : List Nat) (v : RPView) :
    RPView :=
  let received := (v.dataReceived + (len - f.idLen)) % 2 ^ 32
  let acks :=
    if f.flags &&& (DPRPFrame_End ||| DPRPFrame_SendAck) ≠ 0 then [rpAck tick f received]
    else []
  if f.flags &&& DPRPFrame_Start ≠ 0 ∧ f.flags &&& DPRPFrame_End ≠ 0 then
    { v with
      dataReceived := received
      completed := v.completed ++ [payload]
      frames := v.frames ++ acks }
  else if f.flags &&& DPRPFrame_Start ≠ 0 then
    { v with
      dataReceived := received
      currentMessageId := (f.messageId : Int)
      nextMessageSequence := (f.sequence + 1) % 256
      messageBuffer := payload
      frames := v.frames ++ acks }
  else if f.sequence = v.nextMessageSequence then
    if f.flags &&& DPRPFrame_End ≠ 0 then
      { dataReceived := received
        currentMessageId := -1
        nextMessageSequence := (v.nextMessageSequence + 1) % 256
        messageBuffer := v.messageBuffer ++ payload
        completed := v.completed ++ [v.messageBuffer ++ payload]
        frames := v.frames ++ acks }
    else
      { v with
        dataReceived := received
        nextMessageSequence := (v.nextMessageSequence + 1) % 256
        messageBuffer := v.messageBuffer ++ payload
        frames := v.frames ++ acks }
  else
    { v with dataReceived := received }

/-- The payloads of a run of datagrams, each paired with the frame it is read
as, one after the other. -/
def rpPayloads (fs : List (Recv × RPFrame)) : List Nat :=
  fs.flatMap (fun x => rpPayload x.1.buf x.1.len x.2)

/-- Two successive frames carry successive sequence numbers (modulo 256). -/
def NextSequence (a b : Recv × RPFrame) : Prop :=
  b.2.sequence = (a.2.sequence + 1) % 256

instance (a b : Recv × RPFrame) : Decidable (NextSequence a b) :=
  inferInstanceAs (Decidable (b.2.sequence = (a.2.sequence + 1) % 256))

/-! ## Example inputs -/

/-- A session with a system player `0x10000` and a player `0x10001` that
belongs to it, as two `RequestPlayerId` messages of one client leave it. -/
def exampleSession : Session :=
  { guid := List.replicate 16 1, appGUID := List.replicate 16 7, name := [0x54, 0x65],
    flags := 0,
    players := [(0x10000, Player.init 0x10000 0x10000 DPPlayer_System),
                (0x10001, Player.init 0x10001 0x10000 0)] }

/-- An environment in which every connect and every send succeeds. -/
def exampleEnv : Env :=
  { tick := 5, tcpConnectOk := true, udpConnectOk := true, tcpSendOk := true, udpSendOk := true }

/-- The client that owns the system player of `exampleSession`. -/
def exampleClient : Client := { systemPlayerId := 0x10000, tcpOutgoingOpen := true }

def exampleWorld : World := { session := exampleSession, client := exampleClient }

/-- The body of a `CreatePlayer` message for player `0x10001`: the 20 bytes of
`DPSPMessageCreatePlayer` (`createOffset` 28), the 48 bytes of `DPPackedPlayer`
with a short name of 4 bytes, a long name of 4 bytes and 2 bytes of
service-provider data, then `"A\0"`, `"B\0"` in UTF-16LE and the data. -/
def exampleCreatePlayerBody : List Nat :=
  (le32 0 ++ le32 0x10001 ++ le32 0 ++ le32 28 ++ le32 0)
    ++ (le32 58 ++ le32 0 ++ le32 0x10001 ++ le32 4 ++ le32 4 ++ le32 2 ++ le32 0 ++ le32 0
        ++ le32 0x10000 ++ le32 48 ++ le32 14 ++ le32 0)
    ++ [0x41, 0, 0, 0] ++ [0x42, 0, 0, 0] ++ [0xAA, 0xBB]

/-- A top-level header of 28 bytes: `sizeToken` with the given size in its low
20 bits and the token `0xFAB`, a zero `sockaddr`, then signature, command and
version. -/
def exampleHeader (size : Nat) (signature : List Nat) (command version : Nat) : List Nat :=
  le32 (size ||| (0xFAB <<< 20)) ++ List.replicate 16 0 ++ signature ++ le16 command
    ++ le16 version

/-- A complete `RequestPlayerId` message of 32 bytes asking for a system
player. -/
def exampleRequestSystemId : List Nat :=
  exampleHeader 32 playSignature DPSPCommand.RequestPlayerId 14 ++ le32 RequestPlayerId_System

/-- A message of 40 bytes with an unknown command (12 zero bytes of body). -/
def exampleMessage40 : List Nat :=
  exampleHeader 40 playSignature 0 14 ++ List.replicate 12 0

/-- A client that has not been given a system player yet, on the example
session. -/
def freshWorld : World := { session := exampleSession, client := {} }

/-- A datagram with ids 1 and 0 (one byte each), the given flags, message id,
sequence number and serial, and a payload; two stale bytes of the receive
array follow it. -/
def exampleDatagram (flags messageId sequence serial : Nat) (payload : List Nat) : Recv :=
  { env := exampleEnv
    buf := [1, 0, flags, messageId, sequence, serial] ++ payload ++ [0xEE, 0xEE]
    len := (6 + payload.length : Nat) }

/-- The frame `handleUDPRead` reads from `exampleDatagram`. -/
def exampleFrame (flags messageId sequence serial : Nat) : RPFrame :=
  { fromId := 1, toId := 0, idLen := 2, flags := flags, messageId := messageId,
    sequence := sequence, serial := serial, ptr := 6 }

/-- The three frames of scenario E4: message id 7, sequence numbers 0, 1, 2,
flags `Start|Reliable`, `Reliable`, `End|SendAck|Reliable`; together they carry
a `RequestPlayerId` command (short header and four bytes of flags). -/
def e4Frames : List (Recv × RPFrame) :=
  [(exampleDatagram 0x11 7 0 9 (playSignature ++ le16 DPSPCommand.RequestPlayerId ++ le16 14
      ++ [0]), exampleFrame 0x11 7 0 9),
   (exampleDatagram 0x01 7 1 9 [0], exampleFrame 0x01 7 1 9),
   (exampleDatagram 0x0D 7 2 9 [0, 0], exampleFrame 0x0D 7 2 9)]

/-- The state the three frames of E4 lead to from `exampleWorld`. -/
def e4World : World :=
  (handleUDPReads (e4Frames.map Prod.fst) exampleWorld).getD exampleWorld

/-- A client in the middle of assembling message 7: two bytes buffered,
sequence number 1 expected. -/
def assemblingWorld : World :=
  { session := exampleSession
    client := { exampleClient with
      currentMessageId := 7, nextMessageSequence := 1, messageBuffer := [1, 2] } }

/-! ## Histories of a session -/

/-- The states of a `Session` that calls of `createNewSystemPlayer`,
`createNewPlayer` and `deletePlayer` lead to from a session without players;
`allowed` says which `flags` arguments `createNewPlayer` is called with. -/
inductive Session.Reachable (allowed : Nat → Prop) : Session → Prop where
  | empty (s : Session) : s.players = [] → Session.Reachable allowed s
  | createSystem (s s2 : Session) (flags : Nat) (p : Player) :
      Session.Reachable allowed s → s.createNewSystemPlayer flags = some (s2, p) →
      Session.Reachable allowed s2
  | create (s s2 : Session) (systemPlayerId flags : Nat) (p : Player) :
      Session.Reachable allowed s → allowed flags →
      s.createNewPlayer systemPlayerId flags = some (s2, p) →
      Session.Reachable allowed s2
  | delete (s : Session) (id : Nat) :
      Session.Reachable allowed s → Session.Reachable allowed (s.deletePlayer id)

/-- One read of the main loop from a TCP socket or the discovery socket: the
environment of the call, the local array and the received length. -/
structure Read where
  env : Env
  buf : List Nat
  len : Nat
deriving DecidableEq, Repr

/-- Successive calls of `Client::handleDPlayPacket` as the main loop makes
them, one per read; the loop uses neither the returned `bool` nor, but for a
console line, the length. -/
def handleDPlayPackets : List Read → World → Option World
  | [], w => some w
  | d :: rest, w =>
    (handleDPlayPacket d.env d.buf d.len w).bind (fun r => handleDPlayPackets rest r.world)

/-- The session of `exampleSession` before any player was created. -/
def emptySession : Session := { exampleSession with players := [] }

/-- The session of `exampleSession` with its system player only. -/
def systemOnlySession : Session :=
  { exampleSession with players := [(0x10000, Player.init 0x10000 0x10000 DPPlayer_System)] }

/-- A complete `RequestPlayerId` message of 32 bytes asking for a player that
is not a system player. -/
def exampleRequestPlayerId : List Nat :=
  exampleHeader 32 playSignature DPSPCommand.RequestPlayerId 14 ++ le32 0

/-- An environment in which no connection to the client can be opened, so that
no reply is built. -/
def offlineEnv : Env :=
  { tick := 5, tcpConnectOk := false, udpConnectOk := false, tcpSendOk := false,
    udpSendOk := false }

/-- A datagram with ids 1 and 0 in which a four-byte payload follows the
header; used with flags that carry the `Ack`, `Big` or `Extended` bit. -/
def flaggedDatagram (flags : Nat) : Recv :=
  exampleDatagram flags 7 0 9 [0x61, 0x62, 0x63, 0x64]

/-- A completed reliable-protocol message that begins with `"play"`, names the
command `RequestPlayerId` and the version 13, and asks for a system player. -/
def version13Message : List Nat :=
  playSignature ++ le16 DPSPCommand.RequestPlayerId ++ le16 13 ++ le32 RequestPlayerId_System

/-- The body of a `Packet` command with `totalPackets = 1` that wraps the
message `version13Message`. -/
def version13Packet : List Nat :=
  List.replicate 16 0 ++ le32 0 ++ le32 version13Message.length ++ le32 0 ++ le32 1
    ++ le32 version13Message.length ++ le32 0 ++ version13Message

/-- A session named `"TestRoom"`, without players. -/
def testRoomSession : Session :=
  { guid := List.replicate 16 1, appGUID := List.replicate 16 7,
    name := [0x54, 0x65, 0x73, 0x74, 0x52, 0x6F, 0x6F, 0x6D], flags := 0 }

/-- A client without connection on the session named `"TestRoom"`. -/
def testRoomWorld : World := { session := testRoomSession, client := {} }

/-- The body of an `EnumSessions` message that names the application GUID
`07 .. 07`: the GUID, `passwordOffset` 0 and `flags` 1. -/
def exampleEnumSessions : List Nat := List.replicate 16 7 ++ le32 0 ++ le32 1

/-- The body of an `AddForwardRequest` message for player `0x10001`: the bytes of
`exampleCreatePlayerBody`, then an empty password (`"\0"` in UTF-16LE) and a
tick count. -/
def exampleAddForwardBody : List Nat := exampleCreatePlayerBody ++ [0, 0] ++ le32 77

/-- The body of an `AddForwardRequest` message for player `0x10001` that carries
300 bytes of service-provider data (`CC .. CC`), no names, an empty password
and a tick count. -/
def largeDataAddForwardBody : List Nat :=
  (le32 0 ++ le32 0x10001 ++ le32 0 ++ le32 28 ++ le32 0)
    ++ (le32 348 ++ le32 0 ++ le32 0x10001 ++ le32 0 ++ le32 0 ++ le32 300 ++ le32 0 ++ le32 0
        ++ le32 0x10000 ++ le32 48 ++ le32 14 ++ le32 0)
    ++ List.replicate 300 0xCC ++ [0, 0] ++ le32 77

/-- A datagram from id 15000 (two bytes, `98 75`) to id 0 with flags
`Start|End|SendAck`, message id 7, sequence 0, serial 9 and the payload
`61 62 63 64`. -/
def farSenderDatagram : Recv :=
  { env := exampleEnv, buf := [0x98, 0x75, 0, 0x1C, 7, 0, 9, 0x61, 0x62, 0x63, 0x64], len := 11 }

/-- A complete top-level message of 28 bytes whose `sizeToken` declares the size
0: signature `"play"`, version 14, the unknown command 0. -/
def zeroSizeMessage : List Nat := exampleHeader 0 playSignature 0 14

/-- The body of a `Packet` command with `totalPackets = 1` that wraps a
`RequestPlayerId` message (short header with version 14, `flags` 0). -/
def examplePacket : List Nat :=
  List.replicate 16 0 ++ le32 0 ++ le32 12 ++ le32 0 ++ le32 1 ++ le32 12 ++ le32 0
    ++ (playSignature ++ le16 DPSPCommand.RequestPlayerId ++ le16 14 ++ le32 0)

/-- The body of a `Packet` command that is the second of three fragments. -/
def exampleFragment : List Nat :=
  List.replicate 16 0 ++ le32 1 ++ le32 12 ++ le32 0 ++ le32 3 ++ le32 36 ++ le32 0
    ++ (playSignature ++ le16 DPSPCommand.RequestPlayerId ++ le16 14 ++ le32 0)

/-- The states of a `Session` reached from a session without players when
`createNewSystemPlayer` and `createNewPlayer` are only called while the session
holds fewer than `limit` players. -/
inductive Session.ReachableBelow (limit : Nat) : Session → Prop where
  | empty (s : Session) : s.players = [] → Session.ReachableBelow limit s
  | createSystem (s s2 : Session) (flags : Nat) (p : Player) :
      Session.ReachableBelow limit s → s.players.length < limit →
      s.createNewSystemPlayer flags = some (s2, p) → Session.ReachableBelow limit s2
  | create (s s2 : Session) (systemPlayerId flags : Nat) (p : Player) :
      Session.ReachableBelow limit s → s.players.length < limit →
      s.createNewPlayer systemPlayerId flags = some (s2, p) → Session.ReachableBelow limit s2
  | delete (s : Session) (id : Nat) :
      Session.ReachableBelow limit s → Session.ReachableBelow limit (s.deletePlayer id)

/-- The player map after a system player `0x10000` and `k - 1` players that belong
to it were created one after the other in the empty session. -/
def fullPlayers (k : Nat) : List (Nat × Player) :=
  (List.range k).map (fun i =>
    (0x10000 + i,
      if i = 0 then Player.init (0x10000 + i) (0x10000 + i) (0 ||| DPPlayer_System)
      else Player.init (0x10000 + i) 0x10000 0))

/-- The session of `emptySession` with the players `fullPlayers k`. -/
def fullSession (k : Nat) : Session := { emptySession with players := fullPlayers k }

/-- A session that holds one player, with the id `0x20000`. -/
def overflowSession : Session :=
  { emptySession with players := [(0x20000, Player.init 0x20000 0xFFFFFFFF 0)] }

/-! ## `IniFile`

The configuration file of `IniFile.cpp`.  Characters are their codes; the two
`std::map`s are lists of entries in the order of insertion (only `find` and
`emplace` are used of them); what `load` writes to `std::cerr` is left out. -/

/-- Embeds `std::isspace` in the "C" locale: space, `\t`, `\n`, `\v`, `\f`, `\r`. -/
def isSpace (c : Nat) : Bool := c = 0x20 ∨ (0x09 ≤ c ∧ c ≤ 0x0D)

/-- The lambda `isComment` of `IniFile::load`: the view starts with `;` or with `//`. -/
def isComment (s : List Nat) : Bool :=
  match s with
  | [] => false
  | c :: rest => c = 0x3B ∨ (c = 0x2F ∧ rest.head? = some 0x2F)

/-- The lambda `stripLeft` of `IniFile::load`. -/
def stripLeft (s : List Nat) : List Nat := s.dropWhile isSpace

/-- The lambda `stripRight` of `IniFile::load`. -/
def stripRight (s : List Nat) : List Nat := (s.reverse.dropWhile isSpace).reverse

/-- The loop that strips a trailing comment from a value that is not quoted: the
value is cut at the first position at which a comment starts. -/
def stripTrailingComment : List Nat → List Nat
  | [] => []
  | c :: rest => if isComment (c :: rest) then [] else c :: stripTrailingComment rest

/-- A `Section`: the pairs of one section; `find` and `emplace` are all that is
used of the `std::map`, so the entries are kept in the order of insertion. -/
abbrev IniFile.Section := List (List Nat × List Nat)

/-- The member `find` of a `std::map` with string keys. -/
def iniFind {β : Type} (m : List (List Nat × β)) (k : List Nat) : Option β :=
  (m.find? (fun e => e.1 == k)).map Prod.snd

/-- The member `emplace` of a `std::map` with string keys: an existing key keeps
its entry. -/
def iniEmplace {β : Type} (m : List (List Nat × β)) (k : List Nat) (v : β) :
    List (List Nat × β) :=
  if (iniFind m k).isSome then m else m ++ [(k, v)]

/-- The class `IniFile`. -/
structure IniFile where
  sections : List (List Nat × IniFile.Section) := []
deriving DecidableEq, Repr

/-- Embeds `IniFile::getSection`. -/
def IniFile.getSection (f : IniFile) (name : List Nat) : Option IniFile.Section :=
  iniFind f.sections name

/-- Embeds `IniFile::getValue`. -/
def IniFile.getValue (f : IniFile) (sectionName key : List Nat) : Option (List Nat) :=
  match f.getSection sectionName with
  | some sec => iniFind sec key
  | none => none

/-- The state of the loop of `IniFile::load`: `curSection` (the name of the
section the iterator points to, `none` for `sections.end()`) and `sections`. -/
structure IniLoad where
  curSection : Option (List Nat) := none
  sections : List (List Nat × IniFile.Section) := []
deriving DecidableEq, Repr

/-- The value of a key/value line (what follows the `=`): the text between the
quotes of a quoted value, `none` when the closing quote is missing (the line
is skipped); otherwise the text without trailing comment and blanks. -/
def iniValue (afterEq : List Nat) : Option (List Nat) :=
  let value := stripLeft afterEq
  match value with
  | [] => some value
  | quote :: rest =>
    if quote = 0x22 ∨ quote = 0x27 then
      let inner := rest.takeWhile (fun c => c ≠ quote)
      if 1 + inner.length = value.length then none else some inner
    else some (stripRight (stripTrailingComment value))

/-- The body of the loop of `IniFile::load` for one line (which is not empty and
starts with no blank); the lines written to `std::cerr` are left out. -/
def loadLine (line : List Nat) (st : IniLoad) : IniLoad :=
  if isComment line then st
  else if line.head? = some 0x5B then
    let stop := line.takeWhile (fun c => c ≠ 0x5D)
    if stop.length = line.length then
      { st with curSection := none }
    else
      let sectionName := stop.drop 1
      { curSection := some sectionName, sections := iniEmplace st.sections sectionName [] }
  else
    let key0 := line.takeWhile (fun c => c ≠ 0x3D)
    if key0.length = line.length then st
    else
      let key := stripRight key0
      match iniValue (line.drop (key0.length + 1)) with
      | none => st
      | some value =>
        match st.curSection with
        | none => st
        | some name =>
          { st with sections := st.sections.map (fun e =>
              if e.1 = name then (e.1, iniEmplace e.2 key value) else e) }

/-- Embeds `std::getline(stream >> std::ws, line)`: blanks and line ends are skipped,
then the characters up to the next `\n` are the line; `none` at the end of the
stream. -/
def getLineWs (stream : List Nat) : Option (List Nat × List Nat) :=
  match stream.dropWhile isSpace with
  | [] => none
  | c :: rest =>
    some ((c :: rest).takeWhile (fun x => x ≠ 0x0A),
      ((c :: rest).dropWhile (fun x => x ≠ 0x0A)).drop 1)

/-- The `while` loop of `IniFile::load`; every round takes at least one character
from the stream, so `fuel` never runs out when it exceeds the length of the
stream. -/
def loadLoop : Nat → List Nat → IniLoad → IniLoad
  | 0, _, st => st
  | fuel + 1, stream, st =>
    match getLineWs stream with
    | none => st
    | some (line, rest) => loadLoop fuel rest (loadLine line st)

/-- Embeds `IniFile::load` on the characters of the stream (constructor
`IniFile(std::istream &)`). -/
def IniFile.load (text : List Nat) : IniFile :=
  { sections := (loadLoop (text.length + 1) text {}).sections }

/-- The characters of a text given as a string literal. -/
def iniText (s : String) : List Nat := s.toList.map Char.toNat

/-- A configuration text: a key before the first header, section `S` with the key
`k` twice, section `T`, section `S` again with `k` a third time, a quoted
value, a quoted value without closing quote followed by the same key, a
header without `]` and a key after it. -/
def exampleIni : List Nat :=
  iniText "k0=9\n[S]\n k = 1 ; c\nk=2\n[T]\nk=3\n[S]\nk=4\nj=\"a b\" x\nm='un\nm=5\n[bad\nz=1"

/-! ## The server as `main` starts it, and a client that joins -/

def DPSession_ReliableProtocol : Nat := 1 <<< 13
def DPSession_OptimiseLatency : Nat := 1 <<< 15

/-- The 16 bytes of a `DPSockaddrIn` with `family` 2, `port` the value of
`htons(port)`, and zero `addr` and `padding`. -/
def mainSockaddr (port : Nat) : List Nat :=
  le16 2 ++ htonsBytes port ++ le32 0 ++ List.replicate 8 0

/-- The variable `session` of `main` when the loop is entered: the session is
constructed with the flags `ReliableProtocol | OptimiseLatency`, then the local
system player is created and given the two socket addresses as
service-provider data.  `sessionName`, `appGUID` (the 16 parsed bytes) and
`port` come from the configuration. -/
def mainSession (sessionName appGUID : List Nat) (port : Nat) : Option Session := do
  let sessionFlags := DPSession_ReliableProtocol ||| DPSession_OptimiseLatency
  let session := Session.init sessionName appGUID sessionFlags
  let (session, localPlayer) ←
    session.createNewSystemPlayer (DPPlayer_NameServer ||| DPPlayer_SendingMachine)
  let spData := mainSockaddr port ++ mainSockaddr port
  pure { session with
    players := mapSet session.players localPlayer.getId
      (localPlayer.setServiceProviderData spData) }

/-- The constructor `Client(session, address, outgoingPort)`. -/
def Client.init (address : List Nat) (outgoingPort : Nat) : Client :=
  { address := address, outgoingPort := outgoingPort }

/-- The `CreatePlayer` message of the join scenario, 140 bytes: the header, the 20
bytes of `DPSPMessageCreatePlayer` (`createOffset` 28), the 48 bytes of
`DPPackedPlayer` for player `0x10002` of system player `0x10001` (short name of
12 bytes, no long name, 32 bytes of service-provider data), `"Alice"` with its
terminator in UTF-16LE, and the service-provider data `sp`. -/
def joinCreatePlayer (sp : List Nat) : List Nat :=
  (exampleHeader 140 playSignature DPSPCommand.CreatePlayer 14
    ++ (le32 0 ++ le32 0x10002 ++ le32 0 ++ le32 28 ++ le32 0)
    ++ (le32 92 ++ le32 0 ++ le32 0x10002 ++ le32 12 ++ le32 0 ++ le32 32 ++ le32 0 ++ le32 0
        ++ le32 0x10001 ++ le32 48 ++ le32 14 ++ le32 0)
    ++ unitsBytes [0x41, 0x6C, 0x69, 0x63, 0x65, 0])
    ++ sp

/-- The `AddForwardRequest` message of the join scenario, 102 bytes: the header, the
20 bytes of `DPSPMessageAddForwardRequest`, the 48 bytes of `DPPackedPlayer` for the
system player `0x10001` (no names, no service-provider data), an empty
password and a tick count. -/
def joinAddForward : List Nat :=
  exampleHeader 102 playSignature DPSPCommand.AddForwardRequest 14
    ++ (le32 0 ++ le32 0x10001 ++ le32 0 ++ le32 28 ++ le32 0)
    ++ (le32 48 ++ le32 1 ++ le32 0x10001 ++ le32 0 ++ le32 0 ++ le32 0 ++ le32 0 ++ le32 0
        ++ le32 0x10001 ++ le32 48 ++ le32 14 ++ le32 0)
    ++ [0, 0] ++ le32 77

/-- The four reads of the join scenario E3: `RequestPlayerId` for a system
player, `RequestPlayerId` for a player, `CreatePlayer` for the second id with the
service-provider data `sp`, and `AddForwardRequest`. -/
def joinReads (e1 e2 e3 e4 : Env) (sp : List Nat) : List Read :=
  [{ env := e1, buf := exampleRequestSystemId, len := 32 },
   { env := e2, buf := exampleRequestPlayerId, len := 32 },
   { env := e3, buf := joinCreatePlayer sp, len := 140 },
   { env := e4, buf := joinAddForward, len := 102 }]

/-- The world of a client that has just connected to the server `main` has
started. -/
def joinWorld (s : Session) (address : List Nat) (port : Nat) : World :=
  { session := s, client := Client.init address port }

/-- Service-provider data of 32 bytes for the example: two socket addresses
with port 2300. -/
def exampleSpData : List Nat := mainSockaddr 2300 ++ mainSockaddr 2300

/-- The local system player `main` creates, with its service-provider data. -/
def mainLocalPlayer (port : Nat) : Player :=
  { id := 0x10000, flags := 11, systemPlayerId := 0x10000,
    serviceProviderData := mainSockaddr port ++ mainSockaddr port }

/-- The value of `mainSession`, written out. -/
def mainSessionOf (sessionName appGUID : List Nat) (port : Nat) : Session :=
  { guid := List.replicate 16 1, appGUID := appGUID.take 16, name := sessionName,
    flags := DPSession_ReliableProtocol ||| DPSession_OptimiseLatency,
    players := [(0x10000, mainLocalPlayer port)] }

/-! # Theorems -/

/-! ## The bounds on recursion are never reached -/

theorem rd8_none (mem : List Nat) (i : Nat) (h : mem.length ≤ i) : rd8 mem i = none := by
  unfold rd8
  exact List.getElem?_eq_none h

theorem rd16_none (mem : List Nat) (i : Nat) (h : mem.length < i + 2) : rd16 mem i = none := by
  unfold rd16
  by_cases h0 : mem.length ≤ i
  · rw [rd8_none mem i h0]; rfl
  · rw [rd8_none mem (i + 1) (by omega)]
    cases rd8 mem i <;> rfl

/-- The scan for the terminating zero unit stops by itself, at the zero unit or
at the end of `mem`: every `fuel` that covers the rest of `mem` gives the same
result. -/
theorem u16Length_enough (mem : List Nat) (fuel1 : Nat) :
    ∀ (fuel2 i : Nat), mem.length < i + 2 * fuel1 + 2 → mem.length < i + 2 * fuel2 + 2 →
      u16Length mem fuel1 i = u16Length mem fuel2 i := by
  induction fuel1 with
  | zero =>
    intro fuel2 i h1 _
    cases fuel2 with
    | zero => rfl
    | succ k => simp [u16Length, rd16_none mem i (by omega)]
  | succ k1 ih =>
    intro fuel2 i h1 h2
    cases fuel2 with
    | zero => simp [u16Length, rd16_none mem i (by omega)]
    | succ k2 =>
      unfold u16Length
      rw [ih k2 (i + 2) (by omega) (by omega)]

/-- A nested call of `handleDPlayCommand` happens only after 48 bytes of `mem`
in front of the nested body have been read, so the nesting ends by itself:
every positive `fuel` that covers the rest of `mem` gives the same result. -/
theorem handleDPlayCommandFuel_enough (env : Env) (mem : List Nat) (fuel1 : Nat) :
    ∀ (fuel2 command data len : Nat) (w : World),
      mem.length < data + 48 * (fuel1 + 1) → mem.length < data + 48 * (fuel2 + 1) →
      handleDPlayCommandFuel env mem (fuel1 + 1) command data len w
        = handleDPlayCommandFuel env mem (fuel2 + 1) command data len w := by
  induction fuel1 with
  | zero =>
    intro fuel2 command data len w h1 _
    unfold handleDPlayCommandFuel
    have hnone : rdBytes mem (data + 40) 8 = none := by
      unfold rdBytes
      rw [if_neg (by omega)]
    simp [hnone]
  | succ k1 ih =>
    intro fuel2 command data len w h1 h2
    cases fuel2 with
    | zero =>
      unfold handleDPlayCommandFuel
      have hnone : rdBytes mem (data + 40) 8 = none := by
        unfold rdBytes
        rw [if_neg (by omega)]
      simp [hnone]
    | succ k2 =>
      rw [handleDPlayCommandFuel, handleDPlayCommandFuel]
      by_cases hfit : data + 40 + 8 ≤ mem.length
      · simp only [ih k2 _ (data + 40 + 8) _ w (by omega) (by omega)]
      · have hnone : rdBytes mem (data + 40) 8 = none := by
          unfold rdBytes
          rw [if_neg (by omega)]
        simp [hnone]

/-! ## The command handlers and the reliable-protocol state -/

@[simp] theorem rpView_print (w : World) (d : Diag) : (w.print d).rpView = w.rpView := rfl

@[simp] theorem rpView_emit_tcp (w : World) (b : List Nat) :
    (w.emit (Event.tcpSend b)).rpView = w.rpView := by
  simp [World.rpView, World.emit, udpFrames, List.filterMap_append]

theorem rpView_sendReply (env : Env) (w : World) (b : List Nat) (d : Diag) :
    (sendReply env w b d).rpView = w.rpView := by
  unfold sendReply
  split <;> simp

theorem rpView_checkOutgoingSocket (env : Env) (w : World) :
    (checkOutgoingSocket env w).2.rpView = w.rpView := by
  unfold checkOutgoingSocket
  split
  · rfl
  · split <;> rfl

theorem rpView_handleEnumSessions (env : Env) (mem : List Nat) (data : Nat) (w : World)
    (r : Bool × World) (h : handleEnumSessions env mem data w = some r) :
    r.2.rpView = w.rpView := by
  unfold handleEnumSessions at h
  simp only [Option.bind_eq_bind, Option.bind_eq_some, Option.pure_def] at h
  obtain ⟨po, -, fl, -, guid, -, h⟩ := h
  split at h
  · cases h; simp
  · split at h
    · cases h
      rw [rpView_sendReply, rpView_checkOutgoingSocket]; simp
    · cases h
      rw [rpView_checkOutgoingSocket]; simp

theorem rpView_udpSocketConnect (env : Env) (w : World) :
    (udpSocketConnect env w).2.rpView = w.rpView := by
  unfold udpSocketConnect
  split
  · rfl
  · split <;> rfl

theorem rpView_handleRequestPlayerId (env : Env) (mem : List Nat) (data : Nat) (w : World)
    (r : Bool × World) (h : handleRequestPlayerId env mem data w = some r) :
    r.2.rpView = w.rpView := by
  unfold handleRequestPlayerId at h
  simp only [Option.bind_eq_bind, Option.bind_eq_some, Option.pure_def] at h
  obtain ⟨flags, -, h⟩ := h
  by_cases hdup : decide (flags &&& RequestPlayerId_System ≠ 0) = true
      ∧ w.client.systemPlayerId ≠ 0xFFFFFFFF
  · rw [if_pos hdup] at h
    cases h
    rfl
  · rw [if_neg hdup] at h
    by_cases hsys : decide (flags &&& RequestPlayerId_System ≠ 0) = true
    all_goals simp only [hsys, Bool.false_eq_true, if_true, if_false, Option.bind_eq_some] at h
    all_goals obtain ⟨created, -, h⟩ := h
    all_goals split at h
    all_goals cases h
    all_goals first
      | rfl
      | (simp only [rpView_sendReply, rpView_checkOutgoingSocket, rpView_print]; rfl)

theorem rpView_handleCreatePlayer (env : Env) (mem : List Nat) (data : Nat) (w : World)
    (r : Bool × World) (h : handleCreatePlayer env mem data w = some r) :
    r.2.rpView = w.rpView := by
  unfold handleCreatePlayer at h
  simp only [Option.bind_eq_bind, Option.bind_eq_some, Option.pure_def] at h
  obtain ⟨info, -, playerId, -, h⟩ := h
  split at h
  · cases h; simp
  · simp only [Option.bind_eq_some] at h
    obtain ⟨session, -, h⟩ := h
    split at h
    all_goals cases h
    all_goals simp only [rpView_udpSocketConnect, rpView_print]
    all_goals rfl

theorem rpView_handleAddForwardRequest (env : Env) (mem : List Nat) (data : Nat) (w : World)
    (r : Bool × World) (h : handleAddForwardRequest env mem data w = some r) :
    r.2.rpView = w.rpView := by
  unfold handleAddForwardRequest at h
  simp only [Option.bind_eq_bind, Option.bind_eq_some, Option.pure_def] at h
  obtain ⟨info, -, size, -, pl, -, tc, -, playerId, -, h⟩ := h
  split at h
  · cases h; simp
  · simp only [Option.bind_eq_some] at h
    obtain ⟨session, -, h⟩ := h
    repeat' split at h
    all_goals cases h
    all_goals simp only [rpView_sendReply, rpView_checkOutgoingSocket, rpView_print]
    all_goals rfl

theorem rpView_handleDPlayCommandFuel (env : Env) (mem : List Nat) (fuel command data len : Nat)
    (w : World) (r : Bool × World)
    (h : handleDPlayCommandFuel env mem fuel command data len w = some r) :
    r.2.rpView = w.rpView := by
  induction fuel generalizing command data len with
  | zero => simp [handleDPlayCommandFuel] at h
  | succ fuel ih =>
    unfold handleDPlayCommandFuel at h
    split at h
    · exact rpView_handleEnumSessions env mem data w r h
    split at h
    · exact rpView_handleRequestPlayerId env mem data w r h
    split at h
    · exact rpView_handleCreatePlayer env mem data w r h
    split at h
    · exact rpView_handleAddForwardRequest env mem data w r h
    split at h
    · simp only [Option.bind_eq_bind, Option.bind_eq_some, Option.pure_def] at h
      obtain ⟨totalPackets, -, h⟩ := h
      split at h
      · simp only [Option.bind_eq_some] at h
        obtain ⟨hdr, -, version, -, h⟩ := h
        split at h
        · cases h; simp
        · simp only [Option.bind_eq_some] at h
          obtain ⟨nested, -, dataSize, -, h⟩ := h
          exact ih _ _ _ h
      · simp only [Option.bind_eq_some] at h
        obtain ⟨packetIndex, -, h⟩ := h
        cases h; simp
    · cases h; simp

/-! ## The variable-length ids -/

theorem and_two_pow_of_lt (x n : Nat) (h : x < 2 ^ n) : x &&& 2 ^ n = 0 := by
  apply Nat.eq_of_testBit_eq
  intro i
  rw [Nat.testBit_and, Nat.testBit_two_pow, Nat.zero_testBit]
  by_cases hi : n = i
  · subst hi
    rw [Nat.testBit_lt_two_pow h]
    rfl
  · simp [hi]

theorem low_group_bits :
    ∀ l, l < 128 → (l ||| 0x80) = l + 128 ∧ (l + 128) &&& 0x80 ≠ 0 ∧ (l + 128) &&& 0x7F = l := by
  decide

/-- Where the round trip of C1 does hold: an id below 14384 is written in the
one- or two-byte form and the decoder of `handleUDPRead` reads it back, with
the pointer advanced by the length `getRPHeaderSize` counts. -/
theorem readRPId_fillRPId (v : Nat) (hv : v < 14384) (rest : List Nat) :
    readRPId (fillRPId v ++ rest) 0 = some (v, rpIdSize v) := by
  have h14 : v &&& 0x4000 = 0 := and_two_pow_of_lt v 14 (by omega)
  have hlow : v &&& 0x7F = v % 128 := Nat.and_pow_two_sub_one_eq_mod v 7
  unfold fillRPId rpIdSize
  by_cases h1 : v < 128
  · have h7 : v &&& 0x80 = 0 := and_two_pow_of_lt v 7 (by omega)
    rw [if_pos h1, if_pos h1, hlow]
    have e1 : v % 128 % 256 = v := by omega
    have e2 : v % 65536 = v := by omega
    simp [readRPId, rd8, e1, e2, h7, h14]
  · rw [if_neg h1, if_neg h1, if_pos hv, if_pos (by omega), hlow]
    obtain ⟨hor, hbit, hmask⟩ := low_group_bits (v % 128) (Nat.mod_lt _ (by norm_num))
    have hshift : v >>> 7 = v / 128 := Nat.shiftRight_eq_div_pow v 7
    have e1 : (v % 128 + 128) % 256 = v % 128 + 128 := by omega
    have e2 : v / 128 % 256 = v / 128 := by omega
    have e3 : (v % 128 + 128) % 65536 = v % 128 + 128 := by omega
    have hjoin : (v % 128) ||| ((v / 128) <<< 7) = v := by
      rw [Nat.shiftLeft_eq, Nat.mul_comm, Nat.or_comm,
        ← Nat.mul_add_lt_is_or (Nat.mod_lt _ (by norm_num)) (v / 128)]
      omega
    have e4 : v % 65536 = v := by omega
    simp [readRPId, rd8, hor, hshift, e1, e2, e3, hbit, hmask, hjoin, e4, h14]

/-- C1, evaluated: the id decoder of `handleUDPRead` does not give back what
`fillRPHeader` encoded.  The decoder keeps only ten bits (`& 0x3FF`) of the
first two groups when it reads a third byte, so `0xFFFF` comes back as `0xC3FF`
and `14384`, which the encoder already writes in three bytes, comes back as
`48`. -/
theorem C1_varint_round_trip_fails :
    readRPId (fillRPId 0xFFFF) 0 = some (0xC3FF, 3)
      ∧ readRPId (fillRPId 14384) 0 = some (48, 3)
      ∧ (readRPFrame (fillRPHeader 0xFFFF 0 0 0 0 0) 8).map (Option.map RPFrame.fromId)
          = some (some 0xC3FF) := by
  decide

/-- C2, evaluated: `fillRPHeader` writes the id `14384`, which is below `16384`,
in three bytes, while `getRPHeaderSize` counts two for it. -/
theorem C2_varint_length_fails :
    fillRPId 14384 = [0xB0, 0xF0, 0x00] ∧ 14384 < 16384 ∧ rpIdSize 14384 = 2
      ∧ (fillRPHeader 14384 0 0 0 0 0).length = 8 ∧ getRPHeaderSize 14384 0 = 7 := by
  decide

/-! ## `CreatePlayer` -/

/-- C3, evaluated: after `CreatePlayer` names player `0x10001` with the short
name `"A\0"` and the long name `"B\0"`, the short name of the player is the
conversion of the long-name bytes and its long name is still empty: the handler
calls `setShortName` for both names.  The service-provider data is stored as
sent. -/
theorem C3_create_player_long_name_lost :
    convertUCS2ToUTF8 [0x41, 0] = some [0x41, 0]
      ∧ convertUCS2ToUTF8 [0x42, 0] = some [0x42, 0]
      ∧ (handleDPlayCommand exampleEnv exampleCreatePlayerBody DPSPCommand.CreatePlayer 0
            exampleCreatePlayerBody.length exampleWorld).map
          (fun r => (r.2.session.getPlayer 0x10001).map
            (fun p => (p.shortName, p.longName, p.serviceProviderData)))
        = some (some ([0x42, 0], [], [0xAA, 0xBB])) := by
  decide

/-! ## `handleDPlayPacket` -/

theorem rd8_take_append (msg junk : List Nat) (k i : Nat) (hi : i < k) (hk : k ≤ msg.length) :
    rd8 (msg.take k ++ junk) i = rd8 msg i := by
  unfold rd8
  have h1 : i < (msg.take k).length := by simp [List.length_take]; omega
  rw [List.getElem?_append_left h1, List.getElem?_take_of_lt hi]

theorem rd8_append (msg junk : List Nat) (i : Nat) (hi : i < msg.length) :
    rd8 (msg ++ junk) i = rd8 msg i := by
  unfold rd8
  rw [List.getElem?_append_left hi]

theorem rd16_append (msg junk : List Nat) (i : Nat) (hi : i + 2 ≤ msg.length) :
    rd16 (msg ++ junk) i = rd16 msg i := by
  unfold rd16
  rw [rd8_append _ _ i (by omega), rd8_append _ _ (i + 1) (by omega)]

theorem rd32_append (msg junk : List Nat) (i : Nat) (hi : i + 4 ≤ msg.length) :
    rd32 (msg ++ junk) i = rd32 msg i := by
  unfold rd32
  rw [rd8_append _ _ i (by omega), rd8_append _ _ (i + 1) (by omega),
    rd8_append _ _ (i + 2) (by omega), rd8_append _ _ (i + 3) (by omega)]

theorem rd32_take_append (msg junk : List Nat) (k i : Nat) (hi : i + 4 ≤ k) (hk : k ≤ msg.length) :
    rd32 (msg.take k ++ junk) i = rd32 msg i := by
  unfold rd32
  rw [rd8_take_append _ _ k i (by omega) hk, rd8_take_append _ _ k (i + 1) (by omega) hk,
    rd8_take_append _ _ k (i + 2) (by omega) hk, rd8_take_append _ _ k (i + 3) (by omega) hk]

theorem rdBytes_append (msg junk : List Nat) (i n : Nat) (hi : i + n ≤ msg.length) :
    rdBytes (msg ++ junk) i n = rdBytes msg i n := by
  unfold rdBytes
  have h1 : i + n ≤ (msg ++ junk).length := by simp; omega
  rw [if_pos h1, if_pos hi]
  congr 1
  rw [List.drop_append_of_le_length (by omega), List.take_append_of_le_length]
  simp [List.length_drop]; omega

theorem rd8_isSome (mem : List Nat) (i : Nat) (hi : i < mem.length) :
    ∃ b, rd8 mem i = some b :=
  ⟨mem[i], by unfold rd8; exact List.getElem?_eq_getElem hi⟩

theorem rd16_isSome (mem : List Nat) (i : Nat) (hi : i + 2 ≤ mem.length) :
    ∃ v, rd16 mem i = some v := by
  obtain ⟨b0, h0⟩ := rd8_isSome mem i (by omega)
  obtain ⟨b1, h1⟩ := rd8_isSome mem (i + 1) (by omega)
  exact ⟨_, by unfold rd16; rw [h0, h1]; rfl⟩

theorem rdBytes_isSome (mem : List Nat) (i n : Nat) (hi : i + n ≤ mem.length) :
    ∃ v, rdBytes mem i n = some v :=
  ⟨_, by unfold rdBytes; rw [if_pos hi]⟩

/-- C8: a buffer that holds a complete top-level message (`len` at least the
declared size, the declared size at least 28) whose signature is not `"play"`
or whose version is not 14 makes `handleDPlayPacket` return false with the
declared size in `len`; session, client, output and console are untouched, so
no command handler ran. -/
theorem C8_header_rejected (env : Env) (mem : List Nat) (len sizeToken : Nat) (w : World)
    (hsize : rd32 mem 0 = some sizeToken)
    (hmin : 28 ≤ sizeToken &&& 0xFFFFF) (hlen : sizeToken &&& 0xFFFFF ≤ len)
    (hmem : len ≤ mem.length)
    (hbad : rdBytes mem 20 4 ≠ some playSignature ∨ rd16 mem 26 ≠ some 14) :
    handleDPlayPacket env mem len w
      = some { ret := false, len := sizeToken &&& 0xFFFFF, world := w } := by
  obtain ⟨sig, hsig⟩ := rdBytes_isSome mem 20 4 (by omega)
  obtain ⟨ver, hver⟩ := rd16_isSome mem 26 (by omega)
  unfold handleDPlayPacket
  rw [if_neg (by omega)]
  simp only [Option.bind_eq_bind, Option.pure_def, hsize, Option.some_bind, hsig, hver]
  rw [if_neg (by omega)]
  by_cases hs : sig = playSignature
  · subst hs
    have hv : ver ≠ 14 := by
      rcases hbad with hb | hb
      · exact absurd hsig hb
      · intro h; apply hb; rw [hver, h]
    simp [hv]
  · simp [hs]

/-- C8 at a message of 28 bytes with version 13. -/
theorem C8_header_rejected_witness :
    handleDPlayPacket exampleEnv (exampleHeader 28 playSignature DPSPCommand.EnumSessions 13) 28
        freshWorld
      = some { ret := false, len := 0xFAB0001C &&& 0xFFFFF, world := freshWorld } :=
  C8_header_rejected exampleEnv (exampleHeader 28 playSignature DPSPCommand.EnumSessions 13) 28
    0xFAB0001C freshWorld (by decide) (by decide) (by decide) (by decide) (Or.inr (by decide))

/-- C7 as the spec states it fails: of a message that declares 40 bytes the
first 20 are too few for a header, so `handleDPlayPacket` never reads the
declared size and leaves 0, not 40, in `len`. -/
theorem C7_twenty_of_forty_wants_zero :
    exampleMessage40.length = 40
      ∧ (rd32 exampleMessage40 0).map (fun sizeToken => sizeToken &&& 0xFFFFF) = some 40
      ∧ handleDPlayPacket exampleEnv (exampleMessage40.take 20) 20 freshWorld
          = some { ret := false, len := 0, world := freshWorld } := by
  decide

/-- C7, amended: for a message `msg` whose header declares its own length and
every strict prefix of `k` bytes (followed in the receive array by whatever
`junk` was there), `handleDPlayPacket` returns false and changes nothing; it
leaves the declared size in `len` when the prefix holds the 28-byte header and
0 when it does not.  Applied to all of a message with a valid signature and
version, it is one call of `handleDPlayCommand` on the body of
`msg.length - 28` bytes. -/
theorem C7_truncated_buffer (env : Env) (msg junk : List Nat) (k sizeToken : Nat) (w : World)
    (hsize : rd32 msg 0 = some sizeToken) (hdecl : sizeToken &&& 0xFFFFF = msg.length)
    (hk : k < msg.length) :
    handleDPlayPacket env (msg.take k ++ junk) k w
        = some { ret := false, len := if k < 28 then 0 else msg.length, world := w }
      ∧ ∀ command, 28 ≤ msg.length → rdBytes msg 20 4 = some playSignature →
          rd16 msg 26 = some 14 → rd16 msg 24 = some command →
          handleDPlayPacket env (msg ++ junk) msg.length w
            = (handleDPlayCommand env (msg ++ junk) command 28 (msg.length - 28) w).map
                (fun r => { ret := r.1, len := msg.length, world := r.2 }) := by
  have hlt : msg.length < 2 ^ 20 := by
    rw [← hdecl]
    exact Nat.lt_of_le_of_lt Nat.and_le_right (by norm_num)
  constructor
  · unfold handleDPlayPacket
    by_cases h28 : k < 28
    · rw [if_pos h28, if_pos h28]
    · rw [if_neg h28, if_neg h28]
      simp only [Option.bind_eq_bind, Option.pure_def,
        rd32_take_append msg junk k 0 (by omega) (by omega), hsize, Option.some_bind, hdecl]
      rw [if_pos hk]
  · intro command h28 hsig hver hcmd
    unfold handleDPlayPacket
    rw [if_neg (by omega)]
    simp only [Option.bind_eq_bind, Option.pure_def, rd32_append msg junk 0 (by omega), hsize,
      Option.some_bind, hdecl, rdBytes_append msg junk 20 4 (by omega), hsig,
      rd16_append msg junk 26 (by omega), hver, rd16_append msg junk 24 (by omega), hcmd]
    have hwrap : (msg.length + 2 ^ 64 - 28) % 2 ^ 64 = msg.length - 28 := by omega
    rw [if_neg (by omega), hwrap]
    simp only [ne_eq, not_true_eq_false, if_false]
    cases handleDPlayCommand env (msg ++ junk) command 28 (msg.length - 28) w <;> rfl

/-- C7 (amended) at the first 30 bytes of the 40-byte example message, and at
the whole message. -/
theorem C7_truncated_buffer_witness :
    handleDPlayPacket exampleEnv (exampleMessage40.take 30 ++ [1, 2, 3]) 30 freshWorld
        = some { ret := false, len := if 30 < 28 then 0 else exampleMessage40.length,
                 world := freshWorld }
      ∧ ∀ command, 28 ≤ exampleMessage40.length →
          rdBytes exampleMessage40 20 4 = some playSignature →
          rd16 exampleMessage40 26 = some 14 → rd16 exampleMessage40 24 = some command →
          handleDPlayPacket exampleEnv (exampleMessage40 ++ [1, 2, 3]) exampleMessage40.length
              freshWorld
            = (handleDPlayCommand exampleEnv (exampleMessage40 ++ [1, 2, 3]) command 28
                (exampleMessage40.length - 28) freshWorld).map
                (fun r => { ret := r.1, len := exampleMessage40.length, world := r.2 }) :=
  C7_truncated_buffer exampleEnv exampleMessage40 [1, 2, 3] 30 0xFAB00028 freshWorld
    (by decide) (by decide) (by decide)

/-! ## `handleDPlayCommand` and the body length -/

/-- C9 as the spec states it fails: a `RequestPlayerId` message with an empty
body (`len = 0`, four bytes short of its structure) is not aborted.  The
handler takes the flags from the four bytes that follow in the receive array,
creates a system player and sends the 68-byte reply; so does the top-level
path for a 28-byte message in front of four stale bytes. -/
theorem C9_truncated_request_is_handled :
    (handleDPlayCommand exampleEnv [1, 0, 0, 0] DPSPCommand.RequestPlayerId 0 0 freshWorld).map
        (fun r => (r.1, r.2.session.players.length, r.2.client.systemPlayerId,
          r.2.out.map (fun e => match e with
            | Event.tcpSend b => b.length
            | Event.udpSend b => b.length)))
        = some (true, 3, 0x10002, [68])
      ∧ freshWorld.session.players.length = 2
      ∧ (handleDPlayPacket exampleEnv
            (exampleHeader 28 playSignature DPSPCommand.RequestPlayerId 14 ++ [1, 0, 0, 0]) 28
            freshWorld).map
          (fun r => (r.ret, r.len, r.world.session.players.length, r.world.out.length))
        = some (true, 28, 3, 1) := by
  decide

/-- C9, amended: the handlers of the five supported commands never look at the
body length.  Whatever `len` says, the outcome (return value, session, client,
replies, console) is the one computed from the bytes of the receive array at
the offsets of the command's structure, so a body that is too short is handled
like a complete one. -/
theorem C9_body_length_ignored (env : Env) (mem : List Nat) (command data len len2 : Nat)
    (w : World)
    (hc : command = DPSPCommand.EnumSessions ∨ command = DPSPCommand.RequestPlayerId
      ∨ command = DPSPCommand.CreatePlayer ∨ command = DPSPCommand.AddForwardRequest
      ∨ command = DPSPCommand.Packet) :
    handleDPlayCommand env mem command data len w
      = handleDPlayCommand env mem command data len2 w := by
  unfold handleDPlayCommand handleDPlayCommandFuel
  rcases hc with h | h | h | h | h <;> subst h <;> rfl

/-- C9 (amended) at the example `CreatePlayer` body, with lengths 0 and 78. -/
theorem C9_body_length_ignored_witness :
    handleDPlayCommand exampleEnv exampleCreatePlayerBody DPSPCommand.CreatePlayer 0 0
        exampleWorld
      = handleDPlayCommand exampleEnv exampleCreatePlayerBody DPSPCommand.CreatePlayer 0 78
          exampleWorld :=
  C9_body_length_ignored exampleEnv exampleCreatePlayerBody DPSPCommand.CreatePlayer 0 0 78
    exampleWorld (Or.inr (Or.inr (Or.inl rfl)))

/-! ## `handleUDPRead` on the reliable-protocol state -/

theorem rpView_handleDPlayCommand (env : Env) (mem : List Nat) (command data len : Nat)
    (w : World) (r : Bool × World) (h : handleDPlayCommand env mem command data len w = some r) :
    r.2.rpView = w.rpView :=
  rpView_handleDPlayCommandFuel env mem _ command data len w r h

theorem rpView_handleCompletedRPMessage (env : Env) (mem : List Nat) (data len : Nat)
    (w w2 : World) (h : handleCompletedRPMessage env mem data len w = some w2) :
    w2.rpView = { w.rpView with completed := w.completed ++ [(mem.drop data).take len] } := by
  unfold handleCompletedRPMessage at h
  simp only [Option.bind_eq_bind, Option.bind_eq_some, Option.pure_def] at h
  obtain ⟨sig, -, h⟩ := h
  split at h
  · simp only [Option.bind_eq_some] at h
    obtain ⟨hdr, -, command, -, r, hr, h⟩ := h
    cases h
    rw [rpView_handleDPlayCommand _ _ _ _ _ _ _ hr]
    rfl
  · simp only [Option.bind_eq_some] at h
    obtain ⟨bytes, -, h⟩ := h
    cases h
    rfl

theorem rpView_sendRPAck (env : Env) (f : RPFrame) (w w2 : World)
    (h : sendRPAck env f w = some w2) :
    w2.rpView = { w.rpView with
      frames := udpFrames w.out ++
        (if f.flags &&& (DPRPFrame_End ||| DPRPFrame_SendAck) ≠ 0
          then [rpAck env.tick f w.client.dataReceived] else []) } := by
  unfold sendRPAck at h
  by_cases hflag : f.flags &&& (DPRPFrame_End ||| DPRPFrame_SendAck) ≠ 0
  · rw [if_pos hflag] at h ⊢
    simp only at h
    by_cases hfit : (rpAck env.tick f w.client.dataReceived).length
        = getRPHeaderSize f.toId f.fromId + 8
    · rw [if_pos hfit] at h
      cases h
      split <;> simp [World.rpView, World.emit, World.print, udpFrames, List.filterMap_append]
    · rw [if_neg hfit] at h
      cases h
  · rw [if_neg hflag] at h ⊢
    cases h
    simp [World.rpView]

theorem rdBytes_eq (mem : List Nat) (i n : Nat) (h : i + n ≤ mem.length) :
    rdBytes mem i n = some ((mem.drop i).take n) := by
  unfold rdBytes
  rw [if_pos h]

theorem readRPFrame_ptr (buf : List Nat) (len : Nat) (f : RPFrame)
    (h : readRPFrame buf len = some (some f)) : f.ptr = f.idLen + 4 ∧ f.ptr ≤ len := by
  unfold readRPFrame at h
  simp only [Option.bind_eq_bind, Option.bind_eq_some, Option.pure_def] at h
  obtain ⟨⟨fromId, p1⟩, -, ⟨toId, p2⟩, -, h⟩ := h
  simp only at h
  split at h
  · cases h
  · rename_i hlen
    simp only [Option.bind_eq_some] at h
    obtain ⟨flags, -, messageId, -, sequence, -, serial, -, h⟩ := h
    cases h
    refine ⟨rfl, ?_⟩
    show p2 + 4 ≤ len
    omega

theorem handleUDPRead_frame (d : Recv) (f : RPFrame) (w : World) (hd : d.Carries f) :
    handleUDPRead d.env d.buf d.len w
      = (assembleRPFrame d.env d.buf f (d.len.toNat - f.ptr)
          (w.received (d.len.toNat - f.idLen))).bind
          (fun r => if r.1 then sendRPAck d.env f r.2 else some r.2) := by
  obtain ⟨h6, hmem, hparse, hext, hto⟩ := hd
  unfold handleUDPRead
  rw [if_neg (by omega), if_neg (by omega)]
  simp only []
  rw [if_neg (by omega)]
  simp only [Option.bind_eq_bind, Option.pure_def, hparse, Option.some_bind, hext, hto,
    ne_eq, not_true_eq_false, if_false]

/-- The effect of `handleUDPRead` on the reliable-protocol part of the state,
for a frame without `Ack` that reaches the assembly. -/
theorem handleUDPRead_rpView (d : Recv) (f : RPFrame) (w w2 : World) (hd : d.Carries f)
    (hack : f.flags &&& DPRPFrame_Ack = 0)
    (h : handleUDPRead d.env d.buf d.len w = some w2) :
    w2.rpView = rpViewAfter d.env.tick f d.len.toNat (rpPayload d.buf d.len f) w.rpView := by
  rw [handleUDPRead_frame d f w hd] at h
  obtain ⟨h6, hmem, hparse, hext, hto⟩ := hd
  obtain ⟨hptr, hple⟩ := readRPFrame_ptr _ _ _ hparse
  have hpay : rdBytes d.buf f.ptr (d.len.toNat - f.ptr)
      = some (rpPayload d.buf d.len f) := rdBytes_eq _ _ _ (by omega)
  simp only [Option.bind_eq_some] at h
  obtain ⟨r, hr, h⟩ := h
  unfold assembleRPFrame at hr
  rw [if_neg (by simp [hack])] at hr
  unfold rpViewAfter
  by_cases hse : f.flags &&& DPRPFrame_Start ≠ 0 ∧ f.flags &&& DPRPFrame_End ≠ 0
  · rw [if_pos hse] at hr ⊢
    simp only [Option.map_eq_some'] at hr
    obtain ⟨w1, hw1, hr⟩ := hr
    subst hr
    simp only [if_true] at h
    have v1 := rpView_handleCompletedRPMessage _ _ _ _ _ _ hw1
    have v2 := rpView_sendRPAck _ _ _ _ h
    have e1 : w1.client.dataReceived = _ := congrArg RPView.dataReceived v1
    have e2 : udpFrames w1.out = _ := congrArg RPView.frames v1
    rw [v2, e1, e2, v1]
    rfl
  · rw [if_neg hse] at hr ⊢
    by_cases hs : f.flags &&& DPRPFrame_Start ≠ 0
    · have he : f.flags &&& DPRPFrame_End = 0 := by
        by_contra hne
        exact hse ⟨hs, hne⟩
      simp only [hs, he, hpay, Option.bind_eq_bind, Option.pure_def, Option.some_bind,
        ne_eq, not_true_eq_false, not_false_eq_true, if_true, if_false] at hr
      cases hr
      simp only [if_true] at h
      have v2 := rpView_sendRPAck _ _ _ _ h
      rw [v2, if_pos hs]
      split <;> rfl
    · rw [if_neg hs]
      have hs0 : f.flags &&& DPRPFrame_Start = 0 := by
        by_contra hne
        exact hs hne
      by_cases hq : f.sequence = w.client.nextMessageSequence
      · have hq2 : f.sequence = w.rpView.nextMessageSequence := hq
        have hq3 : f.sequence = (w.received (d.len.toNat - f.idLen)).client.nextMessageSequence :=
          hq
        rw [if_pos hq2]
        simp only [hs0, hpay, hq3, Option.bind_eq_bind, Option.pure_def, Option.some_bind,
          ne_eq, not_true_eq_false, not_false_eq_true, if_true, if_false] at hr
        by_cases he : f.flags &&& DPRPFrame_End ≠ 0
        · rw [if_pos he] at hr ⊢
          simp only [Option.bind_eq_some] at hr
          obtain ⟨w1, hw1, hr⟩ := hr
          cases hr
          simp only [if_true] at h
          have v1 := rpView_handleCompletedRPMessage _ _ _ _ _ _ hw1
          have v2 := rpView_sendRPAck _ _ _ _ h
          have e1 : w1.client.dataReceived = _ := congrArg RPView.dataReceived v1
          have e2 : udpFrames w1.out = _ := congrArg RPView.frames v1
          have e3 : w1.client.nextMessageSequence = _ := congrArg RPView.nextMessageSequence v1
          have e4 : w1.client.messageBuffer = _ := congrArg RPView.messageBuffer v1
          have e5 : w1.completed = _ := congrArg RPView.completed v1
          rw [v2]
          simp only [World.rpView, e1, e2, e3, e4, e5]
          simp [World.received, World.rpView]
        · rw [if_neg he] at hr ⊢
          cases hr
          simp only [if_true] at h
          have v2 := rpView_sendRPAck _ _ _ _ h
          rw [v2]
          rfl
      · have hq2 : ¬ f.sequence = w.rpView.nextMessageSequence := hq
        have hq3 : ¬ f.sequence
            = (w.received (d.len.toNat - f.idLen)).client.nextMessageSequence := hq
        rw [if_neg hq2]
        simp only [hs0, hq3, Option.bind_eq_bind, Option.pure_def, Option.some_bind,
          ne_eq, not_true_eq_false, not_false_eq_true, if_true, if_false] at hr
        cases hr
        simp only [Bool.false_eq_true, if_false] at h
        cases h
        rfl

theorem handleUDPReads_cons (d : Recv) (ds : List Recv) (w w2 : World) :
    handleUDPReads (d :: ds) w = some w2
      ↔ ∃ w1, handleUDPRead d.env d.buf d.len w = some w1 ∧ handleUDPReads ds w1 = some w2 := by
  simp [handleUDPReads, Option.bind_eq_some]

/-- A frame that continues a message (no `Start`, no `End`, the expected
sequence number) is appended to the buffer. -/
theorem rpView_middle (d : Recv) (f : RPFrame) (w w2 : World) (hd : d.Carries f)
    (hack : f.flags &&& DPRPFrame_Ack = 0) (hstart : f.flags &&& DPRPFrame_Start = 0)
    (hend : f.flags &&& DPRPFrame_End = 0) (hseq : f.sequence = w.client.nextMessageSequence)
    (h : handleUDPRead d.env d.buf d.len w = some w2) :
    w2.client.messageBuffer = w.client.messageBuffer ++ rpPayload d.buf d.len f
      ∧ w2.client.nextMessageSequence = (w.client.nextMessageSequence + 1) % 256
      ∧ w2.client.currentMessageId = w.client.currentMessageId
      ∧ w2.completed = w.completed := by
  have v := handleUDPRead_rpView d f w w2 hd hack h
  have hseq2 : f.sequence = w.rpView.nextMessageSequence := hseq
  unfold rpViewAfter at v
  simp only [hstart, hend, ne_eq, not_true_eq_false, false_and, if_false, hseq2, if_true] at v
  exact ⟨congrArg RPView.messageBuffer v, congrArg RPView.nextMessageSequence v,
    congrArg RPView.currentMessageId v, congrArg RPView.completed v⟩

/-- The frame that ends a message (no `Start`, `End`, the expected sequence
number) is appended and the buffer is delivered. -/
theorem rpView_last (d : Recv) (f : RPFrame) (w w2 : World) (hd : d.Carries f)
    (hack : f.flags &&& DPRPFrame_Ack = 0) (hstart : f.flags &&& DPRPFrame_Start = 0)
    (hend : f.flags &&& DPRPFrame_End ≠ 0) (hseq : f.sequence = w.client.nextMessageSequence)
    (h : handleUDPRead d.env d.buf d.len w = some w2) :
    w2.client.messageBuffer = w.client.messageBuffer ++ rpPayload d.buf d.len f
      ∧ w2.client.nextMessageSequence = (w.client.nextMessageSequence + 1) % 256
      ∧ w2.client.currentMessageId = -1
      ∧ w2.completed = w.completed ++ [w.client.messageBuffer ++ rpPayload d.buf d.len f] := by
  have v := handleUDPRead_rpView d f w w2 hd hack h
  have hseq2 : f.sequence = w.rpView.nextMessageSequence := hseq
  unfold rpViewAfter at v
  simp only [hstart, hend, ne_eq, not_true_eq_false, not_false_eq_true, false_and, if_false,
    hseq2, if_true] at v
  exact ⟨congrArg RPView.messageBuffer v, congrArg RPView.nextMessageSequence v,
    congrArg RPView.currentMessageId v, congrArg RPView.completed v⟩

/-- The frame that starts a message of several frames (`Start` without `End`)
replaces the buffer. -/
theorem rpView_first (d : Recv) (f : RPFrame) (w w2 : World) (hd : d.Carries f)
    (hack : f.flags &&& DPRPFrame_Ack = 0) (hstart : f.flags &&& DPRPFrame_Start ≠ 0)
    (hend : f.flags &&& DPRPFrame_End = 0)
    (h : handleUDPRead d.env d.buf d.len w = some w2) :
    w2.client.messageBuffer = rpPayload d.buf d.len f
      ∧ w2.client.nextMessageSequence = (f.sequence + 1) % 256
      ∧ w2.client.currentMessageId = (f.messageId : Int)
      ∧ w2.completed = w.completed := by
  have v := handleUDPRead_rpView d f w w2 hd hack h
  unfold rpViewAfter at v
  simp only [hstart, hend, ne_eq, not_true_eq_false, not_false_eq_true, and_false, if_false,
    if_true] at v
  exact ⟨congrArg RPView.messageBuffer v, congrArg RPView.nextMessageSequence v,
    congrArg RPView.currentMessageId v, congrArg RPView.completed v⟩

/-- A message in one frame (`Start` and `End`) is delivered from the datagram
and leaves the assembly alone. -/
theorem rpView_single (d : Recv) (f : RPFrame) (w w2 : World) (hd : d.Carries f)
    (hack : f.flags &&& DPRPFrame_Ack = 0) (hstart : f.flags &&& DPRPFrame_Start ≠ 0)
    (hend : f.flags &&& DPRPFrame_End ≠ 0)
    (h : handleUDPRead d.env d.buf d.len w = some w2) :
    w2.client.messageBuffer = w.client.messageBuffer
      ∧ w2.client.nextMessageSequence = w.client.nextMessageSequence
      ∧ w2.client.currentMessageId = w.client.currentMessageId
      ∧ w2.completed = w.completed ++ [rpPayload d.buf d.len f] := by
  have v := handleUDPRead_rpView d f w w2 hd hack h
  unfold rpViewAfter at v
  simp only [hstart, hend, ne_eq, not_true_eq_false, not_false_eq_true, and_self, if_true] at v
  exact ⟨congrArg RPView.messageBuffer v, congrArg RPView.nextMessageSequence v,
    congrArg RPView.currentMessageId v, congrArg RPView.completed v⟩

/-- The frames after the first of a message, received in a state whose buffer
holds what came before them: the last one delivers the buffer followed by
their payloads, none before it delivers anything. -/
theorem rp_continuation (rest : List (Recv × RPFrame)) :
    ∀ (w w2 : World), rest ≠ [] →
      (∀ x ∈ rest, x.1.Carries x.2 ∧ x.2.flags &&& DPRPFrame_Ack = 0
        ∧ x.2.flags &&& DPRPFrame_Start = 0) →
      (∀ x ∈ rest.dropLast, x.2.flags &&& DPRPFrame_End = 0) →
      (∀ x ∈ rest.getLast?, x.2.flags &&& DPRPFrame_End ≠ 0) →
      (∀ x ∈ rest.head?, x.2.sequence = w.client.nextMessageSequence) →
      List.Chain' NextSequence rest →
      handleUDPReads (rest.map Prod.fst) w = some w2 →
      w2.completed = w.completed ++ [w.client.messageBuffer ++ rpPayloads rest]
        ∧ w2.client.currentMessageId = -1
        ∧ ∀ n, n < rest.length → ∀ w1,
            handleUDPReads ((rest.take n).map Prod.fst) w = some w1 →
            w1.completed = w.completed := by
  induction rest with
  | nil => intro w w2 hne; exact absurd rfl hne
  | cons a l ih =>
    intro w w2 _ hall hinner hlast hhead hchain hrun
    obtain ⟨hca, hacka, hstarta⟩ := hall a (List.mem_cons_self a l)
    have hseqa : a.2.sequence = w.client.nextMessageSequence := hhead a (by simp)
    rw [List.map_cons, handleUDPReads_cons] at hrun
    obtain ⟨w1, hstep, hrun⟩ := hrun
    cases l with
    | nil =>
      have henda : a.2.flags &&& DPRPFrame_End ≠ 0 := hlast a (by simp)
      have hw : w1 = w2 := by simpa [handleUDPReads] using hrun
      subst hw
      obtain ⟨-, -, hid, hcomp⟩ := rpView_last a.1 a.2 w w1 hca hacka hstarta henda hseqa hstep
      refine ⟨?_, hid, ?_⟩
      · rw [hcomp]; simp [rpPayloads]
      · intro n hn w0 h0
        have hn0 : n = 0 := by simpa using hn
        subst hn0
        have : w = w0 := by simpa [handleUDPReads] using h0
        rw [← this]
    | cons b l2 =>
      have henda : a.2.flags &&& DPRPFrame_End = 0 := hinner a (by simp [List.dropLast])
      obtain ⟨hbuf, hnext, -, hcomp⟩ :=
        rpView_middle a.1 a.2 w w1 hca hacka hstarta henda hseqa hstep
      have hab : NextSequence a b := (List.chain'_cons.mp hchain).1
      obtain ⟨h1, h2, h3⟩ := ih w1 w2 (by simp)
        (fun x hx => hall x (List.mem_cons_of_mem a hx))
        (fun x hx => hinner x (by simp only [List.dropLast_cons₂]; exact List.mem_cons_of_mem a hx))
        (fun x hx => hlast x (by simpa [List.getLast?_cons_cons] using hx))
        (fun x hx => by
          have hxb : x = b := by simpa using hx.symm
          subst hxb
          rw [hnext, ← hseqa]
          exact hab)
        (List.chain'_cons.mp hchain).2 hrun
      refine ⟨?_, h2, ?_⟩
      · rw [h1, hcomp, hbuf]
        simp [rpPayloads, List.append_assoc]
      · intro n hn w0 h0
        cases n with
        | zero =>
          have : w = w0 := by simpa [handleUDPReads] using h0
          rw [← this]
        | succ m =>
          rw [List.take_succ_cons, List.map_cons, handleUDPReads_cons] at h0
          obtain ⟨w1b, hstepb, h0⟩ := h0
          have hw : w1b = w1 := by
            rw [hstep] at hstepb
            exact (Option.some.inj hstepb).symm
          subst hw
          rw [h3 m (by simpa using hn) w0 h0, hcomp]

/-- A whole message, frame by frame: `first` has `Start`, every later frame
has the sequence number after its predecessor's and no `Start`, and `End` is
on the last frame only. -/
theorem rp_message_run (first : Recv × RPFrame) (rest : List (Recv × RPFrame)) (w w2 : World)
    (hfirst : first.1.Carries first.2 ∧ first.2.flags &&& DPRPFrame_Ack = 0
      ∧ first.2.flags &&& DPRPFrame_Start ≠ 0)
    (hrest : ∀ x ∈ rest, x.1.Carries x.2 ∧ x.2.flags &&& DPRPFrame_Ack = 0
      ∧ x.2.flags &&& DPRPFrame_Start = 0)
    (hinner : ∀ x ∈ (first :: rest).dropLast, x.2.flags &&& DPRPFrame_End = 0)
    (hlast : ∀ x ∈ (first :: rest).getLast?, x.2.flags &&& DPRPFrame_End ≠ 0)
    (hchain : List.Chain' NextSequence (first :: rest))
    (hrun : handleUDPReads ((first :: rest).map Prod.fst) w = some w2) :
    w2.completed = w.completed ++ [rpPayloads (first :: rest)]
      ∧ (w.client.currentMessageId = -1 ∨ rest ≠ [] → w2.client.currentMessageId = -1)
      ∧ ∀ n, n < (first :: rest).length → ∀ w1,
          handleUDPReads (((first :: rest).take n).map Prod.fst) w = some w1 →
          w1.completed = w.completed := by
  obtain ⟨hc, hack, hstart⟩ := hfirst
  rw [List.map_cons, handleUDPReads_cons] at hrun
  obtain ⟨w1, hstep, hrun⟩ := hrun
  cases rest with
  | nil =>
    have hend : first.2.flags &&& DPRPFrame_End ≠ 0 := hlast first (by simp)
    have hw : w1 = w2 := by simpa [handleUDPReads] using hrun
    subst hw
    obtain ⟨-, -, hid, hcomp⟩ := rpView_single first.1 first.2 w w1 hc hack hstart hend hstep
    refine ⟨?_, ?_, ?_⟩
    · rw [hcomp]; simp [rpPayloads]
    · intro hidle
      rcases hidle with hidle | hne
      · rw [hid, hidle]
      · exact absurd rfl hne
    · intro n hn w0 h0
      have hn0 : n = 0 := by simpa using hn
      subst hn0
      have : w = w0 := by simpa [handleUDPReads] using h0
      rw [← this]
  | cons b l =>
    have hend : first.2.flags &&& DPRPFrame_End = 0 := hinner first (by simp [List.dropLast])
    obtain ⟨hbuf, hnext, -, hcomp⟩ := rpView_first first.1 first.2 w w1 hc hack hstart hend hstep
    obtain ⟨h1, h2, h3⟩ := rp_continuation (b :: l) w1 w2 (by simp) hrest
      (fun x hx => hinner x (by simp only [List.dropLast_cons₂]; exact List.mem_cons_of_mem _ hx))
      (fun x hx => hlast x (by simpa [List.getLast?_cons_cons] using hx))
      (fun x hx => by
        have hxb : x = b := by simpa using hx.symm
        subst hxb
        rw [hnext]
        exact (List.chain'_cons.mp hchain).1)
      (List.chain'_cons.mp hchain).2 hrun
    refine ⟨?_, fun _ => h2, ?_⟩
    · rw [h1, hcomp, hbuf]
      simp [rpPayloads]
    · intro n hn w0 h0
      cases n with
      | zero =>
        have : w = w0 := by simpa [handleUDPReads] using h0
        rw [← this]
      | succ m =>
        rw [List.take_succ_cons, List.map_cons, handleUDPReads_cons] at h0
        obtain ⟨w1b, hstepb, h0⟩ := h0
        have hw : w1b = w1 := by
          rw [hstep] at hstepb
          exact (Option.some.inj hstepb).symm
        subst hw
        rw [h3 m (by simpa using hn) w0 h0, hcomp]

/-! ## Message assembly -/

/-- C4 as the spec states it fails: two frames with strictly increasing
sequence numbers 0 and 2, `Start` on the first and `End` on the second.  The
second frame is not the expected number 1 and is dropped; nothing is
delivered. -/
theorem C4_gap_in_sequence_delivers_nothing :
    (handleUDPReads [exampleDatagram 0x11 7 0 9 [0x61, 0x62, 0x63, 0x64],
        exampleDatagram 0x09 7 2 9 [0x65]] exampleWorld).map
        (fun w => (w.completed, w.client.messageBuffer, w.client.currentMessageId))
      = some ([], [0x61, 0x62, 0x63, 0x64], 7) := by
  decide

/-- C4, amended: for non-Ack frames addressed to id 0, received in any state
of the assembly, of which the first has
`Start`, the last (and only the last) has `End`, and each later one has no
`Start` and the sequence number of its predecessor plus one (modulo 256), the
message handed to `handleCompletedRPMessage` is the concatenation of the
payloads in arrival order. -/
theorem C4_assembly_concatenates (first : Recv × RPFrame) (rest : List (Recv × RPFrame))
    (w w2 : World)
    (hfirst : first.1.Carries first.2 ∧ first.2.flags &&& DPRPFrame_Ack = 0
      ∧ first.2.flags &&& DPRPFrame_Start ≠ 0)
    (hrest : ∀ x ∈ rest, x.1.Carries x.2 ∧ x.2.flags &&& DPRPFrame_Ack = 0
      ∧ x.2.flags &&& DPRPFrame_Start = 0)
    (hinner : ∀ x ∈ (first :: rest).dropLast, x.2.flags &&& DPRPFrame_End = 0)
    (hlast : ∀ x ∈ (first :: rest).getLast?, x.2.flags &&& DPRPFrame_End ≠ 0)
    (hchain : List.Chain' NextSequence (first :: rest))
    (hrun : handleUDPReads ((first :: rest).map Prod.fst) w = some w2) :
    w2.completed.getLast? = some (rpPayloads (first :: rest)) := by
  have h := (rp_message_run first rest w w2 hfirst hrest hinner hlast hchain hrun).1
  rw [h]
  simp

/-- C4 (amended) at two frames with sequence numbers 255 and 0. -/
theorem C4_assembly_concatenates_witness :
    ((handleUDPReads [exampleDatagram 0x11 7 255 9 [0x61, 0x62, 0x63, 0x64],
        exampleDatagram 0x09 7 0 9 [0x65]] exampleWorld).getD exampleWorld).completed.getLast?
      = some (rpPayloads
          [(exampleDatagram 0x11 7 255 9 [0x61, 0x62, 0x63, 0x64], exampleFrame 0x11 7 255 9),
           (exampleDatagram 0x09 7 0 9 [0x65], exampleFrame 0x09 7 0 9)]) :=
  C4_assembly_concatenates
    (exampleDatagram 0x11 7 255 9 [0x61, 0x62, 0x63, 0x64], exampleFrame 0x11 7 255 9)
    [(exampleDatagram 0x09 7 0 9 [0x65], exampleFrame 0x09 7 0 9)]
    exampleWorld _ (by decide) (by decide) (by decide) (by decide)
    (by simp [NextSequence, exampleFrame]) (by decide)

/-! ## Dropped frames and acks -/

/-- A frame without `Start` whose sequence number is not the expected one:
`handleUDPRead` counts its bytes, prints `rp seq err` and returns. -/
theorem handleUDPRead_seqErr (d : Recv) (f : RPFrame) (w : World) (hd : d.Carries f)
    (hack : f.flags &&& DPRPFrame_Ack = 0) (hstart : f.flags &&& DPRPFrame_Start = 0)
    (hseq : f.sequence ≠ w.client.nextMessageSequence) :
    handleUDPRead d.env d.buf d.len w
      = some ((w.received (d.len.toNat - f.idLen)).print Diag.rpSeqErr) := by
  rw [handleUDPRead_frame d f w hd]
  have hseq2 : ¬ f.sequence = (w.received (d.len.toNat - f.idLen)).client.nextMessageSequence :=
    hseq
  unfold assembleRPFrame
  simp [hack, hstart, hseq2]

theorem or_eq_zero_iff (a b : Nat) : a ||| b = 0 ↔ a = 0 ∧ b = 0 := by
  constructor
  · intro h
    constructor
    · apply Nat.eq_of_testBit_eq
      intro i
      have hi := congrArg (fun n => n.testBit i) h
      simp only [Nat.testBit_or, Nat.zero_testBit, Bool.or_eq_false_iff] at hi
      rw [hi.1, Nat.zero_testBit]
    · apply Nat.eq_of_testBit_eq
      intro i
      have hi := congrArg (fun n => n.testBit i) h
      simp only [Nat.testBit_or, Nat.zero_testBit, Bool.or_eq_false_iff] at hi
      rw [hi.2, Nat.zero_testBit]
  · rintro ⟨rfl, rfl⟩
    rfl

/-- The test `flags & (DPRPFrame_End | DPRPFrame_SendAck)` succeeds exactly
when one of the two bits is set. -/
theorem ack_requested_iff (flags : Nat) :
    flags &&& (DPRPFrame_End ||| DPRPFrame_SendAck) ≠ 0
      ↔ flags &&& DPRPFrame_End ≠ 0 ∨ flags &&& DPRPFrame_SendAck ≠ 0 := by
  rw [Nat.and_or_distrib_left, ne_eq, or_eq_zero_iff]
  tauto

/-- C6 as the spec states it fails: while message 7 is being assembled, a
frame of message 9 with the expected sequence number 1 is appended to the
buffer; and a frame without `Start` that reaches an idle client with sequence
number 0 is buffered too. -/
theorem C6_wrong_message_id_is_appended :
    assemblingWorld.client.currentMessageId = 7
      ∧ (handleUDPRead exampleEnv (exampleDatagram 0x01 9 1 9 [0x33]).buf 7 assemblingWorld).map
          (fun w => (w.client.messageBuffer, w.client.nextMessageSequence,
            w.client.currentMessageId))
        = some ([1, 2, 0x33], 2, 7)
      ∧ exampleWorld.client.currentMessageId = -1
      ∧ (handleUDPRead exampleEnv (exampleDatagram 0x01 7 0 9 [0x44]).buf 7 exampleWorld).map
          (fun w => (w.client.messageBuffer, w.client.nextMessageSequence,
            w.client.currentMessageId))
        = some ([0x44], 1, -1) := by
  decide

/-- C6, amended: of a non-Ack frame without `Start` only the sequence number
is examined.  When it differs from the expected one the frame is dropped:
nothing changes but the byte counter and the console (buffer, expected
sequence number, assembling id, delivered messages and output stay as they
were).  When it equals the expected one the payload is appended to the buffer
and the expected number advances, whatever the message id and whether or not
an assembly is in progress. -/
theorem C6_sequence_decides (d : Recv) (f : RPFrame) (w : World) (hd : d.Carries f)
    (hack : f.flags &&& DPRPFrame_Ack = 0) (hstart : f.flags &&& DPRPFrame_Start = 0) :
    (f.sequence ≠ w.client.nextMessageSequence →
        handleUDPRead d.env d.buf d.len w
          = some ((w.received (d.len.toNat - f.idLen)).print Diag.rpSeqErr))
      ∧ (f.sequence = w.client.nextMessageSequence →
          ∀ w2, handleUDPRead d.env d.buf d.len w = some w2 →
            w2.client.messageBuffer = w.client.messageBuffer ++ rpPayload d.buf d.len f
              ∧ w2.client.nextMessageSequence = (w.client.nextMessageSequence + 1) % 256) := by
  refine ⟨handleUDPRead_seqErr d f w hd hack hstart, ?_⟩
  intro hseq w2 h
  by_cases hend : f.flags &&& DPRPFrame_End = 0
  · obtain ⟨h1, h2, -, -⟩ := rpView_middle d f w w2 hd hack hstart hend hseq h
    exact ⟨h1, h2⟩
  · obtain ⟨h1, h2, -, -⟩ := rpView_last d f w w2 hd hack hstart hend hseq h
    exact ⟨h1, h2⟩

/-- C6 (amended) at a frame with sequence number 5 that reaches a client
expecting 1: the frame is dropped. -/
theorem C6_sequence_decides_witness :
    handleUDPRead exampleEnv (exampleDatagram 0x01 7 5 9 [0x33]).buf 7 assemblingWorld
      = some ((assemblingWorld.received (7 - 2)).print Diag.rpSeqErr) :=
  (C6_sequence_decides (exampleDatagram 0x01 7 5 9 [0x33]) (exampleFrame 0x01 7 5 9)
    assemblingWorld (by decide) (by decide) (by decide)).1 (by decide)

/-- C10 as the spec states it fails: a frame with `End` and `SendAck` whose
sequence number is not the expected one is dropped before the ack is built;
no reply frame is emitted. -/
theorem C10_dropped_frame_gets_no_ack :
    0x0D &&& DPRPFrame_End ≠ 0 ∧ 0x0D &&& DPRPFrame_SendAck ≠ 0
      ∧ (handleUDPRead exampleEnv (exampleDatagram 0x0D 7 5 9 [0x33]).buf 7
          assemblingWorld).map (fun w => w.out)
        = some [] := by
  decide

/-- C10, amended: a non-Ack frame with `End` or `SendAck` that reaches the
assembly (no `Extended` bit, to id 0) makes `handleUDPRead` emit exactly one
reply frame when the frame has `Start` or carries the expected sequence
number, in every assembly state; a frame without `Start` with any other
sequence number is dropped and nothing is emitted for it. -/
theorem C10_ack_emission (d : Recv) (f : RPFrame) (w w2 : World) (hd : d.Carries f)
    (hack : f.flags &&& DPRPFrame_Ack = 0)
    (hreq : f.flags &&& DPRPFrame_End ≠ 0 ∨ f.flags &&& DPRPFrame_SendAck ≠ 0)
    (h : handleUDPRead d.env d.buf d.len w = some w2) :
    (f.flags &&& DPRPFrame_Start ≠ 0 ∨ f.sequence = w.client.nextMessageSequence →
        ∃ ack, udpFrames w2.out = udpFrames w.out ++ [ack])
      ∧ (f.flags &&& DPRPFrame_Start = 0 ∧ f.sequence ≠ w.client.nextMessageSequence →
          w2.out = w.out) := by
  have hreq2 := (ack_requested_iff f.flags).mpr hreq
  constructor
  · intro hacc
    have v := handleUDPRead_rpView d f w w2 hd hack h
    have hv : udpFrames w2.out = (rpViewAfter d.env.tick f d.len.toNat
        (rpPayload d.buf d.len f) w.rpView).frames := congrArg RPView.frames v
    rw [hv]
    unfold rpViewAfter
    simp only [if_pos hreq2]
    by_cases hs : f.flags &&& DPRPFrame_Start ≠ 0
    · by_cases he : f.flags &&& DPRPFrame_End ≠ 0
      · rw [if_pos ⟨hs, he⟩]
        exact ⟨_, rfl⟩
      · rw [if_neg (fun hc => he hc.2), if_pos hs]
        exact ⟨_, rfl⟩
    · have hq : f.sequence = w.rpView.nextMessageSequence := by
        rcases hacc with hc | hc
        · exact absurd hc hs
        · exact hc
      rw [if_neg (fun hc => hs hc.1), if_neg hs, if_pos hq]
      split <;> exact ⟨_, rfl⟩
  · rintro ⟨hs, hq⟩
    rw [handleUDPRead_seqErr d f w hd hack hs hq] at h
    cases h
    rfl

/-- C10 (amended) at the third frame of scenario E4 (`End|SendAck|Reliable`,
the expected sequence number 1 of `assemblingWorld`): one ack. -/
theorem C10_ack_emission_witness :
    ∃ ack, udpFrames ((handleUDPRead exampleEnv (exampleDatagram 0x0D 7 1 9 [0x33, 0x34]).buf 8
        assemblingWorld).getD assemblingWorld).out
      = udpFrames assemblingWorld.out ++ [ack] :=
  (C10_ack_emission (exampleDatagram 0x0D 7 1 9 [0x33, 0x34]) (exampleFrame 0x0D 7 1 9)
    assemblingWorld _ (by decide) (by decide) (Or.inl (by decide)) (by decide)).1
    (Or.inr (by decide))

/-! ## When `handleUDPRead` has a defined result -/

theorem fillRPId_length (id : Nat) (h : id < 14384 ∨ 16384 ≤ id) :
    (fillRPId id).length = rpIdSize id := by
  unfold fillRPId rpIdSize
  by_cases h1 : id < 128
  · rw [if_pos h1, if_pos h1]; rfl
  · rw [if_neg h1, if_neg h1]
    by_cases h2 : id < 14384
    · rw [if_pos h2, if_pos (by omega)]; rfl
    · rw [if_neg h2, if_neg (by omega)]; rfl

/-- The ack fits its allocation unless the id it is sent to lies in
`14384 .. 16383`. -/
theorem sendRPAck_defined (env : Env) (f : RPFrame) (w : World) (hto : f.toId = 0)
    (hfrom : f.fromId < 14384 ∨ 16384 ≤ f.fromId) : ∃ w2, sendRPAck env f w = some w2 := by
  unfold sendRPAck
  by_cases hflag : f.flags &&& (DPRPFrame_End ||| DPRPFrame_SendAck) ≠ 0
  · rw [if_pos hflag]
    have hfit : (rpAck env.tick f w.client.dataReceived).length
        = getRPHeaderSize f.toId f.fromId + 8 := by
      unfold rpAck fillRPHeader getRPHeaderSize
      simp only [List.length_append, fillRPId_length f.fromId hfrom, hto, le32,
        List.length_cons, List.length_nil]
      have h0 : (fillRPId 0).length = 1 := rfl
      have h1 : rpIdSize 0 = 1 := rfl
      omega
    simp only [if_pos hfit]
    exact ⟨_, rfl⟩
  · rw [if_neg hflag]
    exact ⟨_, rfl⟩

/-- A frame without `Ack` and without `End` that reaches the assembly always
has a defined result, unless its ack would not fit. -/
theorem handleUDPRead_defined (d : Recv) (f : RPFrame) (w : World) (hd : d.Carries f)
    (hack : f.flags &&& DPRPFrame_Ack = 0) (hend : f.flags &&& DPRPFrame_End = 0)
    (hfrom : f.fromId < 14384 ∨ 16384 ≤ f.fromId) :
    ∃ w2, handleUDPRead d.env d.buf d.len w = some w2 := by
  rw [handleUDPRead_frame d f w hd]
  obtain ⟨h6, hmem, hparse, hext, hto⟩ := hd
  obtain ⟨hptr, hple⟩ := readRPFrame_ptr _ _ _ hparse
  have hpay : rdBytes d.buf f.ptr (d.len.toNat - f.ptr)
      = some (rpPayload d.buf d.len f) := rdBytes_eq _ _ _ (by omega)
  unfold assembleRPFrame
  by_cases hs : f.flags &&& DPRPFrame_Start = 0
  · by_cases hq : f.sequence
        = (w.received (d.len.toNat - f.idLen)).client.nextMessageSequence
    · simp only [hack, hs, hend, hq, hpay, ne_eq, not_true_eq_false, false_and, if_false,
        if_true, Option.bind_eq_bind, Option.pure_def, Option.some_bind]
      exact sendRPAck_defined _ _ _ hto hfrom
    · simp [hack, hs, hend, hq]
  · simp only [hack, hs, hend, hpay, ne_eq, not_true_eq_false, not_false_eq_true, and_false,
      if_false, if_true, Option.bind_eq_bind, Option.pure_def, Option.some_bind]
    exact sendRPAck_defined _ _ _ hto hfrom

/-- A completed message of at least four bytes that does not begin with
`"play"` is printed and nothing else happens. -/
theorem handleCompletedRPMessage_other (env : Env) (mem : List Nat) (data len : Nat) (w : World)
    (hfit : data + len ≤ mem.length) (h4 : 4 ≤ len)
    (hsig : (mem.drop data).take 4 ≠ playSignature) :
    handleCompletedRPMessage env mem data len w
      = some (({ w with completed := w.completed ++ [(mem.drop data).take len] } : World).print
          (Diag.rpMessage ((mem.drop data).take len))) := by
  unfold handleCompletedRPMessage
  simp [rdBytes_eq mem data 4 (by omega), rdBytes_eq mem data len hfit, hsig]

/-- A frame with `End` whose completed message is not a DPSP command has a
defined result, unless its ack would not fit. -/
theorem handleUDPRead_defined_end (d : Recv) (f : RPFrame) (w : World) (hd : d.Carries f)
    (hack : f.flags &&& DPRPFrame_Ack = 0) (hend : f.flags &&& DPRPFrame_End ≠ 0)
    (hfrom : f.fromId < 14384 ∨ 16384 ≤ f.fromId)
    (hseq : f.flags &&& DPRPFrame_Start ≠ 0 ∨ f.sequence = w.client.nextMessageSequence)
    (message : List Nat)
    (hmessage : message = if f.flags &&& DPRPFrame_Start ≠ 0 then rpPayload d.buf d.len f
      else w.client.messageBuffer ++ rpPayload d.buf d.len f)
    (h4 : 4 ≤ message.length) (hsig : message.take 4 ≠ playSignature) :
    ∃ w2, handleUDPRead d.env d.buf d.len w = some w2 := by
  rw [handleUDPRead_frame d f w hd]
  obtain ⟨h6, hmem, hparse, hext, hto⟩ := hd
  obtain ⟨hptr, hple⟩ := readRPFrame_ptr _ _ _ hparse
  have hpay : rdBytes d.buf f.ptr (d.len.toNat - f.ptr)
      = some (rpPayload d.buf d.len f) := rdBytes_eq _ _ _ (by omega)
  unfold assembleRPFrame
  by_cases hs : f.flags &&& DPRPFrame_Start = 0
  · have hq : f.sequence
        = (w.received (d.len.toNat - f.idLen)).client.nextMessageSequence := by
      rcases hseq with hc | hc
      · exact absurd hs hc
      · exact hc
    rw [if_neg (by simpa using hs)] at hmessage
    subst hmessage
    simp only [hack, hs, hend, hq, hpay, ne_eq, not_true_eq_false, not_false_eq_true,
      false_and, if_false, if_true, Option.bind_eq_bind, Option.pure_def, Option.some_bind]
    have hbuf : (w.received (d.len.toNat - f.idLen)).client.messageBuffer
        = w.client.messageBuffer := rfl
    rw [hbuf, handleCompletedRPMessage_other d.env
      (w.client.messageBuffer ++ rpPayload d.buf d.len f) 0 _ _ (by simp) h4
      (by simpa using hsig)]
    simp only [Option.some_bind, if_true]
    exact sendRPAck_defined _ _ _ hto hfrom
  · rw [if_pos hs] at hmessage
    subst hmessage
    have hlen : (rpPayload d.buf d.len f).length = d.len.toNat - f.ptr := by
      unfold rpPayload
      simp [List.length_take, List.length_drop]
      omega
    simp only [hack, hs, hend, ne_eq, not_true_eq_false, not_false_eq_true, and_self,
      if_false, if_true]
    rw [handleCompletedRPMessage_other _ _ _ _ _ (by omega) (by omega) (by
      unfold rpPayload at hsig
      rw [List.take_take] at hsig
      rw [hlen] at h4
      rwa [Nat.min_eq_left h4] at hsig)]
    simp only [Option.map_some', Option.some_bind, if_true]
    exact sendRPAck_defined _ _ _ hto hfrom

theorem rpPayloads_cons (a : Recv × RPFrame) (l : List (Recv × RPFrame)) :
    rpPayloads (a :: l) = rpPayload a.1.buf a.1.len a.2 ++ rpPayloads l := by
  simp [rpPayloads]

/-- The frames after the first of a message whose bytes do not form a DPSP
command are all processed with a defined result. -/
theorem rp_continuation_defined (rest : List (Recv × RPFrame)) :
    ∀ (w : World), rest ≠ [] →
      (∀ x ∈ rest, x.1.Carries x.2 ∧ x.2.flags &&& DPRPFrame_Ack = 0
        ∧ x.2.flags &&& DPRPFrame_Start = 0 ∧ (x.2.fromId < 14384 ∨ 16384 ≤ x.2.fromId)) →
      (∀ x ∈ rest.dropLast, x.2.flags &&& DPRPFrame_End = 0) →
      (∀ x ∈ rest.getLast?, x.2.flags &&& DPRPFrame_End ≠ 0) →
      (∀ x ∈ rest.head?, x.2.sequence = w.client.nextMessageSequence) →
      List.Chain' NextSequence rest →
      4 ≤ (w.client.messageBuffer ++ rpPayloads rest).length →
      (w.client.messageBuffer ++ rpPayloads rest).take 4 ≠ playSignature →
      ∃ w2, handleUDPReads (rest.map Prod.fst) w = some w2 := by
  induction rest with
  | nil => intro w hne; exact absurd rfl hne
  | cons a l ih =>
    intro w _ hall hinner hlast hhead hchain h4 hsig
    obtain ⟨hca, hacka, hstarta, hfroma⟩ := hall a (List.mem_cons_self a l)
    have hseqa : a.2.sequence = w.client.nextMessageSequence := hhead a (by simp)
    cases l with
    | nil =>
      have henda : a.2.flags &&& DPRPFrame_End ≠ 0 := hlast a (by simp)
      obtain ⟨w2, h2⟩ := handleUDPRead_defined_end a.1 a.2 w hca hacka henda hfroma
        (Or.inr hseqa) (w.client.messageBuffer ++ rpPayload a.1.buf a.1.len a.2)
        (by rw [if_neg (by simpa using hstarta)])
        (by simpa [rpPayloads] using h4) (by simpa [rpPayloads] using hsig)
      exact ⟨w2, by rw [List.map_cons, handleUDPReads_cons]; exact ⟨w2, h2, rfl⟩⟩
    | cons b l2 =>
      have henda : a.2.flags &&& DPRPFrame_End = 0 := hinner a (by simp [List.dropLast])
      obtain ⟨w1, hstep⟩ := handleUDPRead_defined a.1 a.2 w hca hacka henda hfroma
      obtain ⟨hbuf, hnext, -, -⟩ :=
        rpView_middle a.1 a.2 w w1 hca hacka hstarta henda hseqa hstep
      have hab : NextSequence a b := (List.chain'_cons.mp hchain).1
      obtain ⟨w2, h2⟩ := ih w1 (by simp)
        (fun x hx => hall x (List.mem_cons_of_mem a hx))
        (fun x hx => hinner x (by simp only [List.dropLast_cons₂]; exact List.mem_cons_of_mem a hx))
        (fun x hx => hlast x (by simpa [List.getLast?_cons_cons] using hx))
        (fun x hx => by
          have hxb : x = b := by simpa using hx.symm
          subst hxb
          rw [hnext, ← hseqa]
          exact hab)
        (List.chain'_cons.mp hchain).2
        (by rw [hbuf, List.append_assoc, ← rpPayloads_cons]; exact h4)
        (by rw [hbuf, List.append_assoc, ← rpPayloads_cons]; exact hsig)
      exact ⟨w2, by rw [List.map_cons, handleUDPReads_cons]; exact ⟨w1, hstep, h2⟩⟩

/-- A whole message whose bytes do not form a DPSP command (at least four
bytes, not beginning with `"play"`), sent from ids outside `14384 .. 16383`:
`handleUDPRead` has a defined result on every frame of the run. -/
theorem rp_message_run_defined (first : Recv × RPFrame) (rest : List (Recv × RPFrame))
    (w : World)
    (hfirst : first.1.Carries first.2 ∧ first.2.flags &&& DPRPFrame_Ack = 0
      ∧ first.2.flags &&& DPRPFrame_Start ≠ 0
      ∧ (first.2.fromId < 14384 ∨ 16384 ≤ first.2.fromId))
    (hrest : ∀ x ∈ rest, x.1.Carries x.2 ∧ x.2.flags &&& DPRPFrame_Ack = 0
      ∧ x.2.flags &&& DPRPFrame_Start = 0 ∧ (x.2.fromId < 14384 ∨ 16384 ≤ x.2.fromId))
    (hinner : ∀ x ∈ (first :: rest).dropLast, x.2.flags &&& DPRPFrame_End = 0)
    (hlast : ∀ x ∈ (first :: rest).getLast?, x.2.flags &&& DPRPFrame_End ≠ 0)
    (hchain : List.Chain' NextSequence (first :: rest))
    (h4 : 4 ≤ (rpPayloads (first :: rest)).length)
    (hsig : (rpPayloads (first :: rest)).take 4 ≠ playSignature) :
    ∃ w2, handleUDPReads ((first :: rest).map Prod.fst) w = some w2 := by
  obtain ⟨hc, hack, hstart, hfrom⟩ := hfirst
  cases rest with
  | nil =>
    have hend : first.2.flags &&& DPRPFrame_End ≠ 0 := hlast first (by simp)
    obtain ⟨w2, h2⟩ := handleUDPRead_defined_end first.1 first.2 w hc hack hend hfrom
      (Or.inl hstart) (rpPayload first.1.buf first.1.len first.2)
      (by rw [if_pos hstart])
      (by simpa [rpPayloads] using h4) (by simpa [rpPayloads] using hsig)
    exact ⟨w2, by rw [List.map_cons, handleUDPReads_cons]; exact ⟨w2, h2, rfl⟩⟩
  | cons b l =>
    have hend : first.2.flags &&& DPRPFrame_End = 0 := hinner first (by simp [List.dropLast])
    obtain ⟨w1, hstep⟩ := handleUDPRead_defined first.1 first.2 w hc hack hend hfrom
    obtain ⟨hbuf, hnext, -, -⟩ := rpView_first first.1 first.2 w w1 hc hack hstart hend hstep
    obtain ⟨w2, h2⟩ := rp_continuation_defined (b :: l) w1 (by simp) hrest
      (fun x hx => hinner x (by simp only [List.dropLast_cons₂]; exact List.mem_cons_of_mem _ hx))
      (fun x hx => hlast x (by simpa [List.getLast?_cons_cons] using hx))
      (fun x hx => by
        have hxb : x = b := by simpa using hx.symm
        subst hxb
        rw [hnext]
        exact (List.chain'_cons.mp hchain).1)
      (List.chain'_cons.mp hchain).2
      (by rw [hbuf, ← rpPayloads_cons]; exact h4)
      (by rw [hbuf, ← rpPayloads_cons]; exact hsig)
    exact ⟨w2, by rw [List.map_cons, handleUDPReads_cons]; exact ⟨w1, hstep, h2⟩⟩

/-! ## Scenario E4 and the reassembly of a message -/

/-- C5: a run of `k >= 1` non-Ack frames to id 0, received by an idle client,
with `Start` on the first only, `End` on the last only and consecutive
sequence numbers (modulo 256).  Whenever `handleUDPRead` has a defined result
on the run, it has delivered exactly one message, the concatenation of the
payloads, it delivered it with the last frame and not before, and the client
is idle afterwards.  The result is defined at least when the message is not a
DPSP command (four bytes or more, not beginning with `"play"`) and no sender
id lies in `14384 .. 16383`. -/
theorem C5_reassembly (first : Recv × RPFrame) (rest : List (Recv × RPFrame)) (w : World)
    (hfirst : first.1.Carries first.2 ∧ first.2.flags &&& DPRPFrame_Ack = 0
      ∧ first.2.flags &&& DPRPFrame_Start ≠ 0)
    (hrest : ∀ x ∈ rest, x.1.Carries x.2 ∧ x.2.flags &&& DPRPFrame_Ack = 0
      ∧ x.2.flags &&& DPRPFrame_Start = 0)
    (hinner : ∀ x ∈ (first :: rest).dropLast, x.2.flags &&& DPRPFrame_End = 0)
    (hlast : ∀ x ∈ (first :: rest).getLast?, x.2.flags &&& DPRPFrame_End ≠ 0)
    (hchain : List.Chain' NextSequence (first :: rest))
    (hidle : w.client.currentMessageId = -1) :
    (∀ w2, handleUDPReads ((first :: rest).map Prod.fst) w = some w2 →
        w2.completed = w.completed ++ [rpPayloads (first :: rest)]
          ∧ w2.client.currentMessageId = -1
          ∧ ∀ n, n < (first :: rest).length → ∀ w1,
              handleUDPReads (((first :: rest).take n).map Prod.fst) w = some w1 →
              w1.completed = w.completed)
      ∧ ((∀ x ∈ first :: rest, x.2.fromId < 14384 ∨ 16384 ≤ x.2.fromId) →
          4 ≤ (rpPayloads (first :: rest)).length →
          (rpPayloads (first :: rest)).take 4 ≠ playSignature →
          ∃ w2, handleUDPReads ((first :: rest).map Prod.fst) w = some w2) := by
  constructor
  · intro w2 hrun
    obtain ⟨h1, h2, h3⟩ := rp_message_run first rest w w2 hfirst hrest hinner hlast hchain hrun
    exact ⟨h1, h2 (Or.inl hidle), h3⟩
  · intro hfrom h4 hsig
    exact rp_message_run_defined first rest w
      ⟨hfirst.1, hfirst.2.1, hfirst.2.2, hfrom first (List.mem_cons_self _ _)⟩
      (fun x hx => ⟨(hrest x hx).1, (hrest x hx).2.1, (hrest x hx).2.2,
        hfrom x (List.mem_cons_of_mem _ hx)⟩)
      hinner hlast hchain h4 hsig

/-- C5 at the three frames of scenario E4. -/
theorem C5_reassembly_witness :
    e4World.completed = exampleWorld.completed ++ [rpPayloads e4Frames]
      ∧ e4World.client.currentMessageId = -1
      ∧ ∀ n, n < e4Frames.length → ∀ w1,
          handleUDPReads ((e4Frames.take n).map Prod.fst) exampleWorld = some w1 →
          w1.completed = exampleWorld.completed :=
  (C5_reassembly
    (exampleDatagram 0x11 7 0 9 (playSignature ++ le16 DPSPCommand.RequestPlayerId ++ le16 14
      ++ [0]), exampleFrame 0x11 7 0 9)
    [(exampleDatagram 0x01 7 1 9 [0], exampleFrame 0x01 7 1 9),
     (exampleDatagram 0x0D 7 2 9 [0, 0], exampleFrame 0x0D 7 2 9)]
    exampleWorld (by decide) (by decide) (by decide) (by decide)
    (by simp [NextSequence, exampleFrame]) (by decide)).1 e4World (by decide)

/-! ## The player map -/

theorem mapFind_eq_none (m : List (Nat × Player)) (k : Nat) :
    mapFind m k = none ↔ ∀ e ∈ m, e.1 ≠ k := by
  unfold mapFind
  simp

theorem mapFind_mem (m : List (Nat × Player)) (k : Nat) (p : Player)
    (h : mapFind m k = some p) : (k, p) ∈ m := by
  unfold mapFind at h
  simp only [Option.map_eq_some'] at h
  obtain ⟨e, he, hp⟩ := h
  have hk : e.1 = k := by simpa using List.find?_some he
  have hm := List.mem_of_find?_eq_some he
  rw [← hk, ← hp]
  exact hm

theorem mem_mapEmplace (m : List (Nat × Player)) (k : Nat) (p : Player) (e : Nat × Player)
    (h : e ∈ mapEmplace m k p) : e = (k, p) ∨ e ∈ m := by
  induction m with
  | nil => left; simpa [mapEmplace] using h
  | cons a l ih =>
    unfold mapEmplace at h
    split at h
    · rcases List.mem_cons.mp h with h1 | h1
      · left; exact h1
      · right; exact h1
    · split at h
      · right; exact h
      · rcases List.mem_cons.mp h with h1 | h1
        · right; rw [h1]; exact List.mem_cons_self _ _
        · rcases ih h1 with h2 | h2
          · left; exact h2
          · right; exact List.mem_cons_of_mem _ h2

/-- Emplacing under a key that is not in the map adds one entry and keeps the
others. -/
theorem mapEmplace_perm (m : List (Nat × Player)) (k : Nat) (p : Player)
    (h : mapFind m k = none) : (mapEmplace m k p).Perm ((k, p) :: m) := by
  induction m with
  | nil => simp [mapEmplace]
  | cons a l ih =>
    have hall := (mapFind_eq_none (a :: l) k).mp h
    have ha : a.1 ≠ k := hall a (List.mem_cons_self _ _)
    have hl : mapFind l k = none :=
      (mapFind_eq_none l k).mpr (fun e he => hall e (List.mem_cons_of_mem _ he))
    unfold mapEmplace
    split
    · exact List.Perm.refl _
    · rw [if_neg (fun hk => ha hk.symm)]
      exact ((ih hl).cons a).trans (List.Perm.swap _ _ _)

theorem mapFind_mapEmplace (m : List (Nat × Player)) (k : Nat) (p : Player)
    (h : mapFind m k = none) : mapFind (mapEmplace m k p) k = some p := by
  induction m with
  | nil => simp [mapEmplace, mapFind]
  | cons a l ih =>
    have hall := (mapFind_eq_none (a :: l) k).mp h
    have ha : a.1 ≠ k := hall a (List.mem_cons_self _ _)
    have hl : mapFind l k = none :=
      (mapFind_eq_none l k).mpr (fun e he => hall e (List.mem_cons_of_mem _ he))
    unfold mapEmplace
    split
    · simp [mapFind]
    · rw [if_neg (fun hk => ha hk.symm)]
      have ih2 := ih hl
      unfold mapFind at ih2 ⊢
      rw [List.find?_cons_of_neg _ (by simpa using ha)]
      exact ih2

/-! ## `allocPlayerId` -/

theorem allocPlayerIdLoop_free (players : List (Nat × Player)) (fuel : Nat) :
    ∀ (newId id : Nat), allocPlayerIdLoop players fuel newId = some id →
      mapFind players id = none := by
  induction fuel with
  | zero => intro newId id h; simp [allocPlayerIdLoop] at h
  | succ n ih =>
    intro newId id h
    unfold allocPlayerIdLoop at h
    split at h
    · exact ih _ _ h
    · rename_i hfree
      cases h
      simpa using hfree

theorem allocPlayerIdLoop_isSome (players : List (Nat × Player)) (fuel : Nat) :
    ∀ (c : Nat) (used : Finset Nat), c < 2 ^ 32 → fuel ≤ 2 ^ 32 → used.card < fuel →
      (∀ j, j < fuel → (mapFind players ((c + j) % 2 ^ 32)).isSome →
        (c + j) % 2 ^ 32 ∈ used) →
      ∃ id, allocPlayerIdLoop players fuel c = some id := by
  induction fuel with
  | zero => intro c used _ _ hcard; exact absurd hcard (Nat.not_lt_zero _)
  | succ n ih =>
    intro c used hc hfuel hcard hused
    unfold allocPlayerIdLoop
    by_cases hfound : (mapFind players c).isSome
    · rw [if_pos hfound]
      have hcu : c ∈ used := by
        have h0 := hused 0 (Nat.succ_pos n)
        rw [Nat.add_zero, Nat.mod_eq_of_lt hc] at h0
        exact h0 hfound
      apply ih ((c + 1) % 2 ^ 32) (used.erase c) (Nat.mod_lt _ (by norm_num)) (by omega)
      · rw [Finset.card_erase_of_mem hcu]
        have hpos : 0 < used.card := Finset.card_pos.mpr ⟨c, hcu⟩
        omega
      · intro j hj hsome
        have heq : ((c + 1) % 2 ^ 32 + j) % 2 ^ 32 = (c + (j + 1)) % 2 ^ 32 := by omega
        rw [heq] at hsome ⊢
        refine Finset.mem_erase.mpr ⟨?_, hused (j + 1) (by omega) hsome⟩
        omega
    · rw [if_neg hfound]
      exact ⟨c, rfl⟩

/-- The loop of `allocPlayerId` finds an id whenever the session holds fewer
than `2 ^ 32` players. -/
theorem allocPlayerId_isSome (s : Session) (h : s.players.length < 2 ^ 32) :
    ∃ id, s.allocPlayerId = some id := by
  unfold Session.allocPlayerId
  apply allocPlayerIdLoop_isSome s.players _ _ (s.players.map Prod.fst).toFinset
    (Nat.mod_lt _ (by norm_num)) (by omega)
  · have := List.toFinset_card_le (s.players.map Prod.fst)
    rw [List.length_map] at this
    omega
  · intro j _ hsome
    obtain ⟨p, hp⟩ := Option.isSome_iff_exists.mp hsome
    have hm := mapFind_mem _ _ _ hp
    rw [List.mem_toFinset]
    exact List.mem_map.mpr ⟨_, hm, rfl⟩

theorem allocPlayerId_free (s : Session) (id : Nat) (h : s.allocPlayerId = some id) :
    mapFind s.players id = none :=
  allocPlayerIdLoop_free _ _ _ _ h

/-! ## Creating and deleting players -/

theorem createNewSystemPlayer_eq (s s2 : Session) (flags : Nat) (p : Player)
    (h : s.createNewSystemPlayer flags = some (s2, p)) :
    ∃ newId, s.allocPlayerId = some newId ∧ mapFind s.players newId = none
      ∧ p = Player.init newId newId (flags ||| DPPlayer_System)
      ∧ s2 = { s with players := mapEmplace s.players newId p } := by
  unfold Session.createNewSystemPlayer at h
  simp only [Option.bind_eq_bind, Option.bind_eq_some, Option.pure_def] at h
  obtain ⟨newId, hid, h⟩ := h
  have hfree := allocPlayerId_free s newId hid
  rw [mapFind_mapEmplace _ _ _ hfree] at h
  cases h
  exact ⟨newId, hid, hfree, rfl, rfl⟩

theorem createNewPlayer_eq (s s2 : Session) (systemPlayerId flags : Nat) (p : Player)
    (h : s.createNewPlayer systemPlayerId flags = some (s2, p)) :
    ∃ newId, s.allocPlayerId = some newId ∧ mapFind s.players newId = none
      ∧ p = Player.init newId systemPlayerId flags
      ∧ s2 = { s with players := mapEmplace s.players newId p } := by
  unfold Session.createNewPlayer at h
  simp only [Option.bind_eq_bind, Option.bind_eq_some, Option.pure_def] at h
  obtain ⟨newId, hid, h⟩ := h
  have hfree := allocPlayerId_free s newId hid
  rw [mapFind_mapEmplace _ _ _ hfree] at h
  cases h
  exact ⟨newId, hid, hfree, rfl, rfl⟩

/-- The players of `deletePlayer(id)` are among those of the session. -/
theorem deletePlayer_sublist (s : Session) (id : Nat) :
    (s.deletePlayer id).players.Sublist s.players := by
  unfold Session.deletePlayer
  split
  · exact List.Sublist.refl _
  · split
    · exact List.filter_sublist _
    · exact List.filter_sublist _

/-- Keys are unique and every player is stored under its own id, in every
state the three operations lead to. -/
theorem reachable_keys (allowed : Nat → Prop) (s : Session)
    (h : Session.Reachable allowed s) :
    (s.players.map Prod.fst).Nodup ∧ ∀ e ∈ s.players, e.2.getId = e.1 := by
  induction h with
  | empty s hs => rw [hs]; simp
  | createSystem s s2 flags p _ hc ih =>
    obtain ⟨newId, -, hfree, hp, hs2⟩ := createNewSystemPlayer_eq s s2 flags p hc
    subst hs2
    have hperm := mapEmplace_perm s.players newId p hfree
    constructor
    · rw [(hperm.map Prod.fst).nodup_iff, List.map_cons, List.nodup_cons]
      refine ⟨?_, ih.1⟩
      intro hmem
      obtain ⟨e, he, hk⟩ := List.mem_map.mp hmem
      exact (mapFind_eq_none _ _).mp hfree e he hk
    · intro e he
      rcases mem_mapEmplace _ _ _ _ he with h1 | h1
      · rw [h1, hp]; rfl
      · exact ih.2 e h1
  | create s s2 systemPlayerId flags p _ _ hc ih =>
    obtain ⟨newId, -, hfree, hp, hs2⟩ := createNewPlayer_eq s s2 systemPlayerId flags p hc
    subst hs2
    have hperm := mapEmplace_perm s.players newId p hfree
    constructor
    · rw [(hperm.map Prod.fst).nodup_iff, List.map_cons, List.nodup_cons]
      refine ⟨?_, ih.1⟩
      intro hmem
      obtain ⟨e, he, hk⟩ := List.mem_map.mp hmem
      exact (mapFind_eq_none _ _).mp hfree e he hk
    · intro e he
      rcases mem_mapEmplace _ _ _ _ he with h1 | h1
      · rw [h1, hp]; rfl
      · exact ih.2 e h1
  | delete s id _ ih =>
    have hsub := deletePlayer_sublist s id
    exact ⟨ih.1.sublist (hsub.map Prod.fst), fun e he => ih.2 e (hsub.subset he)⟩

theorem system_bit_set (flags : Nat) : (flags ||| DPPlayer_System) &&& DPPlayer_System ≠ 0 := by
  intro h
  have h0 := congrArg (fun n => n.testBit 0) h
  simp [DPPlayer_System, Nat.testBit_and, Nat.testBit_or] at h0

/-- A player with the `System` flag has itself as system player, in every
state that the operations lead to when `createNewPlayer` is not given the
`System` flag. -/
theorem reachable_system (allowed : Nat → Prop)
    (hallowed : ∀ flags, allowed flags → flags &&& DPPlayer_System = 0) (s : Session)
    (h : Session.Reachable allowed s) :
    ∀ e ∈ s.players, e.2.getFlags &&& DPPlayer_System ≠ 0 →
      e.2.getSystemPlayerId = e.2.getId := by
  induction h with
  | empty s hs => rw [hs]; simp
  | createSystem s s2 flags p _ hc ih =>
    obtain ⟨newId, -, -, hp, hs2⟩ := createNewSystemPlayer_eq s s2 flags p hc
    subst hs2
    intro e he hsys
    rcases mem_mapEmplace _ _ _ _ he with h1 | h1
    · rw [h1, hp]; rfl
    · exact ih e h1 hsys
  | create s s2 systemPlayerId flags p _ hflags hc ih =>
    obtain ⟨newId, -, -, hp, hs2⟩ := createNewPlayer_eq s s2 systemPlayerId flags p hc
    subst hs2
    intro e he hsys
    rcases mem_mapEmplace _ _ _ _ he with h1 | h1
    · rw [h1, hp] at hsys
      exact absurd (hallowed flags hflags) hsys
    · exact ih e h1 hsys
  | delete s id _ ih =>
    intro e he hsys
    exact ih e ((deletePlayer_sublist s id).subset he) hsys

/-- The example session is what `createNewSystemPlayer()` followed by
`createNewPlayer(0x10000)` make of the empty session. -/
theorem exampleSession_reachable (allowed : Nat → Prop) (h0 : allowed 0) :
    Session.Reachable allowed exampleSession :=
  Session.Reachable.create systemOnlySession exampleSession 0x10000 0
    (Player.init 0x10001 0x10000 0)
    (Session.Reachable.createSystem emptySession systemOnlySession 0
      (Player.init 0x10000 0x10000 DPPlayer_System)
      (Session.Reachable.empty emptySession rfl) (by decide))
    h0 (by decide)

/-- C16: in every state that `createNewSystemPlayer`, `createNewPlayer` (with
any arguments) and `deletePlayer` lead to from a session without players, each
player is stored under its own id and no two players have the same id; a
create call that returns gives a player whose id was not in use, stores it
under that id and makes the map one entry longer; and the call does return
while the session holds fewer than `2 ^ 32` players (with all `2 ^ 32` ids in
use the loop of `allocPlayerId` would not end). -/
theorem C16_allocator_uniqueness (s : Session)
    (hs : Session.Reachable (fun _ => True) s) :
    (∀ e ∈ s.players, e.2.getId = e.1)
      ∧ (s.players.map (fun e => e.2.getId)).Nodup
      ∧ (∀ flags s2 p, s.createNewSystemPlayer flags = some (s2, p) →
          s.getPlayer p.getId = none ∧ s2.getPlayer p.getId = some p
            ∧ s2.players.length = s.players.length + 1)
      ∧ (∀ systemPlayerId flags s2 p, s.createNewPlayer systemPlayerId flags = some (s2, p) →
          s.getPlayer p.getId = none ∧ s2.getPlayer p.getId = some p
            ∧ s2.players.length = s.players.length + 1)
      ∧ (s.players.length < 2 ^ 32 → ∀ systemPlayerId flags,
          (s.createNewSystemPlayer flags).isSome
            ∧ (s.createNewPlayer systemPlayerId flags).isSome) := by
  obtain ⟨hnodup, hkey⟩ := reachable_keys _ s hs
  refine ⟨hkey, ?_, ?_, ?_, ?_⟩
  · have hmap : s.players.map (fun e => e.2.getId) = s.players.map Prod.fst :=
      List.map_congr_left hkey
    rw [hmap]
    exact hnodup
  · intro flags s2 p hc
    obtain ⟨newId, -, hfree, hp, hs2⟩ := createNewSystemPlayer_eq s s2 flags p hc
    have hid : p.getId = newId := by rw [hp]; rfl
    subst hs2
    rw [hid]
    exact ⟨hfree, mapFind_mapEmplace _ _ _ hfree,
      by simpa using (mapEmplace_perm s.players newId p hfree).length_eq⟩
  · intro systemPlayerId flags s2 p hc
    obtain ⟨newId, -, hfree, hp, hs2⟩ := createNewPlayer_eq s s2 systemPlayerId flags p hc
    have hid : p.getId = newId := by rw [hp]; rfl
    subst hs2
    rw [hid]
    exact ⟨hfree, mapFind_mapEmplace _ _ _ hfree,
      by simpa using (mapEmplace_perm s.players newId p hfree).length_eq⟩
  · intro hlen systemPlayerId flags
    obtain ⟨newId, hid⟩ := allocPlayerId_isSome s hlen
    constructor
    · simp [Session.createNewSystemPlayer, hid]
    · simp [Session.createNewPlayer, hid]

/-- C16 at the example session. -/
theorem C16_allocator_uniqueness_witness :
    (∀ e ∈ exampleSession.players, e.2.getId = e.1)
      ∧ (exampleSession.players.map (fun e => e.2.getId)).Nodup
      ∧ (∀ flags s2 p, exampleSession.createNewSystemPlayer flags = some (s2, p) →
          exampleSession.getPlayer p.getId = none ∧ s2.getPlayer p.getId = some p
            ∧ s2.players.length = exampleSession.players.length + 1)
      ∧ (∀ systemPlayerId flags s2 p,
          exampleSession.createNewPlayer systemPlayerId flags = some (s2, p) →
          exampleSession.getPlayer p.getId = none ∧ s2.getPlayer p.getId = some p
            ∧ s2.players.length = exampleSession.players.length + 1)
      ∧ (exampleSession.players.length < 2 ^ 32 → ∀ systemPlayerId flags,
          (exampleSession.createNewSystemPlayer flags).isSome
            ∧ (exampleSession.createNewPlayer systemPlayerId flags).isSome) :=
  C16_allocator_uniqueness exampleSession (exampleSession_reachable _ trivial)

/-- C17: for a player `p` stored under `id` that has the `System` flag,
`deletePlayer(id)` keeps exactly the players whose system-player-id is not
`id`, in their order and unchanged, and changes nothing else in the session.
The system player is among the removed ones when its system-player-id is its
id, as it is in every state the session operations lead to (with
`createNewPlayer` not given the `System` flag); there no player is left under
`id`. -/
theorem C17_system_player_cascade (s : Session) (id : Nat) (p : Player)
    (hp : s.getPlayer id = some p) (hsys : p.getFlags &&& DPPlayer_System ≠ 0) :
    s.deletePlayer id
        = { s with players := s.players.filter (fun e => e.2.getSystemPlayerId ≠ id) }
      ∧ (∀ e ∈ s.players,
          e ∈ (s.deletePlayer id).players ↔ e.2.getSystemPlayerId ≠ id)
      ∧ (p.getSystemPlayerId = id → (id, p) ∉ (s.deletePlayer id).players)
      ∧ (Session.Reachable (fun flags => flags &&& DPPlayer_System = 0) s →
          (s.deletePlayer id).getPlayer id = none) := by
  have hdel : s.deletePlayer id
      = { s with players := s.players.filter (fun e => e.2.getSystemPlayerId ≠ id) } := by
    unfold Session.deletePlayer
    have hp2 : mapFind s.players id = some p := hp
    rw [hp2]
    simp only [hsys, ne_eq, not_false_eq_true, if_true]
  refine ⟨hdel, ?_, ?_, ?_⟩
  · intro e he
    rw [hdel]
    simp [List.mem_filter, he]
  · intro hself hmem
    rw [hdel] at hmem
    simp [List.mem_filter, hself] at hmem
  · intro hreach
    obtain ⟨hnodup, hkey⟩ := reachable_keys _ s hreach
    have hinv := reachable_system _ (fun _ h => h) s hreach
    have hmem := mapFind_mem _ _ _ hp
    have hpid : p.getId = id := hkey _ hmem
    have hself : p.getSystemPlayerId = id := by rw [hinv _ hmem hsys, hpid]
    rw [hdel]
    show mapFind _ id = none
    rw [mapFind_eq_none]
    intro e he hk
    have he2 := List.mem_filter.mp he
    have heq : e = (id, p) :=
      List.inj_on_of_nodup_map hnodup he2.1 hmem hk
    rw [heq] at he2
    simp [hself] at he2

/-- C17 at the example session and its system player `0x10000`. -/
theorem C17_system_player_cascade_witness :
    exampleSession.deletePlayer 0x10000
        = { exampleSession with
            players := exampleSession.players.filter
              (fun e => e.2.getSystemPlayerId ≠ 0x10000) }
      ∧ (∀ e ∈ exampleSession.players,
          e ∈ (exampleSession.deletePlayer 0x10000).players
            ↔ e.2.getSystemPlayerId ≠ 0x10000)
      ∧ ((Player.init 0x10000 0x10000 DPPlayer_System).getSystemPlayerId = 0x10000 →
          (0x10000, Player.init 0x10000 0x10000 DPPlayer_System)
            ∉ (exampleSession.deletePlayer 0x10000).players)
      ∧ (Session.Reachable (fun flags => flags &&& DPPlayer_System = 0) exampleSession →
          (exampleSession.deletePlayer 0x10000).getPlayer 0x10000 = none) :=
  C17_system_player_cascade exampleSession 0x10000
    (Player.init 0x10000 0x10000 DPPlayer_System) (by decide) (by decide)

/-- C20: the player `createNewSystemPlayer` returns has the `System` flag and
is its own system player; and in every state that `createNewSystemPlayer`,
`createNewPlayer` without the `System` flag (the dispatcher passes no flags at
all) and `deletePlayer` lead to from a session without players, every player
with the `System` flag has its own id as system-player-id. -/
theorem C20_system_player_invariant (s : Session)
    (hs : Session.Reachable (fun flags => flags &&& DPPlayer_System = 0) s) :
    (∀ flags s2 p, s.createNewSystemPlayer flags = some (s2, p) →
        p.getFlags &&& DPPlayer_System ≠ 0 ∧ p.getSystemPlayerId = p.getId
          ∧ s2.getPlayer p.getId = some p)
      ∧ ∀ e ∈ s.players, e.2.getFlags &&& DPPlayer_System ≠ 0 →
          e.2.getSystemPlayerId = e.2.getId := by
  refine ⟨?_, reachable_system _ (fun _ h => h) s hs⟩
  intro flags s2 p hc
  obtain ⟨newId, -, hfree, hp, hs2⟩ := createNewSystemPlayer_eq s s2 flags p hc
  have hid : p.getId = newId := by rw [hp]; rfl
  subst hs2
  refine ⟨?_, ?_, ?_⟩
  · rw [hp]; exact system_bit_set flags
  · rw [hp]; rfl
  · rw [hid]; exact mapFind_mapEmplace _ _ _ hfree

/-- C20 at the example session. -/
theorem C20_system_player_invariant_witness :
    (∀ flags s2 p, exampleSession.createNewSystemPlayer flags = some (s2, p) →
        p.getFlags &&& DPPlayer_System ≠ 0 ∧ p.getSystemPlayerId = p.getId
          ∧ s2.getPlayer p.getId = some p)
      ∧ ∀ e ∈ exampleSession.players, e.2.getFlags &&& DPPlayer_System ≠ 0 →
          e.2.getSystemPlayerId = e.2.getId :=
  C20_system_player_invariant exampleSession (exampleSession_reachable _ (by decide))

/-! ## `RequestPlayerId` -/

theorem checkOutgoingSocket_session (env : Env) (w : World) :
    (checkOutgoingSocket env w).2.session = w.session
      ∧ (checkOutgoingSocket env w).2.client.systemPlayerId = w.client.systemPlayerId := by
  unfold checkOutgoingSocket
  split
  · exact ⟨rfl, rfl⟩
  · split <;> exact ⟨rfl, rfl⟩

theorem sendReply_session (env : Env) (w : World) (b : List Nat) (d : Diag) :
    (sendReply env w b d).session = w.session
      ∧ (sendReply env w b d).client = w.client := by
  unfold sendReply
  split <;> exact ⟨rfl, rfl⟩

theorem handleDPlayCommand_requestPlayerId (env : Env) (mem : List Nat) (data len : Nat)
    (w : World) :
    handleDPlayCommand env mem DPSPCommand.RequestPlayerId data len w
      = handleRequestPlayerId env mem data w := by
  simp [handleDPlayCommand, handleDPlayCommandFuel, DPSPCommand.RequestPlayerId,
    DPSPCommand.EnumSessions]

/-- What `case RequestPlayerId` does to the session and to the client's
`systemPlayerId`. -/
theorem handleRequestPlayerId_session (env : Env) (mem : List Nat) (data flags : Nat)
    (w : World) (r : Bool × World) (hflags : rd32 mem data = some flags)
    (h : handleRequestPlayerId env mem data w = some r) :
    (flags &&& RequestPlayerId_System ≠ 0 ∧ w.client.systemPlayerId ≠ 0xFFFFFFFF →
        r.2.session = w.session ∧ r.2.client.systemPlayerId = w.client.systemPlayerId)
      ∧ (flags &&& RequestPlayerId_System ≠ 0 ∧ w.client.systemPlayerId = 0xFFFFFFFF →
          ∃ p, w.session.createNewSystemPlayer = some (r.2.session, p)
            ∧ r.2.client.systemPlayerId = p.getId)
      ∧ (flags &&& RequestPlayerId_System = 0 →
          ∃ p, w.session.createNewPlayer w.client.systemPlayerId = some (r.2.session, p)
            ∧ r.2.client.systemPlayerId = w.client.systemPlayerId) := by
  unfold handleRequestPlayerId at h
  simp only [Option.bind_eq_bind, hflags, Option.some_bind, Option.pure_def] at h
  by_cases hsys : flags &&& RequestPlayerId_System ≠ 0
  · by_cases hown : w.client.systemPlayerId ≠ 0xFFFFFFFF
    · simp only [hsys, hown, ne_eq, not_false_eq_true, decide_True, and_self, if_true] at h
      cases h
      exact ⟨fun _ => ⟨rfl, rfl⟩, fun hc => absurd hc.2 hown, fun hc => absurd hc hsys⟩
    · simp only [hsys, hown, ne_eq, not_false_eq_true, decide_True, and_false, if_false,
        if_true, Option.bind_eq_some] at h
      obtain ⟨created, hc, h⟩ := h
      refine ⟨fun hc2 => absurd hc2.2 hown, fun _ => ⟨created.2, ?_, ?_⟩,
        fun hc2 => absurd hc2 hsys⟩
      · split at h
        all_goals cases h
        · rw [(sendReply_session _ _ _ _).1, (checkOutgoingSocket_session _ _).1]
          exact hc
        · rw [(checkOutgoingSocket_session _ _).1]
          exact hc
      · split at h
        all_goals cases h
        · rw [(sendReply_session _ _ _ _).2, (checkOutgoingSocket_session _ _).2]
        · rw [(checkOutgoingSocket_session _ _).2]
  · have hsys0 : flags &&& RequestPlayerId_System = 0 := by
      by_contra hne
      exact hsys hne
    simp only [hsys0, ne_eq, not_true_eq_false, decide_False, Bool.false_eq_true, false_and,
      if_false, Option.bind_eq_some] at h
    obtain ⟨created, hc, h⟩ := h
    refine ⟨fun hc2 => absurd hc2.1 hsys, fun hc2 => absurd hc2.1 hsys,
      fun _ => ⟨created.2, ?_, ?_⟩⟩
    · split at h
      all_goals cases h
      · rw [(sendReply_session _ _ _ _).1, (checkOutgoingSocket_session _ _).1]
        exact hc
      · rw [(checkOutgoingSocket_session _ _).1]
        exact hc
    · split at h
      all_goals cases h
      · rw [(sendReply_session _ _ _ _).2, (checkOutgoingSocket_session _ _).2]
        rfl
      · rw [(checkOutgoingSocket_session _ _).2]
        rfl

theorem nonSystem_count_emplace (m : List (Nat × Player)) (k : Nat) (p : Player)
    (hfree : mapFind m k = none) (hp : p.getFlags &&& DPPlayer_System = 0) :
    ((mapEmplace m k p).filter (fun e => e.2.getFlags &&& DPPlayer_System = 0)).length
      = (m.filter (fun e => e.2.getFlags &&& DPPlayer_System = 0)).length + 1 := by
  have hperm := (mapEmplace_perm m k p hfree).filter
    (fun e => decide (e.2.getFlags &&& DPPlayer_System = 0))
  rw [hperm.length_eq, List.filter_cons_of_pos (by simpa using hp), List.length_cons]

/-- C18 as the spec states it fails: ten `RequestPlayerId` messages without
the `System` flag, handled one after the other on a session that holds one
player of that kind and allows 10, leave 11 of them. -/
theorem C18_eleven_players_of_ten :
    freshWorld.session.getMaxPlayers = 10 ∧ freshWorld.session.getCurrentPlayers = 1
      ∧ (handleDPlayPackets
            (List.replicate 10 { env := offlineEnv, buf := exampleRequestPlayerId, len := 32 })
            freshWorld).map
          (fun w => (w.session.getCurrentPlayers, w.session.getMaxPlayers))
        = some (11, 10) := by
  decide

/-- C18, amended: the count of non-system players is not held below
`getMaxPlayers()`.  Every `RequestPlayerId` command without the `System` flag
that is handled adds one player without the `System` flag, whatever the count
was, and leaves `maxPlayers` alone. -/
theorem C18_count_not_bounded (env : Env) (mem : List Nat) (data len flags : Nat) (w : World)
    (r : Bool × World) (hflags : rd32 mem data = some flags)
    (hns : flags &&& RequestPlayerId_System = 0)
    (h : handleDPlayCommand env mem DPSPCommand.RequestPlayerId data len w = some r) :
    r.2.session.getCurrentPlayers = (w.session.getCurrentPlayers + 1) % 2 ^ 32
      ∧ r.2.session.getMaxPlayers = w.session.getMaxPlayers := by
  rw [handleDPlayCommand_requestPlayerId] at h
  obtain ⟨p, hc, -⟩ := (handleRequestPlayerId_session env mem data flags w r hflags h).2.2 hns
  obtain ⟨newId, -, hfree, hp, hs2⟩ := createNewPlayer_eq _ _ _ _ _ hc
  rw [hs2]
  refine ⟨?_, rfl⟩
  unfold Session.getCurrentPlayers
  show (List.filter _ (mapEmplace w.session.players newId p)).length % 2 ^ 32 = _
  rw [nonSystem_count_emplace _ _ _ hfree (by rw [hp]; simp [Player.init, Player.getFlags])]
  omega

/-- C18 (amended) at one request handled on the example session. -/
theorem C18_count_not_bounded_witness :
    ((handleDPlayCommand offlineEnv (le32 0) DPSPCommand.RequestPlayerId 0 4
        freshWorld).getD (false, freshWorld)).2.session.getCurrentPlayers
        = (freshWorld.session.getCurrentPlayers + 1) % 2 ^ 32
      ∧ ((handleDPlayCommand offlineEnv (le32 0) DPSPCommand.RequestPlayerId 0 4
          freshWorld).getD (false, freshWorld)).2.session.getMaxPlayers
        = freshWorld.session.getMaxPlayers :=
  C18_count_not_bounded offlineEnv (le32 0) 0 4 0 freshWorld _ (by decide) (by decide)
    (by decide)

/-- C19, evaluated: a client that owns no system player (`systemPlayerId` is
still `~0u`) asks for a player without the `System` flag.  The handler passes
`~0u` to `createNewPlayer`: player `0x10002` is created with system-player-id
`0xFFFFFFFF`, which is the id of no player, and the client still owns no
system player. -/
theorem C19_orphan_player :
    freshWorld.client.systemPlayerId = 0xFFFFFFFF
      ∧ (handleDPlayCommand exampleEnv (le32 0) DPSPCommand.RequestPlayerId 0 4
            freshWorld).map
          (fun r => ((r.2.session.getPlayer 0x10002).map
              (fun p => (p.getFlags, p.getSystemPlayerId)),
            r.2.session.getPlayer 0xFFFFFFFF, r.2.client.systemPlayerId,
            r.2.session.players.map Prod.fst))
        = some (some (0, 0xFFFFFFFF), none, 0xFFFFFFFF, [0x10000, 0x10001, 0x10002]) := by
  decide

/-- What holds of C19: the player created for a request without the `System`
flag gets the `systemPlayerId` of the requesting client as system-player-id,
whatever that value is. -/
theorem requestPlayerId_systemPlayerId (env : Env) (mem : List Nat) (data len flags : Nat)
    (w : World) (r : Bool × World) (hflags : rd32 mem data = some flags)
    (hns : flags &&& RequestPlayerId_System = 0)
    (h : handleDPlayCommand env mem DPSPCommand.RequestPlayerId data len w = some r) :
    ∃ p, w.session.getPlayer p.getId = none ∧ r.2.session.getPlayer p.getId = some p
      ∧ p.getSystemPlayerId = w.client.systemPlayerId ∧ p.getFlags = 0
      ∧ r.2.client.systemPlayerId = w.client.systemPlayerId := by
  rw [handleDPlayCommand_requestPlayerId] at h
  obtain ⟨p, hc, hkeep⟩ :=
    (handleRequestPlayerId_session env mem data flags w r hflags h).2.2 hns
  obtain ⟨newId, -, hfree, hp, hs2⟩ := createNewPlayer_eq _ _ _ _ _ hc
  have hid : p.getId = newId := by rw [hp]; rfl
  refine ⟨p, ?_, ?_, ?_, ?_, hkeep⟩
  · rw [hid]; exact hfree
  · rw [hs2, hid]; exact mapFind_mapEmplace _ _ _ hfree
  · rw [hp]; rfl
  · rw [hp]; rfl

/-! ## Every path of `handleUDPRead` for a frame with a complete header -/

/-- A frame with the `Extended` bit is dropped right after the header. -/
theorem handleUDPRead_extended (d : Recv) (f : RPFrame) (w : World) (h6 : 6 ≤ d.len)
    (hparse : readRPFrame d.buf d.len.toNat = some (some f))
    (hext : f.flags &&& DPRPFrame_Extended ≠ 0) :
    handleUDPRead d.env d.buf d.len w = some (w.print Diag.extFlags) := by
  unfold handleUDPRead
  rw [if_neg (by omega), if_neg (by omega)]
  simp only []
  rw [if_neg (by omega)]
  simp only [Option.bind_eq_bind, Option.pure_def, hparse, Option.some_bind, hext, ne_eq,
    not_false_eq_true, if_true]

/-- A frame to another id than 0 is counted and dropped. -/
theorem handleUDPRead_otherId (d : Recv) (f : RPFrame) (w : World) (h6 : 6 ≤ d.len)
    (hparse : readRPFrame d.buf d.len.toNat = some (some f))
    (hext : f.flags &&& DPRPFrame_Extended = 0) (hto : f.toId ≠ 0) :
    handleUDPRead d.env d.buf d.len w
      = some ((w.received (d.len.toNat - f.idLen)).print (Diag.frameTo f.toId)) := by
  unfold handleUDPRead
  rw [if_neg (by omega), if_neg (by omega)]
  simp only []
  rw [if_neg (by omega)]
  simp only [Option.bind_eq_bind, Option.pure_def, hparse, Option.some_bind, hext, hto, ne_eq,
    not_true_eq_false, not_false_eq_true, if_true, if_false]

/-- A frame with the `Ack` bit that reaches the assembly is noted on the
console; the ack statement after the assembly is reached as for any other
frame. -/
theorem handleUDPRead_ack (d : Recv) (f : RPFrame) (w : World) (hd : d.Carries f)
    (hack : f.flags &&& DPRPFrame_Ack ≠ 0) :
    handleUDPRead d.env d.buf d.len w
      = sendRPAck d.env f ((w.received (d.len.toNat - f.idLen)).print Diag.rpAck) := by
  rw [handleUDPRead_frame d f w hd]
  unfold assembleRPFrame
  rw [if_pos hack]
  rfl

/-- The byte counter and the frames sent, for every frame with a complete
header and without the `Extended` bit on which `handleUDPRead` has a defined
result: the frame is counted, and at most one frame is sent, the ack built
from the counter after the frame was counted. -/
theorem handleUDPRead_counted (d : Recv) (f : RPFrame) (w w2 : World) (h6 : 6 ≤ d.len)
    (hmem : d.len.toNat ≤ d.buf.length)
    (hparse : readRPFrame d.buf d.len.toNat = some (some f))
    (hext : f.flags &&& DPRPFrame_Extended = 0)
    (h : handleUDPRead d.env d.buf d.len w = some w2) :
    w2.client.dataReceived = (w.client.dataReceived + (d.len.toNat - f.idLen)) % 2 ^ 32
      ∧ (udpFrames w2.out = udpFrames w.out
        ∨ udpFrames w2.out
            = udpFrames w.out ++ [rpAck d.env.tick f w2.client.dataReceived]) := by
  by_cases hto : f.toId = 0
  · have hd : d.Carries f := ⟨h6, hmem, hparse, hext, hto⟩
    by_cases hack : f.flags &&& DPRPFrame_Ack = 0
    · have v := handleUDPRead_rpView d f w w2 hd hack h
      have hrecv : w2.client.dataReceived
          = (w.client.dataReceived + (d.len.toNat - f.idLen)) % 2 ^ 32 := by
        have hv := congrArg RPView.dataReceived v
        unfold rpViewAfter at hv
        simp only [] at hv
        split_ifs at hv <;> exact hv
      refine ⟨hrecv, ?_⟩
      have hv : udpFrames w2.out = _ := congrArg RPView.frames v
      rw [hrecv, hv]
      unfold rpViewAfter
      simp only []
      split_ifs
      all_goals first
        | (left; rfl)
        | (right; rfl)
        | (left; exact (List.append_nil _))
    · rw [handleUDPRead_ack d f w hd hack] at h
      have v := rpView_sendRPAck _ _ _ _ h
      have hrecv : w2.client.dataReceived
          = (w.client.dataReceived + (d.len.toNat - f.idLen)) % 2 ^ 32 :=
        congrArg RPView.dataReceived v
      refine ⟨hrecv, ?_⟩
      have hv : udpFrames w2.out = _ := congrArg RPView.frames v
      rw [hrecv, hv]
      simp only []
      split_ifs
      · right; rfl
      · left; exact List.append_nil _
  · rw [handleUDPRead_otherId d f w h6 hparse hext hto] at h
    cases h
    exact ⟨rfl, Or.inl rfl⟩

theorem rd8_mem (mem : List Nat) (i b : Nat) (h : rd8 mem i = some b) : b ∈ mem := by
  unfold rd8 at h
  exact List.mem_iff_getElem?.mpr ⟨i, h⟩

/-- The four fixed bytes of the header are bytes of the datagram. -/
theorem readRPFrame_bytes (buf : List Nat) (len : Nat) (f : RPFrame)
    (h : readRPFrame buf len = some (some f)) (hbytes : ∀ b ∈ buf, b < 256) :
    f.flags < 256 ∧ f.messageId < 256 ∧ f.sequence < 256 ∧ f.serial < 256 := by
  unfold readRPFrame at h
  simp only [Option.bind_eq_bind, Option.bind_eq_some, Option.pure_def] at h
  obtain ⟨⟨fromId, p1⟩, -, ⟨toId, p2⟩, -, h⟩ := h
  simp only at h
  split at h
  · cases h
  · simp only [Option.bind_eq_some] at h
    obtain ⟨flags, h1, messageId, h2, sequence, h3, serial, h4, h⟩ := h
    cases h
    exact ⟨hbytes _ (rd8_mem _ _ _ h1), hbytes _ (rd8_mem _ _ _ h2),
      hbytes _ (rd8_mem _ _ _ h3), hbytes _ (rd8_mem _ _ _ h4)⟩

theorem ack_flags_byte (flags : Nat) :
    (DPRPFrame_Ack ||| (flags &&& DPRPFrame_Reliable)) % 256
      = DPRPFrame_Ack ||| (flags &&& DPRPFrame_Reliable) := by
  have h1 : flags &&& DPRPFrame_Reliable = flags % 2 := Nat.and_one_is_mod flags
  rw [h1]
  rcases Nat.mod_two_eq_zero_or_one flags with h | h <;> rw [h] <;> decide

/-- The bytes of an ack, field by field. -/
theorem rpAck_eq (tick : Nat) (f : RPFrame) (counter : Nat)
    (hf : f.messageId < 256 ∧ f.sequence < 256 ∧ f.serial < 256) :
    rpAck tick f counter
      = fillRPId f.toId ++ fillRPId f.fromId
          ++ [DPRPFrame_Ack ||| (f.flags &&& DPRPFrame_Reliable), f.messageId, f.sequence,
              f.serial]
          ++ le32 counter ++ le32 (tick % 2 ^ 32) := by
  unfold rpAck fillRPHeader
  rw [ack_flags_byte, ack_flags_byte, Nat.mod_eq_of_lt hf.1, Nat.mod_eq_of_lt hf.2.1, Nat.mod_eq_of_lt hf.2.2]

/-! ## The ack -/

/-- C11: whatever `handleUDPRead` sends for an inbound frame `f` (a datagram
of bytes with a complete header, on which the function has a defined result)
is at most one frame, and that frame consists of the id `f.toId`, the id
`f.fromId`, the flags `Ack | (f.flags & Reliable)`, the message id, sequence
number and serial of `f`, and eight more bytes: the little-endian value of
the byte counter after `f` was counted, and that of the tick count. -/
theorem C11_ack_shape (d : Recv) (f : RPFrame) (w w2 : World) (h6 : 6 ≤ d.len)
    (hmem : d.len.toNat ≤ d.buf.length)
    (hparse : readRPFrame d.buf d.len.toNat = some (some f))
    (hbytes : ∀ b ∈ d.buf, b < 256)
    (h : handleUDPRead d.env d.buf d.len w = some w2) :
    ∃ acks, udpFrames w2.out = udpFrames w.out ++ acks ∧ acks.length ≤ 1
      ∧ ∀ ack ∈ acks,
          ack = fillRPId f.toId ++ fillRPId f.fromId
              ++ [DPRPFrame_Ack ||| (f.flags &&& DPRPFrame_Reliable), f.messageId, f.sequence,
                  f.serial]
              ++ le32 w2.client.dataReceived ++ le32 (d.env.tick % 2 ^ 32)
            ∧ w2.client.dataReceived
              = (w.client.dataReceived + (d.len.toNat - f.idLen)) % 2 ^ 32 := by
  obtain ⟨-, hmid, hseq, hser⟩ := readRPFrame_bytes _ _ _ hparse hbytes
  by_cases hext : f.flags &&& DPRPFrame_Extended = 0
  · obtain ⟨hrecv, hout | hout⟩ := handleUDPRead_counted d f w w2 h6 hmem hparse hext h
    · exact ⟨[], by rw [hout, List.append_nil], by simp, by simp⟩
    · refine ⟨[rpAck d.env.tick f w2.client.dataReceived], hout, by simp, ?_⟩
      intro ack hack
      rw [List.mem_singleton] at hack
      rw [hack]
      exact ⟨rpAck_eq _ _ _ ⟨hmid, hseq, hser⟩, hrecv⟩
  · rw [handleUDPRead_extended d f w h6 hparse hext] at h
    cases h
    exact ⟨[], by simp [World.print], by simp, by simp⟩

/-- C11 at the third frame of scenario E4, received while message 7 is being
assembled: the one frame sent. -/
theorem C11_ack_shape_witness :
    ∃ acks, udpFrames ((handleUDPRead exampleEnv (exampleDatagram 0x0D 7 1 9 [0x33, 0x34]).buf 8
          assemblingWorld).getD assemblingWorld).out
        = udpFrames assemblingWorld.out ++ acks ∧ acks.length ≤ 1
      ∧ ∀ ack ∈ acks,
          ack = fillRPId 0 ++ fillRPId 1
              ++ [DPRPFrame_Ack ||| (0x0D &&& DPRPFrame_Reliable), 7, 1, 9]
              ++ le32 ((handleUDPRead exampleEnv (exampleDatagram 0x0D 7 1 9 [0x33, 0x34]).buf 8
                  assemblingWorld).getD assemblingWorld).client.dataReceived
              ++ le32 (exampleEnv.tick % 2 ^ 32)
            ∧ ((handleUDPRead exampleEnv (exampleDatagram 0x0D 7 1 9 [0x33, 0x34]).buf 8
                assemblingWorld).getD assemblingWorld).client.dataReceived
              = (assemblingWorld.client.dataReceived + ((8 : Int).toNat - 2)) % 2 ^ 32 :=
  C11_ack_shape (exampleDatagram 0x0D 7 1 9 [0x33, 0x34]) (exampleFrame 0x0D 7 1 9)
    assemblingWorld _ (by decide) (by decide) (by decide) (by decide) (by decide)

/-! ## Frames with the `Ack`, `Extended` or `Big` bit -/

/-- C12 as the spec states it fails: an inbound frame with `Ack` and `SendAck`
(flags `0x06`) is answered with an ack of its own. -/
theorem C12_ack_with_sendAck_is_answered :
    0x06 &&& DPRPFrame_Ack ≠ 0
      ∧ (handleUDPRead exampleEnv (flaggedDatagram 0x06).buf 10 exampleWorld).map
          (fun w => (w.out, w.completed, w.client.messageBuffer))
        = some ([Event.udpSend [0, 1, 2, 7, 0, 9, 8, 0, 0, 0, 5, 0, 0, 0]], [], []) := by
  decide

/-- C12, amended: an inbound frame with the `Ack` bit is never delivered or
buffered: the completed messages, the buffer, the expected sequence number and
the assembling id stay as they were.  Nothing is sent for it when it has
neither `End` nor `SendAck`, or has the `Extended` bit, or is not addressed to
id 0; otherwise exactly one frame, the ack, is sent as for a frame without
`Ack`. -/
theorem C12_ack_frames (d : Recv) (f : RPFrame) (w w2 : World) (h6 : 6 ≤ d.len)
    (hmem : d.len.toNat ≤ d.buf.length)
    (hparse : readRPFrame d.buf d.len.toNat = some (some f))
    (hack : f.flags &&& DPRPFrame_Ack ≠ 0)
    (h : handleUDPRead d.env d.buf d.len w = some w2) :
    (w2.completed = w.completed ∧ w2.client.messageBuffer = w.client.messageBuffer
        ∧ w2.client.nextMessageSequence = w.client.nextMessageSequence
        ∧ w2.client.currentMessageId = w.client.currentMessageId)
      ∧ ((f.flags &&& DPRPFrame_End = 0 ∧ f.flags &&& DPRPFrame_SendAck = 0)
          ∨ f.flags &&& DPRPFrame_Extended ≠ 0 ∨ f.toId ≠ 0 → w2.out = w.out)
      ∧ (f.flags &&& DPRPFrame_End ≠ 0 ∨ f.flags &&& DPRPFrame_SendAck ≠ 0 →
          f.flags &&& DPRPFrame_Extended = 0 → f.toId = 0 →
          udpFrames w2.out
            = udpFrames w.out ++ [rpAck d.env.tick f w2.client.dataReceived]) := by
  by_cases hext : f.flags &&& DPRPFrame_Extended = 0
  · by_cases hto : f.toId = 0
    · have hd : d.Carries f := ⟨h6, hmem, hparse, hext, hto⟩
      rw [handleUDPRead_ack d f w hd hack] at h
      have v := rpView_sendRPAck _ _ _ _ h
      refine ⟨⟨congrArg RPView.completed v, congrArg RPView.messageBuffer v,
        congrArg RPView.nextMessageSequence v, congrArg RPView.currentMessageId v⟩, ?_, ?_⟩
      · intro hc
        rcases hc with hc | hc | hc
        · have hnone : ¬ f.flags &&& (DPRPFrame_End ||| DPRPFrame_SendAck) ≠ 0 := by
            rw [ack_requested_iff]
            intro hor
            rcases hor with h1 | h1
            · exact h1 hc.1
            · exact h1 hc.2
          unfold sendRPAck at h
          rw [if_neg hnone] at h
          cases h
          rfl
        · exact absurd hext hc
        · exact absurd hto hc
      · intro hreq _ _
        have hv : udpFrames w2.out = _ := congrArg RPView.frames v
        have hrecv : w2.client.dataReceived = _ := congrArg RPView.dataReceived v
        rw [hv, hrecv, if_pos ((ack_requested_iff f.flags).mpr hreq)]
        rfl
    · rw [handleUDPRead_otherId d f w h6 hparse hext hto] at h
      cases h
      exact ⟨⟨rfl, rfl, rfl, rfl⟩, fun _ => rfl, fun _ _ h0 => absurd h0 hto⟩
  · rw [handleUDPRead_extended d f w h6 hparse hext] at h
    cases h
    exact ⟨⟨rfl, rfl, rfl, rfl⟩, fun _ => rfl, fun _ h0 _ => absurd h0 hext⟩

/-- C12 (amended) at a frame with `Ack` and `Reliable` only (flags `0x03`). -/
theorem C12_ack_frames_witness :
    ((handleUDPRead exampleEnv (flaggedDatagram 0x03).buf 10 assemblingWorld).getD
        assemblingWorld).out = assemblingWorld.out :=
  (C12_ack_frames (flaggedDatagram 0x03) (exampleFrame 0x03 7 0 9) assemblingWorld _
    (by decide) (by decide) (by decide) (by decide) (by decide)).2.1
    (Or.inl (by decide))

/-- C13, evaluated: a frame with the `Big` bit is not dropped.  With
`Big|Start|End|SendAck` (flags `0x5C`) its payload is delivered and an ack is
sent; with `Big|Start` (flags `0x50`) its payload is buffered and the assembly
state changes.  Only the `Extended` bit is tested (`handleUDPRead_extended`). -/
theorem C13_big_frame_is_processed :
    0x5C &&& DPRPFrame_Big ≠ 0 ∧ 0x50 &&& DPRPFrame_Big ≠ 0
      ∧ (handleUDPRead exampleEnv (flaggedDatagram 0x5C).buf 10 exampleWorld).map
          (fun w => (w.completed, udpFrames w.out))
        = some ([[0x61, 0x62, 0x63, 0x64]], [[0, 1, 2, 7, 0, 9, 8, 0, 0, 0, 5, 0, 0, 0]])
      ∧ (handleUDPRead exampleEnv (flaggedDatagram 0x50).buf 10 exampleWorld).map
          (fun w => (w.client.messageBuffer, w.client.currentMessageId,
            w.client.nextMessageSequence))
        = some ([0x61, 0x62, 0x63, 0x64], 7, 1)
      ∧ handleUDPRead exampleEnv (flaggedDatagram 0xDC).buf 10 exampleWorld
        = some (exampleWorld.print Diag.extFlags) := by
  decide

/-! ## The version of a message delivered by the reliable protocol -/

/-- C15, evaluated: a message that begins with `"play"` and names version 13
is rejected as a top-level message and as the content of a `Packet` command,
but delivered by the reliable protocol (one frame with `Start|End`) it is
dispatched: `handleCompletedRPMessage` never looks at the version, the
`RequestPlayerId` handler runs and a system player is created for the
client. -/
theorem C15_version_unchecked_after_reassembly :
    (handleDPlayPacket exampleEnv
          (exampleHeader 32 playSignature DPSPCommand.RequestPlayerId 13
            ++ le32 RequestPlayerId_System) 32 freshWorld).map
        (fun r => (r.ret, r.world.session.players.length, r.world.log))
      = some (false, 2, [])
      ∧ (handleDPlayCommand exampleEnv version13Packet DPSPCommand.Packet 0
            version13Packet.length freshWorld).map
          (fun r => (r.1, r.2.session.players.length, r.2.log))
        = some (true, 2, [Diag.badNestedPacket])
      ∧ (handleUDPRead exampleEnv ([1, 0, 0x18, 7, 0, 9] ++ version13Message)
            (6 + version13Message.length : Nat) freshWorld).map
          (fun w => (w.session.players.length, w.client.systemPlayerId,
            w.log, w.out.length))
        = some (3, 0x10002, [Diag.reqPlayerId true, Diag.openOutgoing], 2) := by
  decide

/-! ## The byte counter -/

theorem handleUDPReads_append (xs ys : List Recv) (w : World) :
    handleUDPReads (xs ++ ys) w = (handleUDPReads xs w).bind (handleUDPReads ys) := by
  induction xs generalizing w with
  | nil => rfl
  | cons d l ih =>
    simp only [List.cons_append, handleUDPReads]
    cases handleUDPRead d.env d.buf d.len w with
    | none => rfl
    | some w1 => exact ih w1

theorem dataReceived_run (ds : List (Recv × RPFrame)) :
    ∀ (w w2 : World),
      (∀ x ∈ ds, 6 ≤ x.1.len ∧ x.1.len.toNat ≤ x.1.buf.length
        ∧ readRPFrame x.1.buf x.1.len.toNat = some (some x.2)
        ∧ x.2.flags &&& DPRPFrame_Extended = 0) →
      w.client.dataReceived < 2 ^ 32 →
      handleUDPReads (ds.map Prod.fst) w = some w2 →
      w2.client.dataReceived
        = (w.client.dataReceived + (ds.map (fun x => x.1.len.toNat - x.2.idLen)).sum)
            % 2 ^ 32 := by
  induction ds with
  | nil =>
    intro w w2 _ hinit h
    have hw : w = w2 := by simpa [handleUDPReads] using h
    rw [← hw]
    simp only [List.map_nil, List.sum_nil, Nat.add_zero]
    exact (Nat.mod_eq_of_lt hinit).symm
  | cons a l ih =>
    intro w w2 hall hinit h
    rw [List.map_cons, handleUDPReads_cons] at h
    obtain ⟨w1, hstep, hrest⟩ := h
    obtain ⟨h6, hmem, hparse, hext⟩ := hall a (List.mem_cons_self _ _)
    have hrecv := (handleUDPRead_counted a.1 a.2 w w1 h6 hmem hparse hext hstep).1
    have h1 := ih w1 w2 (fun x hx => hall x (List.mem_cons_of_mem _ hx))
      (by rw [hrecv]; exact Nat.mod_lt _ (by norm_num)) hrest
    rw [h1, hrecv, List.map_cons, List.sum_cons]
    omega

theorem rpAck_counter (tick : Nat) (f : RPFrame) (counter : Nat) :
    ((rpAck tick f counter).drop ((rpAck tick f counter).length - 8)).take 4
      = le32 counter := by
  unfold rpAck
  have hlen : (fillRPHeader f.toId f.fromId
      ((DPRPFrame_Ack ||| (f.flags &&& DPRPFrame_Reliable)) % 256) f.messageId f.sequence
      f.serial ++ le32 counter ++ le32 (tick % 2 ^ 32)).length - 8
      = (fillRPHeader f.toId f.fromId
        ((DPRPFrame_Ack ||| (f.flags &&& DPRPFrame_Reliable)) % 256) f.messageId f.sequence
        f.serial).length := by
    simp [le32]
  rw [hlen, List.append_assoc, List.drop_left]
  rfl

/-- C14: after any sequence of datagrams with a complete header and without
the `Extended` bit (whatever their other flags and ids), the counter
`dataReceived` is its initial value, 0 for a new client, plus the sum of the
datagram lengths less the lengths of their ids, modulo `2 ^ 32`; and an ack
sent for the last of them carries that value in the first four of its last
eight bytes. -/
theorem C14_bytes_received (ds : List (Recv × RPFrame)) (w w2 : World)
    (hall : ∀ x ∈ ds, 6 ≤ x.1.len ∧ x.1.len.toNat ≤ x.1.buf.length
      ∧ readRPFrame x.1.buf x.1.len.toNat = some (some x.2)
      ∧ x.2.flags &&& DPRPFrame_Extended = 0)
    (hinit : w.client.dataReceived < 2 ^ 32)
    (h : handleUDPReads (ds.map Prod.fst) w = some w2) :
    w2.client.dataReceived
        = (w.client.dataReceived + (ds.map (fun x => x.1.len.toNat - x.2.idLen)).sum)
            % 2 ^ 32
      ∧ ∀ pre last w1 ack, ds = pre ++ [last] →
          handleUDPReads (pre.map Prod.fst) w = some w1 →
          udpFrames w2.out = udpFrames w1.out ++ [ack] →
          (ack.drop (ack.length - 8)).take 4 = le32 w2.client.dataReceived := by
  refine ⟨dataReceived_run ds w w2 hall hinit h, ?_⟩
  intro pre last w1 ack hds hpre hout
  subst hds
  rw [List.map_append, handleUDPReads_append, hpre] at h
  have hstep : handleUDPRead last.1.env last.1.buf last.1.len w1 = some w2 := by
    simpa [handleUDPReads, Option.bind_eq_some] using h
  obtain ⟨h6, hmem, hparse, hext⟩ := hall last (by simp)
  obtain ⟨-, hsent | hsent⟩ := handleUDPRead_counted last.1 last.2 w1 w2 h6 hmem hparse hext hstep
  · rw [hsent] at hout
    have hlen := congrArg List.length hout
    simp at hlen
  · rw [hsent] at hout
    have hack := List.append_cancel_left hout
    rw [← List.singleton_inj.mp hack]
    exact rpAck_counter _ _ _

/-- C14 at the three frames of scenario E4, received by a new client:
13 + 5 + 6 bytes are counted. -/
theorem C14_bytes_received_witness :
    e4World.client.dataReceived
        = (exampleWorld.client.dataReceived
            + (e4Frames.map (fun x => x.1.len.toNat - x.2.idLen)).sum) % 2 ^ 32
      ∧ ∀ pre last w1 ack, e4Frames = pre ++ [last] →
          handleUDPReads (pre.map Prod.fst) exampleWorld = some w1 →
          udpFrames e4World.out = udpFrames w1.out ++ [ack] →
          (ack.drop (ack.length - 8)).take 4 = le32 e4World.client.dataReceived :=
  C14_bytes_received e4Frames exampleWorld e4World (by decide) (by decide) (by decide)

/-! ## The obfuscation of ids -/

/-- C22: `adjustId` is an involution: applying it twice gives the id back, for
every session (every mask `idXor`) and every id. -/
theorem C22_adjustId_involution (s : Session) (id : Nat) :
    s.adjustId (s.adjustId id) = id := by
  unfold Session.adjustId
  rw [Nat.xor_assoc, Nat.xor_self, Nat.xor_zero]

/-! ## `EnumSessions` -/

theorem rd32_isSome (mem : List Nat) (i : Nat) (hi : i + 4 ≤ mem.length) :
    ∃ v, rd32 mem i = some v := by
  obtain ⟨b0, h0⟩ := rd8_isSome mem i (by omega)
  obtain ⟨b1, h1⟩ := rd8_isSome mem (i + 1) (by omega)
  obtain ⟨b2, h2⟩ := rd8_isSome mem (i + 2) (by omega)
  obtain ⟨b3, h3⟩ := rd8_isSome mem (i + 3) (by omega)
  exact ⟨_, by unfold rd32; rw [h0, h1, h2, h3]; rfl⟩

theorem handleDPlayCommand_enumSessions (env : Env) (mem : List Nat) (data len : Nat)
    (w : World) :
    handleDPlayCommand env mem DPSPCommand.EnumSessions data len w
      = handleEnumSessions env mem data w := by
  simp [handleDPlayCommand, handleDPlayCommandFuel]

/-- C23: an `EnumSessions` command whose 16 bytes of `applicationGUID` are not
the session's application GUID is handled (the result is defined and `true`)
without anything being sent, without a connection being opened (the client,
its sockets included, is unchanged and the console shows no `Open outgoing`),
and with the session unchanged. -/
theorem C23_application_mismatch (env : Env) (mem : List Nat) (data len : Nat) (w : World)
    (hlen : data + 24 ≤ mem.length)
    (hne : (mem.drop data).take 16 ≠ w.session.getAppGUID.take 16) :
    ∃ w2, handleDPlayCommand env mem DPSPCommand.EnumSessions data len w = some (true, w2)
      ∧ w2.out = w.out ∧ w2.session = w.session ∧ w2.client = w.client
      ∧ Diag.openOutgoing ∉ w2.log.drop w.log.length := by
  rw [handleDPlayCommand_enumSessions]
  unfold handleEnumSessions
  obtain ⟨po, hpo⟩ := rd32_isSome mem (data + 16) (by omega)
  obtain ⟨fl, hfl⟩ := rd32_isSome mem (data + 20) (by omega)
  have hg : rdBytes mem data 16 = some ((mem.drop data).take 16) :=
    rdBytes_eq mem data 16 (by omega)
  simp only [Option.bind_eq_bind, hpo, hfl, Option.some_bind, Option.pure_def, World.print, hg,
    hne, ne_eq, not_false_eq_true, if_true]
  refine ⟨_, rfl, rfl, rfl, rfl, ?_⟩
  simp

/-- C23 at a request that names the application GUID `08 .. 08`, received by a
client without connection on the example session (application GUID
`07 .. 07`). -/
theorem C23_application_mismatch_witness :
    ∃ w2, handleDPlayCommand exampleEnv (List.replicate 16 8 ++ le32 0 ++ le32 1)
        DPSPCommand.EnumSessions 0 24 freshWorld = some (true, w2)
      ∧ w2.out = freshWorld.out ∧ w2.session = freshWorld.session
      ∧ w2.client = freshWorld.client
      ∧ Diag.openOutgoing ∉ w2.log.drop freshWorld.log.length :=
  C23_application_mismatch exampleEnv (List.replicate 16 8 ++ le32 0 ++ le32 1) 0 24 freshWorld
    (by decide) (by decide)

/-! ## A second request for a system player -/

/-- C26: a `RequestPlayerId` command with the `System` flag from a client that
already owns a system player (`systemPlayerId` is not `~0u`) is handled (the
result is defined and `true`) with one line on the console and nothing else:
the session (so also its players) and the client (so also its
`systemPlayerId`) are unchanged and nothing is sent. -/
theorem C26_duplicate_system_player (env : Env) (mem : List Nat) (data len flags : Nat)
    (w : World) (hflags : rd32 mem data = some flags)
    (hsys : flags &&& RequestPlayerId_System ≠ 0)
    (hown : w.client.systemPlayerId ≠ 0xFFFFFFFF) :
    ∃ w2, handleDPlayCommand env mem DPSPCommand.RequestPlayerId data len w = some (true, w2)
      ∧ w2.session = w.session ∧ w2.client = w.client ∧ w2.out = w.out
      ∧ w2.log = w.log ++ [Diag.duplicateSystemPlayer] := by
  rw [handleDPlayCommand_requestPlayerId]
  unfold handleRequestPlayerId
  simp only [Option.bind_eq_bind, hflags, Option.some_bind, Option.pure_def]
  simp only [hsys, hown, ne_eq, not_false_eq_true, decide_True, and_self, if_true]
  exact ⟨_, rfl, rfl, rfl, rfl, rfl⟩

/-- C26 at the client that owns system player `0x10000` of the example
session. -/
theorem C26_duplicate_system_player_witness :
    ∃ w2, handleDPlayCommand exampleEnv (le32 1) DPSPCommand.RequestPlayerId 0 4 exampleWorld
        = some (true, w2)
      ∧ w2.session = exampleWorld.session ∧ w2.client = exampleWorld.client
      ∧ w2.out = exampleWorld.out
      ∧ w2.log = exampleWorld.log ++ [Diag.duplicateSystemPlayer] :=
  C26_duplicate_system_player exampleEnv (le32 1) 0 4 1 exampleWorld (by decide) (by decide)
    (by decide)

/-! ## The header of a reply read back by `handleDPlayPacket` -/

theorem sizeToken_eq (s : Nat) (hs : s < 2 ^ 20) :
    (s ||| (0xFAB <<< 20)) % 2 ^ 32 = 0xFAB * 2 ^ 20 + s := by
  have h : 2 ^ 20 * 0xFAB + s = 2 ^ 20 * 0xFAB ||| s := Nat.mul_add_lt_is_or hs _
  rw [Nat.lor_comm, show (0xFAB <<< 20 : Nat) = 2 ^ 20 * 0xFAB from by decide, ← h]
  omega

theorem rd32_le32_append (v : Nat) (hv : v < 2 ^ 32) (rest : List Nat) :
    rd32 (le32 v ++ rest) 0 = some v := by
  simp only [rd32, rd8, le32, List.cons_append, List.nil_append, List.getElem?_cons_zero,
    List.getElem?_cons_succ, Option.bind_eq_bind, Option.some_bind, Option.pure_def,
    Option.some.injEq]
  omega

theorem fillOutgoingHeader_length (c : Client) (s command : Nat) :
    (fillOutgoingHeader c s command).length = 28 := by
  simp [fillOutgoingHeader, le32, le16, htonsBytes, playSignature]

/-- C25: for a size `s` with `28 ≤ s < 2 ^ 20` and a 16-bit command, the header
`fillOutgoingHeader` writes holds a `sizeToken` whose low 20 bits are `s` and
whose upper 12 bits are `0xFAB`, the signature `"play"`, the command and the
version 14; and `handleDPlayPacket` on a buffer of `s` bytes that starts with
this header passes the length, signature and version checks: it is the
dispatch of the command on the `s - 28` bytes of body, with `s` left in
`len`. -/
theorem C25_reply_header_round_trip (env : Env) (c : Client) (s command : Nat)
    (body : List Nat) (w : World) (h28 : 28 ≤ s) (hs : s < 2 ^ 20) (hcmd : command < 65536)
    (hbody : body.length = s - 28) :
    (∃ sizeToken, rd32 (fillOutgoingHeader c s command) 0 = some sizeToken
        ∧ sizeToken &&& 0xFFFFF = s ∧ sizeToken >>> 20 = 0xFAB)
      ∧ rdBytes (fillOutgoingHeader c s command) 20 4 = some playSignature
      ∧ rd16 (fillOutgoingHeader c s command) 24 = some command
      ∧ rd16 (fillOutgoingHeader c s command) 26 = some 14
      ∧ (fillOutgoingHeader c s command ++ body).length = s
      ∧ handleDPlayPacket env (fillOutgoingHeader c s command ++ body) s w
          = (handleDPlayCommand env (fillOutgoingHeader c s command ++ body) command 28 (s - 28)
              w).map (fun r => { ret := r.1, len := s, world := r.2 }) := by
  have ht := sizeToken_eq s hs
  have hand : (0xFAB * 2 ^ 20 + s) &&& 0xFFFFF = s := by
    rw [show (0xFFFFF : Nat) = 2 ^ 20 - 1 from by decide, Nat.and_pow_two_sub_one_eq_mod]
    omega
  have hshr : (0xFAB * 2 ^ 20 + s) >>> 20 = 0xFAB := by
    rw [Nat.shiftRight_eq_div_pow]
    omega
  have hrd : ∀ rest, rd32 (fillOutgoingHeader c s command ++ rest) 0
      = some (0xFAB * 2 ^ 20 + s) := by
    intro rest
    unfold fillOutgoingHeader
    rw [ht]
    simp only [List.append_assoc]
    exact rd32_le32_append _ (by omega) _
  have hsig : ∀ rest, rdBytes (fillOutgoingHeader c s command ++ rest) 20 4
      = some playSignature := by
    intro rest
    rw [rdBytes_eq _ _ _ (by rw [List.length_append, fillOutgoingHeader_length]; omega)]
    simp [fillOutgoingHeader, le32, le16, htonsBytes, playSignature]
  have hcm : ∀ rest, rd16 (fillOutgoingHeader c s command ++ rest) 24 = some command := by
    intro rest
    simp only [fillOutgoingHeader, le32, le16, htonsBytes, playSignature, rd16, rd8,
      List.replicate, List.cons_append, List.nil_append, List.getElem?_cons_zero,
      List.getElem?_cons_succ, Option.bind_eq_bind, Option.some_bind, Option.pure_def,
      Option.some.injEq]
    omega
  have hver : ∀ rest, rd16 (fillOutgoingHeader c s command ++ rest) 26 = some 14 := by
    intro rest
    simp [fillOutgoingHeader, le32, le16, htonsBytes, playSignature, rd16, rd8]
  refine ⟨⟨_, by simpa using hrd [], hand, hshr⟩, by simpa using hsig [],
    by simpa using hcm [], by simpa using hver [], ?_, ?_⟩
  · rw [List.length_append, fillOutgoingHeader_length]; omega
  · unfold handleDPlayPacket
    rw [if_neg (by omega)]
    simp only [Option.bind_eq_bind, hrd, Option.some_bind, hand, lt_irrefl, if_false, hsig,
      ne_eq, not_true_eq_false, hver, hcm, Option.pure_def]
    rw [show (s + 2 ^ 64 - 28) % 2 ^ 64 = s - 28 from by omega]
    cases handleDPlayCommand env (fillOutgoingHeader c s command ++ body) command 28 (s - 28) w
      <;> rfl

/-- C25 at the header of a 32-byte `RequestPlayerId` message. -/
theorem C25_reply_header_round_trip_witness :
    (∃ sizeToken, rd32 (fillOutgoingHeader exampleClient 32 DPSPCommand.RequestPlayerId) 0
          = some sizeToken
        ∧ sizeToken &&& 0xFFFFF = 32 ∧ sizeToken >>> 20 = 0xFAB)
      ∧ rdBytes (fillOutgoingHeader exampleClient 32 DPSPCommand.RequestPlayerId) 20 4
          = some playSignature
      ∧ rd16 (fillOutgoingHeader exampleClient 32 DPSPCommand.RequestPlayerId) 24
          = some DPSPCommand.RequestPlayerId
      ∧ rd16 (fillOutgoingHeader exampleClient 32 DPSPCommand.RequestPlayerId) 26 = some 14
      ∧ (fillOutgoingHeader exampleClient 32 DPSPCommand.RequestPlayerId ++ le32 0).length = 32
      ∧ handleDPlayPacket exampleEnv
            (fillOutgoingHeader exampleClient 32 DPSPCommand.RequestPlayerId ++ le32 0) 32
            exampleWorld
          = (handleDPlayCommand exampleEnv
              (fillOutgoingHeader exampleClient 32 DPSPCommand.RequestPlayerId ++ le32 0)
              DPSPCommand.RequestPlayerId 28 (32 - 28) exampleWorld).map
              (fun r => { ret := r.1, len := 32, world := r.2 }) :=
  C25_reply_header_round_trip exampleEnv exampleClient 32 DPSPCommand.RequestPlayerId (le32 0)
    exampleWorld (by decide) (by decide) (by decide) (by decide)

/-! ## The id `allocPlayerId` composes -/

/-- The ids the loop of `allocPlayerId` passes over are all in use. -/
theorem allocPlayerIdLoop_trace (players : List (Nat × Player)) (fuel : Nat) :
    ∀ (a id : Nat), a < 2 ^ 32 → allocPlayerIdLoop players fuel a = some id →
      ∃ k, k < fuel ∧ id = (a + k) % 2 ^ 32
        ∧ ∀ i, i < k → (mapFind players ((a + i) % 2 ^ 32)).isSome = true := by
  induction fuel with
  | zero => intro a id _ h; simp [allocPlayerIdLoop] at h
  | succ n ih =>
    intro a id ha h
    unfold allocPlayerIdLoop at h
    by_cases hfound : (mapFind players a).isSome
    · rw [if_pos hfound] at h
      obtain ⟨k, hk, hid, hall⟩ := ih _ _ (Nat.mod_lt _ (by norm_num)) h
      refine ⟨k + 1, by omega, ?_, ?_⟩
      · rw [hid]; omega
      · intro i hi
        rcases Nat.eq_zero_or_pos i with h0 | hpos
        · rw [h0, Nat.add_zero, Nat.mod_eq_of_lt ha]; exact hfound
        · have := hall (i - 1) (by omega)
          rw [show ((a + 1) % 2 ^ 32 + (i - 1)) % 2 ^ 32 = (a + i) % 2 ^ 32 from by omega] at this
          exact this
    · rw [if_neg hfound] at h
      cases h
      exact ⟨0, by omega, by rw [Nat.add_zero, Nat.mod_eq_of_lt ha],
        fun i hi => absurd hi (by omega)⟩

theorem le_lor_left (a b : Nat) : a ≤ a ||| b := by
  have h : (a ||| b) &&& a = a := by
    apply Nat.eq_of_testBit_eq
    intro i
    simp only [Nat.testBit_and, Nat.testBit_or]
    cases a.testBit i <;> cases b.testBit i <;> rfl
  calc a = (a ||| b) &&& a := h.symm
    _ ≤ a ||| b := Nat.and_le_left

/-- C21: in a session with `n` players and the uniqueness counter 1 (the value
the counter always has), `allocPlayerId` returns the smallest 32-bit value
that is at least `n | 1 << 16` and is the id of no player, provided there is
such a value (`j` is one): the result is at least `n | 1 << 16`, below
`2 ^ 32`, not in use, and every value from `n | 1 << 16` up to it is in use.
The function only asks the map for its size and for ids, so its embedding
returns the id and nothing else. -/
theorem C21_identifier_composition (s : Session) (j : Nat) (hU : s.idUnique = 1)
    (hj : (s.players.length ||| 1 <<< 16) ≤ j) (hj32 : j < 2 ^ 32)
    (hfree : s.getPlayer j = none) :
    ∃ id, s.allocPlayerId = some id
      ∧ (s.players.length ||| 1 <<< 16) ≤ id ∧ id < 2 ^ 32 ∧ s.getPlayer id = none
      ∧ ∀ k, (s.players.length ||| 1 <<< 16) ≤ k → k < id → (s.getPlayer k).isSome = true := by
  have hn : s.players.length < 2 ^ 32 :=
    lt_of_le_of_lt (le_lor_left _ _) (lt_of_le_of_lt hj hj32)
  obtain ⟨id, hid⟩ := allocPlayerId_isSome s hn
  have hfr := allocPlayerId_free s id hid
  have hstart : (s.players.length ||| ((s.idUnique <<< 16) % 2 ^ 32)) % 2 ^ 32
      = (s.players.length ||| 1 <<< 16) := by
    rw [hU, show ((1 <<< 16) % 2 ^ 32 : Nat) = 1 <<< 16 from by decide]
    exact Nat.mod_eq_of_lt (lt_of_le_of_lt hj hj32)
  have hid0 := hid
  unfold Session.allocPlayerId at hid
  rw [hstart] at hid
  unfold Session.getPlayer at hfree ⊢
  generalize (s.players.length ||| 1 <<< 16) = st at *
  obtain ⟨k, -, hk, hall⟩ := allocPlayerIdLoop_trace _ _ _ _ (lt_of_le_of_lt hj hj32) hid
  have hkj : st + k ≤ j := by
    by_contra hlt
    have := hall (j - st) (by omega)
    rw [show (st + (j - st)) % 2 ^ 32 = j from by omega, hfree] at this
    exact absurd this (by simp)
  refine ⟨id, hid0, by omega, by omega, hfr, ?_⟩
  intro k2 h1 h2
  have := hall (k2 - st) (by omega)
  rw [show (st + (k2 - st)) % 2 ^ 32 = k2 from by omega] at this
  exact this

/-- C21 at the example session (two players, ids `0x10000` and `0x10001`);
`0x10005` is one of the free ids. -/
theorem C21_identifier_composition_witness :
    ∃ id, exampleSession.allocPlayerId = some id
      ∧ (exampleSession.players.length ||| 1 <<< 16) ≤ id ∧ id < 2 ^ 32
      ∧ exampleSession.getPlayer id = none
      ∧ ∀ k, (exampleSession.players.length ||| 1 <<< 16) ≤ k → k < id →
          (exampleSession.getPlayer k).isSome = true :=
  C21_identifier_composition exampleSession 0x10005 (by decide) (by decide) (by decide)
    (by decide)

/-- A free id at or above the first candidate exists whenever the session holds
fewer than `2 ^ 31` players. -/
theorem free_id_above (s : Session) (hU : s.idUnique = 1) (hn : s.players.length < 2 ^ 31) :
    ∃ j, (s.players.length ||| 1 <<< 16) ≤ j ∧ j < 2 ^ 32 ∧ s.getPlayer j = none := by
  have hlt : (s.players.length ||| 1 <<< 16) < 2 ^ 31 := Nat.or_lt_two_pow hn (by decide)
  obtain ⟨id, hid⟩ := allocPlayerId_isSome s (by omega)
  have hfr := allocPlayerId_free s id hid
  unfold Session.allocPlayerId at hid
  rw [hU, show ((1 <<< 16) % 2 ^ 32 : Nat) = 1 <<< 16 from by decide,
    Nat.mod_eq_of_lt (by omega)] at hid
  generalize (s.players.length ||| 1 <<< 16) = st at *
  obtain ⟨k, hk1, hk, -⟩ := allocPlayerIdLoop_trace _ _ _ _ (by omega) hid
  exact ⟨id, by omega, by omega, hfr⟩

/-! ## The reply to `RequestPlayerId` -/

/-- With an open connection, or one the system lets it open, `checkOutgoingSocket`
succeeds; it touches neither the session nor what was sent. -/
theorem checkOutgoingSocket_ok (env : Env) (w : World)
    (h : w.client.tcpOutgoingOpen = true ∨ env.tcpConnectOk = true) :
    ∃ w2, checkOutgoingSocket env w = (true, w2) ∧ w2.session = w.session ∧ w2.out = w.out
      ∧ w2.client = { w.client with tcpOutgoingOpen := true } := by
  unfold checkOutgoingSocket
  by_cases ho : w.client.tcpOutgoingOpen = true
  · rw [if_pos ho]
    refine ⟨w, rfl, rfl, rfl, ?_⟩
    rw [← ho]
  · have hc : env.tcpConnectOk = true := h.resolve_left ho
    rw [if_neg ho]
    simp only [hc, if_true]
    exact ⟨_, rfl, rfl, rfl, rfl⟩

theorem sendReply_out (env : Env) (w : World) (b : List Nat) (d : Diag) :
    (sendReply env w b d).out = w.out ++ [Event.tcpSend b] := by
  unfold sendReply
  split <;> rfl

theorem checkOutgoingSocket_fst (env : Env) (w : World)
    (h : w.client.tcpOutgoingOpen = true ∨ env.tcpConnectOk = true) :
    (checkOutgoingSocket env w).1 = true := by
  obtain ⟨w2, hc, -⟩ := checkOutgoingSocket_ok env w h
  rw [hc]

theorem checkOutgoingSocket_out (env : Env) (w : World) :
    (checkOutgoingSocket env w).2.out = w.out := by
  unfold checkOutgoingSocket
  split
  · rfl
  · split <;> rfl

/-- The layout of the bytes `case RequestPlayerId` builds. -/
theorem requestPlayerReply_layout (c : Client) (s : Session) (p : Player) :
    (requestPlayerReply c s p).length = 28 + 40
      ∧ (requestPlayerReply c s p).take 28
          = fillOutgoingHeader c (28 + 40) DPSPCommand.RequestPlayerReply
      ∧ ((requestPlayerReply c s p).drop 28).take 4 = le32 (s.adjustId p.getId)
      ∧ (requestPlayerReply c s p).drop 32 = List.replicate 36 0 := by
  unfold requestPlayerReply
  have hl := fillOutgoingHeader_length c (28 + 40) DPSPCommand.RequestPlayerReply
  refine ⟨?_, ?_, ?_, ?_⟩
  · simp [hl, le32]
  · rw [List.append_assoc, List.take_left' hl]
  · rw [List.append_assoc, List.drop_left' hl, List.take_left' (by simp [le32])]
  · rw [show (32 : Nat) = 28 + 4 from rfl, ← List.drop_drop, List.append_assoc,
      List.drop_left' hl, List.drop_left' (by simp [le32])]

/-- A `RequestPlayerId` command that is not refused has a defined result whenever the
session holds fewer than `2 ^ 32` players. -/
theorem handleRequestPlayerId_defined (env : Env) (mem : List Nat) (data flags : Nat)
    (w : World) (hflags : rd32 mem data = some flags)
    (hn : w.session.players.length < 2 ^ 32) :
    ∃ w2, handleRequestPlayerId env mem data w = some (true, w2) := by
  obtain ⟨newId, hid⟩ := allocPlayerId_isSome w.session hn
  unfold handleRequestPlayerId
  simp only [Option.bind_eq_bind, hflags, Option.some_bind, Option.pure_def]
  split
  · exact ⟨_, rfl⟩
  · have h1 : (w.print (Diag.reqPlayerId true)).session.allocPlayerId = some newId := hid
    have h2 : (w.print (Diag.reqPlayerId false)).session.allocPlayerId = some newId := hid
    by_cases hsys : flags &&& RequestPlayerId_System ≠ 0
    · simp only [hsys, ne_eq, not_false_eq_true, decide_True, if_true,
        Session.createNewSystemPlayer, h1, Option.bind_eq_bind, Option.some_bind, Option.pure_def]
      split <;> exact ⟨_, rfl⟩
    · have hsys0 : flags &&& RequestPlayerId_System = 0 := by
        by_contra hne
        exact hsys hne
      simp only [hsys0, ne_eq, not_true_eq_false, decide_False, Bool.false_eq_true, if_false,
        Session.createNewPlayer, h2, Option.bind_eq_bind, Option.some_bind, Option.pure_def]
      split <;> exact ⟨_, rfl⟩

/-- What `case RequestPlayerId` sends when it creates a player and the connection to
the client is there. -/
theorem handleRequestPlayerId_out (env : Env) (mem : List Nat) (data flags : Nat)
    (w : World) (r : Bool × World) (hflags : rd32 mem data = some flags)
    (hacc : ¬ (flags &&& RequestPlayerId_System ≠ 0 ∧ w.client.systemPlayerId ≠ 0xFFFFFFFF))
    (hsock : w.client.tcpOutgoingOpen = true ∨ env.tcpConnectOk = true)
    (h : handleRequestPlayerId env mem data w = some r) :
    ∃ p, w.session.getPlayer p.getId = none ∧ r.2.session.getPlayer p.getId = some p
      ∧ r.2.out = w.out ++ [Event.tcpSend (requestPlayerReply r.2.client r.2.session p)] := by
  unfold handleRequestPlayerId at h
  simp only [Option.bind_eq_bind, hflags, Option.some_bind, Option.pure_def] at h
  have hdec : ¬ ((decide (flags &&& RequestPlayerId_System ≠ 0) = true)
      ∧ w.client.systemPlayerId ≠ 0xFFFFFFFF) := by
    simpa using hacc
  rw [if_neg hdec] at h
  by_cases hsys : flags &&& RequestPlayerId_System ≠ 0
  · simp only [hsys, ne_eq, not_false_eq_true, decide_True, if_true, Option.bind_eq_some] at h
    obtain ⟨created, hc, h⟩ := h
    obtain ⟨newId, -, hfree, hp, hs2⟩ := createNewSystemPlayer_eq _ _ _ _ hc
    rw [if_pos (checkOutgoingSocket_fst env _ ?_)] at h
    swap
    · exact hsock
    cases h
    have hid : created.2.getId = newId := by rw [hp]; rfl
    refine ⟨created.2, ?_, ?_, ?_⟩
    · rw [hid]; exact hfree
    · rw [(sendReply_session _ _ _ _).1, (checkOutgoingSocket_session _ _).1]
      show mapFind created.1.players _ = _
      rw [hs2, hid]
      exact mapFind_mapEmplace _ _ _ hfree
    · rw [sendReply_out, checkOutgoingSocket_out, (sendReply_session _ _ _ _).1,
        (sendReply_session _ _ _ _).2]
      rfl
  · have hsys0 : flags &&& RequestPlayerId_System = 0 := by
      by_contra hne
      exact hsys hne
    simp only [hsys0, ne_eq, not_true_eq_false, decide_False, Bool.false_eq_true, if_false,
      Option.bind_eq_some] at h
    obtain ⟨created, hc, h⟩ := h
    obtain ⟨newId, -, hfree, hp, hs2⟩ := createNewPlayer_eq _ _ _ _ _ hc
    rw [if_pos (checkOutgoingSocket_fst env _ ?_)] at h
    swap
    · exact hsock
    cases h
    have hid : created.2.getId = newId := by rw [hp]; rfl
    refine ⟨created.2, ?_, ?_, ?_⟩
    · rw [hid]; exact hfree
    · rw [(sendReply_session _ _ _ _).1, (checkOutgoingSocket_session _ _).1]
      show mapFind created.1.players _ = _
      rw [hs2, hid]
      exact mapFind_mapEmplace _ _ _ hfree
    · rw [sendReply_out, checkOutgoingSocket_out, (sendReply_session _ _ _ _).1,
        (sendReply_session _ _ _ _).2]
      rfl

/-- C27: a `RequestPlayerId` command that is not refused (the client does not
ask for a second system player), with the connection to the client there,
creates a player (`p`, under an id that was free) and sends one message of
exactly 28 + 40 = 68 bytes: the header, then the four bytes of
`adjustId(p.getId())`, then 36 zero bytes (security descriptor, the two
provider offsets and the result). -/
theorem C27_request_player_reply (env : Env) (mem : List Nat) (data len flags : Nat)
    (w : World) (hflags : rd32 mem data = some flags)
    (hacc : ¬ (flags &&& RequestPlayerId_System ≠ 0 ∧ w.client.systemPlayerId ≠ 0xFFFFFFFF))
    (hsock : w.client.tcpOutgoingOpen = true ∨ env.tcpConnectOk = true)
    (hn : w.session.players.length < 2 ^ 32) :
    ∃ w2 p reply,
      handleDPlayCommand env mem DPSPCommand.RequestPlayerId data len w = some (true, w2)
      ∧ w.session.getPlayer p.getId = none ∧ w2.session.getPlayer p.getId = some p
      ∧ w2.out = w.out ++ [Event.tcpSend reply]
      ∧ reply.length = 28 + 40
      ∧ reply.take 28 = fillOutgoingHeader w2.client (28 + 40) DPSPCommand.RequestPlayerReply
      ∧ (reply.drop 28).take 4 = le32 (w2.session.adjustId p.getId)
      ∧ reply.drop 32 = List.replicate 36 0 := by
  rw [handleDPlayCommand_requestPlayerId]
  obtain ⟨w2, h⟩ := handleRequestPlayerId_defined env mem data flags w hflags hn
  obtain ⟨p, h1, h2, h3⟩ := handleRequestPlayerId_out env mem data flags w _ hflags hacc hsock h
  exact ⟨w2, p, _, h, h1, h2, h3, requestPlayerReply_layout _ _ p⟩

/-- C27 at a request for a player without the `System` flag on the example
session. -/
theorem C27_request_player_reply_witness :
    ∃ w2 p reply,
      handleDPlayCommand exampleEnv (le32 0) DPSPCommand.RequestPlayerId 0 4 exampleWorld
        = some (true, w2)
      ∧ exampleWorld.session.getPlayer p.getId = none
      ∧ w2.session.getPlayer p.getId = some p
      ∧ w2.out = exampleWorld.out ++ [Event.tcpSend reply]
      ∧ reply.length = 28 + 40
      ∧ reply.take 28 = fillOutgoingHeader w2.client (28 + 40) DPSPCommand.RequestPlayerReply
      ∧ (reply.drop 28).take 4 = le32 (w2.session.adjustId p.getId)
      ∧ reply.drop 32 = List.replicate 36 0 :=
  C27_request_player_reply exampleEnv (le32 0) 0 4 0 exampleWorld (by decide) (by decide)
    (by decide) (by decide)

/-! ## The reply to `EnumSessions` -/

theorem fillSessionDesc_length (s : Session) (hg : s.guid.length = 16)
    (ha : s.appGUID.length = 16) : (fillSessionDesc s).length = 80 := by
  simp [fillSessionDesc, le32, Session.getGUID, Session.getAppGUID, hg, ha]

theorem unitsBytes_length (units : List Nat) : (unitsBytes units).length = 2 * units.length := by
  unfold unitsBytes
  induction units with
  | nil => rfl
  | cons u l ih =>
    rw [List.flatMap_cons, List.length_append, ih]
    simp [le16]
    omega

/-- The layout of the bytes `case EnumSessions` builds. -/
theorem enumSessionsReply_layout (c : Client) (s : Session) (hg : s.guid.length = 16)
    (ha : s.appGUID.length = 16) :
    (enumSessionsReply c s).length = 28 + 84 + 2 * ((convertUTF8ToUCS2 s.getName).length + 1)
      ∧ ((enumSessionsReply c s).drop (28 + 80)).take 4 = le32 (84 + 8)
      ∧ (enumSessionsReply c s).drop (28 + 84)
          = (convertUTF8ToUCS2 s.getName).flatMap (fun u => [u % 256, u / 256 % 256])
              ++ [0, 0] := by
  have hl := fillOutgoingHeader_length c
    (28 + 84 + ((convertUTF8ToUCS2 s.getName).length + 1) * 2) DPSPCommand.EnumSessionsReply
  have hd := fillSessionDesc_length s hg ha
  have hhd : (fillOutgoingHeader c
      (28 + 84 + ((convertUTF8ToUCS2 s.getName).length + 1) * 2) DPSPCommand.EnumSessionsReply
        ++ fillSessionDesc s).length = 28 + 80 := by
    rw [List.length_append, hl, hd]
  have h4 : (le32 (84 + 8)).length = 4 := rfl
  unfold enumSessionsReply
  refine ⟨?_, ?_, ?_⟩
  · simp only [List.length_append, hl, hd, h4, unitsBytes_length, List.length_cons,
      List.length_nil]
    omega
  · simp only [List.append_assoc] at hhd ⊢
    rw [← List.append_assoc, List.drop_left' hhd, List.take_left' h4]
  · rw [show 28 + 84 = (28 + 80) + 4 from rfl, ← List.drop_drop]
    simp only [List.append_assoc] at hhd ⊢
    rw [← List.append_assoc, List.drop_left' hhd, List.drop_left' h4]
    rfl

/-- C24: an `EnumSessions` command that names the session's application GUID,
with the connection to the client there, sends one message.  With `n` the
number of UTF-16 code units of the session name (what `convertUTF8ToUCS2` makes
of the stored name), the message is exactly `28 + 84 + 2 * (n + 1)` bytes long,
its `nameOffset` field (the last four bytes of the 84-byte body) holds
`84 + 8 = 92`, and the bytes after the body are the code units, low byte
first, followed by two zero bytes. -/
theorem C24_enum_sessions_reply (env : Env) (mem : List Nat) (data len : Nat) (w : World)
    (hlen : data + 24 ≤ mem.length)
    (hsame : (mem.drop data).take 16 = w.session.getAppGUID.take 16)
    (hsock : w.client.tcpOutgoingOpen = true ∨ env.tcpConnectOk = true)
    (hg : w.session.guid.length = 16) (ha : w.session.appGUID.length = 16) :
    ∃ w2 reply,
      handleDPlayCommand env mem DPSPCommand.EnumSessions data len w = some (true, w2)
      ∧ w2.out = w.out ++ [Event.tcpSend reply]
      ∧ reply.length = 28 + 84 + 2 * ((convertUTF8ToUCS2 w.session.getName).length + 1)
      ∧ (reply.drop (28 + 80)).take 4 = le32 (84 + 8)
      ∧ reply.drop (28 + 84)
          = (convertUTF8ToUCS2 w.session.getName).flatMap (fun u => [u % 256, u / 256 % 256])
              ++ [0, 0] := by
  rw [handleDPlayCommand_enumSessions]
  unfold handleEnumSessions
  obtain ⟨po, hpo⟩ := rd32_isSome mem (data + 16) (by omega)
  obtain ⟨fl, hfl⟩ := rd32_isSome mem (data + 20) (by omega)
  have hgd : rdBytes mem data 16 = some ((mem.drop data).take 16) :=
    rdBytes_eq mem data 16 (by omega)
  have hsame2 : (mem.drop data).take 16
      = (w.print (Diag.enumSessions po fl)).session.getAppGUID.take 16 := hsame
  simp only [Option.bind_eq_bind, hpo, hfl, Option.some_bind, Option.pure_def, hgd,
    hsame2, ne_eq, not_true_eq_false, if_false]
  rw [if_pos (checkOutgoingSocket_fst env _ ?_)]
  swap
  · exact hsock
  refine ⟨_, enumSessionsReply
    (checkOutgoingSocket env (w.print (Diag.enumSessions po fl))).2.client
    (checkOutgoingSocket env (w.print (Diag.enumSessions po fl))).2.session, rfl, ?_, ?_⟩
  · rw [sendReply_out, checkOutgoingSocket_out]
    rfl
  · have hs : (checkOutgoingSocket env (w.print (Diag.enumSessions po fl))).2.session
        = w.session := (checkOutgoingSocket_session _ _).1
    rw [hs]
    exact enumSessionsReply_layout _ _ hg ha

/-- C24 at the session named `"TestRoom"`: the bytes after the body are
`54 00 65 00 73 00 74 00 52 00 6F 00 6F 00 6D 00 00 00`. -/
theorem C24_enum_sessions_reply_witness :
    (∃ w2 reply,
      handleDPlayCommand exampleEnv exampleEnumSessions DPSPCommand.EnumSessions 0 24
          testRoomWorld = some (true, w2)
      ∧ w2.out = testRoomWorld.out ++ [Event.tcpSend reply]
      ∧ reply.length = 28 + 84 + 2 * ((convertUTF8ToUCS2 testRoomSession.getName).length + 1)
      ∧ (reply.drop (28 + 80)).take 4 = le32 (84 + 8)
      ∧ reply.drop (28 + 84)
          = (convertUTF8ToUCS2 testRoomSession.getName).flatMap
              (fun u => [u % 256, u / 256 % 256]) ++ [0, 0])
      ∧ (convertUTF8ToUCS2 testRoomSession.getName).flatMap (fun u => [u % 256, u / 256 % 256])
            ++ [0, 0]
          = [0x54, 0, 0x65, 0, 0x73, 0, 0x74, 0, 0x52, 0, 0x6F, 0, 0x6F, 0, 0x6D, 0, 0, 0] :=
  ⟨C24_enum_sessions_reply exampleEnv exampleEnumSessions 0 24
      testRoomWorld (by decide) (by decide) (by decide)
      (by decide) (by decide), by decide⟩

/-! ## The bytes of the `SuperEnumPlayersReply` -/

theorem le32_length (v : Nat) : (le32 v).length = 4 := rfl

theorem le32_mod (v : Nat) : le32 (v % 2 ^ 32) = le32 v := by
  unfold le32
  have h0 : v % 2 ^ 32 % 256 = v % 256 := by omega
  have h1 : v % 2 ^ 32 / 256 % 256 = v / 256 % 256 := by omega
  have h2 : v % 2 ^ 32 / 65536 % 256 = v / 65536 % 256 := by omega
  have h3 : v % 2 ^ 32 / 16777216 % 256 = v / 16777216 % 256 := by omega
  rw [h0, h1, h2, h3]

theorem system_bit_mod (flags : Nat) :
    (flags % 2 ^ 32) &&& DPPlayer_System = flags &&& DPPlayer_System := by
  rw [show DPPlayer_System = 1 from rfl, Nat.and_one_is_mod, Nat.and_one_is_mod]
  omega

/-- The fields of one entry of the player list. -/
theorem superPackedPlayer_fields (s : Session) (e : Nat × Player) :
    (superPackedPlayer s e).take 4 = le32 16
      ∧ ((superPackedPlayer s e).drop 4).take 4 = le32 e.2.getFlags
      ∧ ((superPackedPlayer s e).drop 8).take 4 = le32 (s.adjustId e.1)
      ∧ ((superPackedPlayer s e).drop 12).take 4
          = le32 (if e.2.getServiceProviderDataLen ≠ 0 then 1 <<< 2 else 0)
      ∧ ((superPackedPlayer s e).drop 16).take 4
          = le32 (if e.2.getFlags &&& DPPlayer_System ≠ 0 then 14 else e.2.getSystemPlayerId)
      ∧ (superPackedPlayer s e).drop 20
          = (if e.2.getServiceProviderDataLen ≠ 0 then
              (e.2.getServiceProviderDataLen % 256)
                :: e.2.getServiceProviderData.take e.2.getServiceProviderDataLen
            else []) := by
  unfold superPackedPlayer
  simp only [system_bit_mod, le32_mod, List.append_assoc]
  have h4 := le32_length
  refine ⟨?_, ?_, ?_, ?_, ?_, ?_⟩
  · rw [List.take_left' (h4 _)]
  · rw [List.drop_left' (h4 _), List.take_left' (h4 _)]
  · rw [show (8 : Nat) = 4 + 4 from rfl, ← List.drop_drop, List.drop_left' (h4 _),
      List.drop_left' (h4 _), List.take_left' (h4 _)]
  · rw [show (12 : Nat) = 4 + 4 + 4 from rfl, ← List.drop_drop, ← List.drop_drop,
      List.drop_left' (h4 _), List.drop_left' (h4 _), List.drop_left' (h4 _),
      List.take_left' (h4 _)]
    rfl
  · rw [show (16 : Nat) = 4 + 4 + 4 + 4 from rfl, ← List.drop_drop, ← List.drop_drop,
      ← List.drop_drop, List.drop_left' (h4 _), List.drop_left' (h4 _), List.drop_left' (h4 _),
      List.drop_left' (h4 _), List.take_left' (h4 _)]
  · rw [show (20 : Nat) = 4 + 4 + 4 + 4 + 4 from rfl, ← List.drop_drop, ← List.drop_drop,
      ← List.drop_drop, ← List.drop_drop, List.drop_left' (h4 _), List.drop_left' (h4 _),
      List.drop_left' (h4 _), List.drop_left' (h4 _), List.drop_left' (h4 _)]

theorem superPackedPlayer_length (s : Session) (e : Nat × Player) :
    (superPackedPlayer s e).length
      = 20 + (if e.2.getServiceProviderDataLen ≠ 0 then e.2.getServiceProviderDataLen + 1
              else 0) := by
  unfold superPackedPlayer
  have hle : e.2.getServiceProviderDataLen ≤ e.2.getServiceProviderData.length := by
    unfold Player.getServiceProviderDataLen Player.getServiceProviderData
    exact Nat.mod_le _ _
  simp only [List.length_append, le32_length]
  split
  · rw [List.length_cons, List.length_take, Nat.min_eq_left hle]
  · rfl

/-- The layout of the bytes `case AddForwardRequest` writes. -/
theorem superEnumPlayersReply_layout (c : Client) (s : Session) (hg : s.guid.length = 16)
    (ha : s.appGUID.length = 16) :
    ((superEnumPlayersReply c s).drop 28).take 4 = le32 s.getPlayers.length
      ∧ ((superEnumPlayersReply c s).drop 32).take 4 = le32 0
      ∧ ((superEnumPlayersReply c s).drop 40).take 4 = le32 0
      ∧ (superEnumPlayersReply c s).drop
            (28 + 28 + 80 + 2 * ((convertUTF8ToUCS2 s.getName).length + 1))
          = (s.getPlayers.map (superPackedPlayer s)).flatten := by
  have hl := fillOutgoingHeader_length c (superEnumPlayersReplySize s)
    DPSPCommand.SuperEnumPlayersReply
  have hd := fillSessionDesc_length s hg ha
  have h4 := le32_length
  unfold superEnumPlayersReply
  refine ⟨?_, ?_, ?_, ?_⟩
  · simp only [List.append_assoc]
    rw [List.drop_left' hl, List.take_left' (h4 _)]
  · simp only [List.append_assoc]
    rw [show (32 : Nat) = 28 + 4 from rfl, ← List.drop_drop, List.drop_left' hl,
      List.drop_left' (h4 _), List.take_left' (h4 _)]
  · simp only [List.append_assoc]
    rw [show (40 : Nat) = 28 + 4 + 4 + 4 from rfl, ← List.drop_drop, ← List.drop_drop,
      ← List.drop_drop, List.drop_left' hl, List.drop_left' (h4 _), List.drop_left' (h4 _),
      List.drop_left' (h4 _), List.take_left' (h4 _)]
  · rw [List.flatMap]
    apply List.drop_left'
    simp only [List.length_append, hl, hd, h4, unitsBytes_length, List.length_cons,
      List.length_nil]
    omega

/-- The bytes `case AddForwardRequest` writes fill the allocation exactly when no player
holds `2 ^ 32 - 1` bytes of service-provider data. -/
theorem superEnumPlayersReply_length (c : Client) (s : Session) (hg : s.guid.length = 16)
    (ha : s.appGUID.length = 16)
    (hsp : ∀ e ∈ s.players, e.2.serviceProviderData.length < 2 ^ 32 - 1) :
    (superEnumPlayersReply c s).length = superEnumPlayersReplySize s := by
  have hl := fillOutgoingHeader_length c (superEnumPlayersReplySize s)
    DPSPCommand.SuperEnumPlayersReply
  have hd := fillSessionDesc_length s hg ha
  have h4 := le32_length
  have hent : ∀ (l : List (Nat × Player)),
      (∀ e ∈ l, e.2.serviceProviderData.length < 2 ^ 32 - 1) →
      (l.flatMap (superPackedPlayer s)).length
        = 20 * l.length + (l.map (fun e =>
            if e.2.getServiceProviderDataLen ≠ 0 then (e.2.getServiceProviderDataLen + 1) % 2 ^ 32
            else 0)).sum := by
    intro l
    induction l with
    | nil => intro _; rfl
    | cons a l ih =>
      intro hall
      have ha2 := hall a (List.mem_cons_self _ _)
      have hlen : a.2.getServiceProviderDataLen < 2 ^ 32 - 1 := by
        unfold Player.getServiceProviderDataLen
        omega
      rw [List.flatMap_cons, List.length_append,
        ih (fun e he => hall e (List.mem_cons_of_mem _ he)),
        superPackedPlayer_length, List.map_cons, List.sum_cons, List.length_cons]
      split
      · rw [Nat.mod_eq_of_lt (by omega)]; omega
      · omega
  unfold superEnumPlayersReply superEnumPlayersReplySize
  simp only [List.length_append, fillOutgoingHeader_length, hd, h4, unitsBytes_length,
    List.length_cons, List.length_nil, hent s.getPlayers hsp]
  simp only [Session.getPlayers]
  omega

/-! ## `AddForwardRequest` and `CreatePlayer` -/

theorem handleDPlayCommand_createPlayer (env : Env) (mem : List Nat) (data len : Nat)
    (w : World) :
    handleDPlayCommand env mem DPSPCommand.CreatePlayer data len w
      = handleCreatePlayer env mem data w := by
  simp [handleDPlayCommand, handleDPlayCommandFuel, DPSPCommand.CreatePlayer,
    DPSPCommand.EnumSessions, DPSPCommand.RequestPlayerId]

theorem handleDPlayCommand_addForwardRequest (env : Env) (mem : List Nat) (data len : Nat)
    (w : World) :
    handleDPlayCommand env mem DPSPCommand.AddForwardRequest data len w
      = handleAddForwardRequest env mem data w := by
  simp [handleDPlayCommand, handleDPlayCommandFuel, DPSPCommand.CreatePlayer,
    DPSPCommand.EnumSessions, DPSPCommand.RequestPlayerId, DPSPCommand.AddForwardRequest]

theorem udpSocketConnect_session (env : Env) (w : World) :
    (udpSocketConnect env w).2.session = w.session ∧ (udpSocketConnect env w).2.out = w.out := by
  unfold udpSocketConnect
  split
  · exact ⟨rfl, rfl⟩
  · split <;> exact ⟨rfl, rfl⟩

theorem checkOutgoingSocket_fst_false (env : Env) (w : World)
    (h : ¬ (w.client.tcpOutgoingOpen = true ∨ env.tcpConnectOk = true)) :
    ¬ (checkOutgoingSocket env w).1 = true := by
  unfold checkOutgoingSocket
  have h1 : ¬ w.client.tcpOutgoingOpen = true := fun hc => h (Or.inl hc)
  have h2 : ¬ env.tcpConnectOk = true := fun hc => h (Or.inr hc)
  simp [h1, h2]

/-- What a defined result of `case AddForwardRequest` consists of. -/
theorem handleAddForwardRequest_some (env : Env) (mem : List Nat) (data : Nat) (w : World)
    (r : Bool × World) (h : handleAddForwardRequest env mem data w = some r) :
    ∃ info playerId, playerInfoOffset mem data = some info ∧ rd32 mem (info + 8) = some playerId
      ∧ r.1 = true
      ∧ ((w.session.getPlayer (w.session.adjustId playerId) = none
            ∧ r.2.session = w.session ∧ r.2.out = w.out)
          ∨ ∃ player, w.session.getPlayer (w.session.adjustId playerId) = some player
              ∧ storePlayerInfo mem info (w.session.adjustId playerId) player w.session
                  = some r.2.session
              ∧ ((w.client.tcpOutgoingOpen = true ∨ env.tcpConnectOk = true) →
                  r.2.out
                      = w.out ++ [Event.tcpSend (superEnumPlayersReply r.2.client r.2.session)]
                    ∧ (superEnumPlayersReply r.2.client r.2.session).length
                        = superEnumPlayersReplySize r.2.session)
              ∧ (¬ (w.client.tcpOutgoingOpen = true ∨ env.tcpConnectOk = true) →
                  r.2.out = w.out)) := by
  unfold handleAddForwardRequest at h
  simp only [Option.bind_eq_bind, Option.bind_eq_some, Option.pure_def] at h
  obtain ⟨info, hinfo, size, -, pl, -, tick, -, playerId, hpid, h⟩ := h
  refine ⟨info, playerId, hinfo, hpid, ?_⟩
  cases hplayer : w.session.getPlayer (w.session.adjustId playerId) with
  | none =>
    simp only [hplayer] at h
    cases h
    exact ⟨rfl, Or.inl ⟨rfl, rfl, rfl⟩⟩
  | some player =>
    simp only [hplayer, Option.bind_eq_some] at h
    obtain ⟨s2, hstore, h⟩ := h
    by_cases hok : (checkOutgoingSocket env { w with session := s2 }).1 = true
    · rw [if_pos hok] at h
      split at h
      · rename_i hlen
        cases h
        refine ⟨rfl, Or.inr ⟨player, rfl, ?_, fun _ => ⟨?_, ?_⟩, fun hs => ?_⟩⟩
        · rw [(sendReply_session _ _ _ _).1, (checkOutgoingSocket_session _ _).1]
          exact hstore
        rotate_left 2
        · exact absurd hok (checkOutgoingSocket_fst_false env { w with session := s2 } hs)
        · rw [sendReply_out, checkOutgoingSocket_out, (sendReply_session _ _ _ _).1,
            (sendReply_session _ _ _ _).2]
        · rw [(sendReply_session _ _ _ _).1, (sendReply_session _ _ _ _).2]
          exact hlen
      · cases h
    · rw [if_neg hok] at h
      cases h
      refine ⟨rfl, Or.inr ⟨player, rfl, ?_, fun hs => ?_, fun _ => ?_⟩⟩
      · rw [(checkOutgoingSocket_session _ _).1]
        exact hstore
      · exact absurd (checkOutgoingSocket_fst env { w with session := s2 } hs) hok
      · rw [checkOutgoingSocket_out]

/-- What a defined result of `case CreatePlayer` consists of. -/
theorem handleCreatePlayer_some (env : Env) (mem : List Nat) (data : Nat) (w : World)
    (r : Bool × World) (h : handleCreatePlayer env mem data w = some r) :
    ∃ info playerId, playerInfoOffset mem data = some info ∧ rd32 mem (info + 8) = some playerId
      ∧ r.1 = true
      ∧ ((w.session.getPlayer (w.session.adjustId playerId) = none ∧ r.2.session = w.session)
          ∨ ∃ player, w.session.getPlayer (w.session.adjustId playerId) = some player
              ∧ storePlayerInfo mem info (w.session.adjustId playerId) player w.session
                  = some r.2.session) := by
  unfold handleCreatePlayer at h
  simp only [Option.bind_eq_bind, Option.bind_eq_some, Option.pure_def] at h
  obtain ⟨info, hinfo, playerId, hpid, h⟩ := h
  refine ⟨info, playerId, hinfo, hpid, ?_⟩
  cases hplayer : w.session.getPlayer (w.session.adjustId playerId) with
  | none =>
    simp only [hplayer] at h
    cases h
    exact ⟨rfl, Or.inl ⟨rfl, rfl⟩⟩
  | some player =>
    simp only [hplayer, Option.bind_eq_some] at h
    obtain ⟨s2, hstore, h⟩ := h
    split at h
    all_goals cases h
    all_goals refine ⟨rfl, Or.inr ⟨player, rfl, ?_⟩⟩
    · rw [(udpSocketConnect_session _ _).1]
      exact hstore
    · show storePlayerInfo mem info (w.session.adjustId playerId) player w.session
        = some (udpSocketConnect env { w with session := s2 }).2.session
      rw [(udpSocketConnect_session _ _).1]
      exact hstore

/-- Where `case CreatePlayer` has a defined result, `case AddForwardRequest` has one as
soon as the password and the tick count it looks for lie inside the array and
the reply fits its allocation. -/
theorem handleAddForwardRequest_defined (env1 env2 : Env) (mem : List Nat) (data : Nat)
    (w : World) (r1 : Bool × World) (info size pl tick : Nat)
    (hcp : handleCreatePlayer env2 mem data w = some r1)
    (hinfo : playerInfoOffset mem data = some info) (hsize : rd32 mem info = some size)
    (hpl : u16Length mem (mem.length + 1) (info + size) = some pl)
    (htick : rd32 mem (info + size + (pl + 1) * 2) = some tick)
    (hg : r1.2.session.guid.length = 16) (ha : r1.2.session.appGUID.length = 16)
    (hsp : ∀ e ∈ r1.2.session.players, e.2.serviceProviderData.length < 2 ^ 32 - 1) :
    ∃ w2, handleAddForwardRequest env1 mem data w = some (true, w2)
      ∧ w2.session = r1.2.session := by
  obtain ⟨info2, playerId, hinfo2, hpid, -, hcase⟩ := handleCreatePlayer_some _ _ _ _ _ hcp
  rw [hinfo] at hinfo2
  cases hinfo2
  unfold handleAddForwardRequest
  simp only [Option.bind_eq_bind, hinfo, hsize, hpl, htick, hpid, Option.some_bind,
    Option.pure_def]
  rcases hcase with ⟨hnone, hs⟩ | ⟨player, hplayer, hstore⟩
  · simp only [hnone]
    exact ⟨_, rfl, hs.symm⟩
  · simp only [hplayer, hstore, Option.some_bind]
    by_cases hok : (checkOutgoingSocket env1 { w with session := r1.2.session }).1 = true
    · rw [if_pos hok, if_pos]
      · exact ⟨_, rfl,
          by rw [(sendReply_session _ _ _ _).1, (checkOutgoingSocket_session _ _).1]⟩
      · rw [(checkOutgoingSocket_session _ _).1]
        exact superEnumPlayersReply_length _ _ hg ha hsp
    · rw [if_neg hok]
      exact ⟨_, rfl, (checkOutgoingSocket_session _ _).1⟩

/-- C28: handled as `AddForwardRequest`, a body leaves the players of the
session (the referenced player's short name, long name and service-provider
data, and every other player) exactly as the same body handled as
`CreatePlayer` leaves them.  Whenever `AddForwardRequest` has a defined result,
`CreatePlayer` has one and the sessions agree; and where `CreatePlayer` has a
defined result, `AddForwardRequest` has one with the same session as soon as
what it reads in addition (the `size` field, the password up to its
terminator, the tick count) lies inside the array and the reply fits its
allocation. -/
theorem C28_add_forward_as_create_player (env1 env2 : Env) (mem : List Nat)
    (data len1 len2 : Nat) (w : World) :
    (∀ r, handleDPlayCommand env1 mem DPSPCommand.AddForwardRequest data len1 w = some r →
        ∃ w1, handleDPlayCommand env2 mem DPSPCommand.CreatePlayer data len2 w = some (true, w1)
          ∧ w1.session = r.2.session)
      ∧ (∀ r1 info size pl tick,
          handleDPlayCommand env2 mem DPSPCommand.CreatePlayer data len2 w = some r1 →
          playerInfoOffset mem data = some info → rd32 mem info = some size →
          u16Length mem (mem.length + 1) (info + size) = some pl →
          rd32 mem (info + size + (pl + 1) * 2) = some tick →
          r1.2.session.guid.length = 16 → r1.2.session.appGUID.length = 16 →
          (∀ e ∈ r1.2.session.players, e.2.serviceProviderData.length < 2 ^ 32 - 1) →
          ∃ w2, handleDPlayCommand env1 mem DPSPCommand.AddForwardRequest data len1 w
              = some (true, w2)
            ∧ w2.session = r1.2.session) := by
  rw [handleDPlayCommand_addForwardRequest, handleDPlayCommand_createPlayer]
  constructor
  · intro r h
    obtain ⟨info, playerId, hinfo, hpid, -, hcase⟩ := handleAddForwardRequest_some _ _ _ _ _ h
    unfold handleCreatePlayer
    simp only [Option.bind_eq_bind, hinfo, hpid, Option.some_bind, Option.pure_def]
    rcases hcase with ⟨hnone, hs, -⟩ | ⟨player, hplayer, hstore, -, -⟩
    · simp only [hnone]
      exact ⟨_, rfl, hs.symm⟩
    · simp only [hplayer, hstore, Option.some_bind]
      split
      · exact ⟨_, rfl, (udpSocketConnect_session _ _).1⟩
      · exact ⟨_, rfl, (udpSocketConnect_session _ _).1⟩
  · intro r1 info size pl tick hcp hinfo hsize hpl htick hg ha hsp
    exact handleAddForwardRequest_defined env1 env2 mem data w r1 info size pl tick hcp hinfo
      hsize hpl htick hg ha hsp

set_option maxRecDepth 100000 in
/-- C28 at the example body for player `0x10001`. -/
theorem C28_add_forward_as_create_player_witness :
    ∃ w1, handleDPlayCommand exampleEnv exampleAddForwardBody DPSPCommand.CreatePlayer 0 84
          exampleWorld = some (true, w1)
      ∧ w1.session
        = ((handleDPlayCommand exampleEnv exampleAddForwardBody DPSPCommand.AddForwardRequest 0 84
            exampleWorld).getD (false, exampleWorld)).2.session :=
  (C28_add_forward_as_create_player exampleEnv exampleEnv exampleAddForwardBody 0 84 84
    exampleWorld).1 _ (by decide)

/-! ## The entries of the `SuperEnumPlayersReply` -/

theorem storePlayerInfo_players (mem : List Nat) (info key : Nat) (player : Player)
    (s s2 : Session) (h : storePlayerInfo mem info key player s = some s2) :
    ∃ p2, s2 = { s with players := mapSet s.players key p2 } := by
  unfold storePlayerInfo at h
  simp only [Option.bind_eq_bind, Option.bind_eq_some, Option.pure_def] at h
  obtain ⟨_, -, _, -, _, -, _, -, _, -, _, -, _, -, h⟩ := h
  split at h
  all_goals simp only [Option.bind_eq_some] at h
  all_goals obtain ⟨p2, -, h⟩ := h
  all_goals exact ⟨p2, (Option.some.inj h).symm⟩

theorem forall2_map_self {α β : Type} (R : α → β → Prop) (f : α → β) (l : List α)
    (h : ∀ e ∈ l, R e (f e)) : List.Forall₂ R l (l.map f) := by
  induction l with
  | nil => exact List.Forall₂.nil
  | cons a l ih =>
    exact List.Forall₂.cons (h a (List.mem_cons_self _ _))
      (ih (fun e he => h e (List.mem_cons_of_mem _ he)))

/-- A reply of `case AddForwardRequest`, when one is sent, is the message
`superEnumPlayersReply` for the session the handler leaves, which holds as many
players as before. -/
theorem handleAddForwardRequest_reply (env : Env) (mem : List Nat) (data : Nat) (w : World)
    (r : Bool × World) (h : handleAddForwardRequest env mem data w = some r)
    (hsent : r.2.out ≠ w.out) :
    r.2.out = w.out ++ [Event.tcpSend (superEnumPlayersReply r.2.client r.2.session)]
      ∧ (superEnumPlayersReply r.2.client r.2.session).length
          = superEnumPlayersReplySize r.2.session
      ∧ r.2.session.players.length = w.session.players.length
      ∧ r.2.session.guid = w.session.guid ∧ r.2.session.appGUID = w.session.appGUID
      ∧ r.2.session.name = w.session.name := by
  obtain ⟨info, playerId, -, -, -, hcase⟩ := handleAddForwardRequest_some _ _ _ _ _ h
  rcases hcase with ⟨-, -, hout⟩ | ⟨player, -, hstore, hyes, hno⟩
  · exact absurd hout hsent
  · by_cases hs : w.client.tcpOutgoingOpen = true ∨ env.tcpConnectOk = true
    · obtain ⟨p2, hp2⟩ := storePlayerInfo_players _ _ _ _ _ _ hstore
      refine ⟨(hyes hs).1, (hyes hs).2, ?_, ?_, ?_, ?_⟩
      · rw [hp2]; simp [mapSet]
      · rw [hp2]
      · rw [hp2]
      · rw [hp2]
    · exact absurd (hno hs) hsent

/-- C29: a reply `case AddForwardRequest` sends (`hsent`: something was sent)
is one message in which `playerCount` is the number of players of the session
(unchanged by the command), `groupCount` and `shortcutCount` are 0, and the
bytes from `packedOffset` on are one entry per player, in the order of the
map: each entry has at least the 20 bytes of `DPSuperPackedPlayer`, with
`size` 16, `flags` the flags of the player, `id` the adjusted id, and
`versionOrSystemPlayerId` 14 for a player with the `System` flag and the
system-player-id of the player otherwise. -/
theorem C29_super_enum_players_entries (env : Env) (mem : List Nat) (data len : Nat)
    (w : World) (r : Bool × World)
    (h : handleDPlayCommand env mem DPSPCommand.AddForwardRequest data len w = some r)
    (hsent : r.2.out ≠ w.out)
    (hg : w.session.guid.length = 16) (ha : w.session.appGUID.length = 16) :
    ∃ reply entries, r.2.out = w.out ++ [Event.tcpSend reply]
      ∧ r.2.session.getPlayers.length = w.session.getPlayers.length
      ∧ (reply.drop 28).take 4 = le32 r.2.session.getPlayers.length
      ∧ (reply.drop 32).take 4 = le32 0
      ∧ (reply.drop 40).take 4 = le32 0
      ∧ reply.drop (28 + 28 + 80 + 2 * ((convertUTF8ToUCS2 w.session.getName).length + 1))
          = entries.flatten
      ∧ List.Forall₂
          (fun e entry =>
            20 ≤ entry.length
              ∧ entry.take 4 = le32 16
              ∧ (entry.drop 4).take 4 = le32 e.2.getFlags
              ∧ (entry.drop 8).take 4 = le32 (r.2.session.adjustId e.1)
              ∧ (entry.drop 16).take 4
                  = le32 (if e.2.getFlags &&& DPPlayer_System ≠ 0 then 14
                          else e.2.getSystemPlayerId))
          r.2.session.getPlayers entries := by
  rw [handleDPlayCommand_addForwardRequest] at h
  obtain ⟨hout, -, hlen, hg2, ha2, hname⟩ := handleAddForwardRequest_reply _ _ _ _ _ h hsent
  obtain ⟨h1, h2, h3, h4⟩ := superEnumPlayersReply_layout r.2.client r.2.session
    (by rw [hg2]; exact hg) (by rw [ha2]; exact ha)
  refine ⟨_, r.2.session.getPlayers.map (superPackedPlayer r.2.session), hout, hlen, h1, h2, h3,
    ?_, ?_⟩
  · rw [← h4]
    show _ = List.drop (28 + 28 + 80 + 2 * ((convertUTF8ToUCS2 r.2.session.name).length + 1)) _
    rw [hname]
    rfl
  · apply forall2_map_self
    intro e _
    obtain ⟨f1, f2, f3, -, f5, -⟩ := superPackedPlayer_fields r.2.session e
    refine ⟨?_, f1, f2, f3, f5⟩
    rw [superPackedPlayer_length]
    omega

set_option maxRecDepth 100000 in
/-- C29 at the example body handled on the example session (two players). -/
theorem C29_super_enum_players_entries_witness :
    ∃ reply entries,
      ((handleDPlayCommand exampleEnv exampleAddForwardBody DPSPCommand.AddForwardRequest 0 84
          exampleWorld).getD (false, exampleWorld)).2.out
        = exampleWorld.out ++ [Event.tcpSend reply]
      ∧ ((handleDPlayCommand exampleEnv exampleAddForwardBody DPSPCommand.AddForwardRequest 0 84
          exampleWorld).getD (false, exampleWorld)).2.session.getPlayers.length
        = exampleWorld.session.getPlayers.length
      ∧ (reply.drop 28).take 4
        = le32 ((handleDPlayCommand exampleEnv exampleAddForwardBody
            DPSPCommand.AddForwardRequest 0 84
            exampleWorld).getD (false, exampleWorld)).2.session.getPlayers.length
      ∧ (reply.drop 32).take 4 = le32 0
      ∧ (reply.drop 40).take 4 = le32 0
      ∧ reply.drop
            (28 + 28 + 80 + 2 * ((convertUTF8ToUCS2 exampleWorld.session.getName).length + 1))
          = entries.flatten
      ∧ List.Forall₂
          (fun e entry =>
            20 ≤ entry.length
              ∧ entry.take 4 = le32 16
              ∧ (entry.drop 4).take 4 = le32 e.2.getFlags
              ∧ (entry.drop 8).take 4
                  = le32 (((handleDPlayCommand exampleEnv exampleAddForwardBody
                      DPSPCommand.AddForwardRequest 0 84
                      exampleWorld).getD (false, exampleWorld)).2.session.adjustId e.1)
              ∧ (entry.drop 16).take 4
                  = le32 (if e.2.getFlags &&& DPPlayer_System ≠ 0 then 14
                          else e.2.getSystemPlayerId))
          ((handleDPlayCommand exampleEnv exampleAddForwardBody DPSPCommand.AddForwardRequest 0
            84 exampleWorld).getD (false, exampleWorld)).2.session.getPlayers entries :=
  C29_super_enum_players_entries exampleEnv exampleAddForwardBody 0 84 exampleWorld _
    (by decide) (by decide) (by decide) (by decide)

/-! ## The length byte of the service-provider data -/

set_option maxRecDepth 100000 in
/-- C30 as the spec states it fails: an `AddForwardRequest` stores 300 bytes of
service-provider data for player `0x10001`; in the reply the entry of that
player has the one-byte variant in `playerInfoMask`, then the byte 44
(`300 mod 256`), not a byte of value 300, then the 300 bytes. -/
theorem C30_tag_byte_of_300_bytes :
    (handleDPlayCommand exampleEnv largeDataAddForwardBody DPSPCommand.AddForwardRequest 0
          largeDataAddForwardBody.length exampleWorld).map
        (fun r => ((r.2.session.getPlayer 0x10001).map Player.getServiceProviderDataLen,
          r.2.out.map (fun ev =>
            match ev with
            | Event.tcpSend reply =>
              ((reply.drop (142 + 20 + 12)).take 4, (reply.drop (142 + 20 + 20)).take 1,
                reply.drop (142 + 20 + 21))
            | Event.udpSend _ => ([], [], []))))
      = some (some 300, [(le32 (1 <<< 2), [44], List.replicate 300 0xCC)]) := by
  decide

/-- C30, amended: in every reply `case AddForwardRequest` sends, the entry of a
player that holds `L < 256` bytes of service-provider data is as follows,
whatever the other players of the session hold: for `L > 0` it has
`playerInfoMask = 1 << 2` and is followed by one byte of value `L` and the `L`
bytes; for `L = 0` it has `playerInfoMask = 0` and nothing after its 20
bytes. -/
theorem C30_service_provider_data_tag (env : Env) (mem : List Nat) (data len : Nat)
    (w : World) (r : Bool × World)
    (h : handleDPlayCommand env mem DPSPCommand.AddForwardRequest data len w = some r)
    (hsent : r.2.out ≠ w.out)
    (hg : w.session.guid.length = 16) (ha : w.session.appGUID.length = 16) :
    ∃ reply entries, r.2.out = w.out ++ [Event.tcpSend reply]
      ∧ reply.drop (28 + 28 + 80 + 2 * ((convertUTF8ToUCS2 w.session.getName).length + 1))
          = entries.flatten
      ∧ List.Forall₂
          (fun e entry =>
            e.2.getServiceProviderData.length < 256 →
              (entry.drop 12).take 4
                  = le32 (if e.2.getServiceProviderData.length ≠ 0 then 1 <<< 2 else 0)
                ∧ entry.drop 20
                    = (if e.2.getServiceProviderData.length ≠ 0 then
                        e.2.getServiceProviderData.length :: e.2.getServiceProviderData
                      else []))
          r.2.session.getPlayers entries := by
  rw [handleDPlayCommand_addForwardRequest] at h
  obtain ⟨hout, -, -, hg2, ha2, hname⟩ := handleAddForwardRequest_reply _ _ _ _ _ h hsent
  obtain ⟨-, -, -, h4⟩ := superEnumPlayersReply_layout r.2.client r.2.session
    (by rw [hg2]; exact hg) (by rw [ha2]; exact ha)
  refine ⟨_, r.2.session.getPlayers.map (superPackedPlayer r.2.session), hout, ?_, ?_⟩
  · rw [← h4]
    show _ = List.drop (28 + 28 + 80 + 2 * ((convertUTF8ToUCS2 r.2.session.name).length + 1)) _
    rw [hname]
    rfl
  · apply forall2_map_self
    intro e _ hlt
    obtain ⟨-, -, -, f4, -, f6⟩ := superPackedPlayer_fields r.2.session e
    have hlen : e.2.getServiceProviderDataLen = e.2.getServiceProviderData.length := by
      unfold Player.getServiceProviderDataLen Player.getServiceProviderData at *
      omega
    rw [hlen] at f4 f6
    refine ⟨f4, ?_⟩
    rw [f6, Nat.mod_eq_of_lt hlt, List.take_length]

set_option maxRecDepth 100000 in
/-- C30 (amended) at two bodies.  The first stores 300 bytes for player
`0x10001`: the players then hold 0 and 300 bytes, and the statement about the
entry of the system player `0x10000`, which holds none, stands.  The second
stores 2 bytes for player `0x10001`: both entries are described. -/
theorem C30_service_provider_data_tag_witness :
    (((handleDPlayCommand exampleEnv largeDataAddForwardBody DPSPCommand.AddForwardRequest 0
          largeDataAddForwardBody.length exampleWorld).getD
        (false, exampleWorld)).2.session.getPlayers.map
      (fun e => (e.1, e.2.getServiceProviderData.length)) = [(0x10000, 0), (0x10001, 300)])
    ∧ (∃ reply entries,
      ((handleDPlayCommand exampleEnv largeDataAddForwardBody DPSPCommand.AddForwardRequest 0
          largeDataAddForwardBody.length exampleWorld).getD (false, exampleWorld)).2.out
        = exampleWorld.out ++ [Event.tcpSend reply]
      ∧ reply.drop
            (28 + 28 + 80 + 2 * ((convertUTF8ToUCS2 exampleWorld.session.getName).length + 1))
          = entries.flatten
      ∧ List.Forall₂
          (fun e entry =>
            e.2.getServiceProviderData.length < 256 →
              (entry.drop 12).take 4
                  = le32 (if e.2.getServiceProviderData.length ≠ 0 then 1 <<< 2 else 0)
                ∧ entry.drop 20
                    = (if e.2.getServiceProviderData.length ≠ 0 then
                        e.2.getServiceProviderData.length :: e.2.getServiceProviderData
                      else []))
          ((handleDPlayCommand exampleEnv largeDataAddForwardBody DPSPCommand.AddForwardRequest 0
            largeDataAddForwardBody.length exampleWorld).getD
              (false, exampleWorld)).2.session.getPlayers entries)
    ∧ (((handleDPlayCommand exampleEnv exampleAddForwardBody DPSPCommand.AddForwardRequest 0
          84 exampleWorld).getD
        (false, exampleWorld)).2.session.getPlayers.map
      (fun e => (e.1, e.2.getServiceProviderData.length)) = [(0x10000, 0), (0x10001, 2)])
    ∧ (∃ reply entries,
      ((handleDPlayCommand exampleEnv exampleAddForwardBody DPSPCommand.AddForwardRequest 0
          84 exampleWorld).getD (false, exampleWorld)).2.out
        = exampleWorld.out ++ [Event.tcpSend reply]
      ∧ reply.drop
            (28 + 28 + 80 + 2 * ((convertUTF8ToUCS2 exampleWorld.session.getName).length + 1))
          = entries.flatten
      ∧ List.Forall₂
          (fun e entry =>
            e.2.getServiceProviderData.length < 256 →
              (entry.drop 12).take 4
                  = le32 (if e.2.getServiceProviderData.length ≠ 0 then 1 <<< 2 else 0)
                ∧ entry.drop 20
                    = (if e.2.getServiceProviderData.length ≠ 0 then
                        e.2.getServiceProviderData.length :: e.2.getServiceProviderData
                      else []))
          ((handleDPlayCommand exampleEnv exampleAddForwardBody DPSPCommand.AddForwardRequest 0
            84 exampleWorld).getD
              (false, exampleWorld)).2.session.getPlayers entries) :=
  ⟨by decide,
    C30_service_provider_data_tag exampleEnv largeDataAddForwardBody 0
      largeDataAddForwardBody.length exampleWorld _ (by decide) (by decide) (by decide)
      (by decide),
    by decide,
    C30_service_provider_data_tag exampleEnv exampleAddForwardBody 0 84 exampleWorld _
      (by decide) (by decide) (by decide) (by decide)⟩

/-! ## The sizes of buffers -/

/-- C33, evaluated: a frame from id 15000 (below 16384) that asks for an ack.
`getRPHeaderSize` counts two bytes for the id, so 15 bytes are allocated;
`fillRPHeader` writes the id in three bytes, so the header and the two 32-bit
fields take 16: the last byte is written past the allocation, and
`handleUDPRead` has no defined result. -/
theorem C33_ack_written_past_buffer :
    (readRPFrame farSenderDatagram.buf 11).map (Option.map (fun f => (f.fromId, f.toId)))
        = some (some (15000, 0))
      ∧ getRPHeaderSize 0 15000 + 8 = 15
      ∧ (fillRPHeader 0 15000 (DPRPFrame_Ack ||| (0x1C &&& DPRPFrame_Reliable)) 7 0 9).length + 8
          = 16
      ∧ handleUDPRead exampleEnv farSenderDatagram.buf farSenderDatagram.len exampleWorld
          = none := by
  decide

/-- C34, evaluated: a buffer of 28 bytes whose `sizeToken` declares the size 0
passes both length checks (`28 >= 28`, `28 >= 0`), the signature and the
version check; the body length handed to `handleDPlayCommand` is
`0 - 28` in `size_t`, that is `2 ^ 64 - 28` (the console line of the unknown
command shows it), and 0 is left in `len`. -/
theorem C34_declared_size_below_header :
    zeroSizeMessage.length = 28
      ∧ (handleDPlayPacket exampleEnv zeroSizeMessage 28 exampleWorld).map
          (fun r => (r.ret, r.len, r.world.log))
        = some (false, 0, [Diag.unhandledCommand 0 (2 ^ 64 - 28)]) := by
  decide

/-- C35, evaluated.  A single-frame message of 6 bytes that starts with
`"play"` is dispatched as a command: the 8-byte header is copied (2 bytes from
beyond the message) and the body length is `6 - 8` in `size_t`.  A
single-frame message of 2 bytes (`"pl"`) is compared with `"play"` on 4 bytes;
with `"ay"` lying behind it in the receive array it is dispatched as a command
with body length `2 - 8`.  A message of 2 bytes assembled from two frames is
compared on 4 bytes of a vector of 2: no defined result. -/
theorem C35_short_message_read_as_command :
    (handleUDPRead exampleEnv
        (exampleDatagram 0x18 7 0 9 (playSignature ++ [0x63, 0])).buf 12 exampleWorld).map
        (fun w => (w.completed, w.log))
      = some ([playSignature ++ [0x63, 0]], [Diag.unhandledCommand 0x63 (2 ^ 64 - 2)])
    ∧ (handleUDPRead exampleEnv
        ([1, 0, 0x18, 7, 0, 9] ++ [0x70, 0x6C] ++ [0x61, 0x79, 0x63, 0, 0x0E, 0]) 8
        exampleWorld).map (fun w => (w.completed, w.log))
      = some ([[0x70, 0x6C]], [Diag.unhandledCommand 0x63 (2 ^ 64 - 6)])
    ∧ handleUDPReads
        [exampleDatagram 0x10 7 0 9 [0x70], exampleDatagram 0x08 7 1 9 [0x6C]]
        exampleWorld = none := by
  decide

/-! ## The header of a frame is read inside the datagram -/

theorem rd8_take (buf : List Nat) (n i : Nat) (h : i < n) : rd8 (buf.take n) i = rd8 buf i := by
  unfold rd8
  exact List.getElem?_take_of_lt h

/-- One id takes one, two or three bytes. -/
theorem readRPId_bounds (buf : List Nat) (ptr id p2 : Nat)
    (h : readRPId buf ptr = some (id, p2)) : ptr + 1 ≤ p2 ∧ p2 ≤ ptr + 3 := by
  unfold readRPId at h
  cases h0 : rd8 buf ptr with
  | none => simp [h0] at h
  | some b0 =>
    simp only [Option.bind_eq_bind, h0, Option.some_bind, Option.pure_def] at h
    by_cases hc : b0 % 65536 &&& 0x80 ≠ 0
    · simp only [hc, ne_eq, not_false_eq_true, if_true] at h
      cases h1 : rd8 buf (ptr + 1) with
      | none => simp [h1] at h
      | some b1 =>
        simp only [h1, Option.some_bind] at h
        split at h
        · simp only [Option.bind_eq_some] at h
          obtain ⟨b2, -, h⟩ := h
          cases h
          omega
        · cases h
          omega
    · simp only [hc, if_false, Option.some_bind] at h
      split at h
      · simp only [Option.bind_eq_some] at h
        obtain ⟨b2, -, h⟩ := h
        cases h
        omega
      · cases h
        omega

/-- The decoder of one id reads nothing beyond the three bytes at `ptr`. -/
theorem readRPId_take (buf : List Nat) (n ptr : Nat) (h : ptr + 3 ≤ n) :
    readRPId (buf.take n) ptr = readRPId buf ptr := by
  unfold readRPId
  rw [rd8_take buf n ptr (by omega)]
  cases h0 : rd8 buf ptr with
  | none => rfl
  | some b0 =>
    simp only [Option.bind_eq_bind, Option.some_bind, Option.pure_def]
    rw [rd8_take buf n (ptr + 1) (by omega)]
    by_cases hc : b0 % 65536 &&& 0x80 ≠ 0
    · simp only [hc, ne_eq, not_false_eq_true, if_true]
      cases h1 : rd8 buf (ptr + 1) with
      | none => rfl
      | some b1 =>
        simp only [Option.some_bind]
        rw [rd8_take buf n (ptr + 1 + 1) (by omega)]
    · simp only [hc, if_false, Option.some_bind]

theorem readRPId_isSome (buf : List Nat) (ptr : Nat) (h : ptr + 3 ≤ buf.length) :
    ∃ r, readRPId buf ptr = some r := by
  obtain ⟨b0, h0⟩ := rd8_isSome buf ptr (by omega)
  obtain ⟨b1, h1⟩ := rd8_isSome buf (ptr + 1) (by omega)
  obtain ⟨b2, h2⟩ := rd8_isSome buf (ptr + 2) (by omega)
  unfold readRPId
  simp only [Option.bind_eq_bind, h0, Option.some_bind, Option.pure_def, h1]
  by_cases hc : b0 % 65536 &&& 0x80 ≠ 0
  · simp only [hc, ne_eq, not_false_eq_true, if_true, Option.some_bind, h2]
    split <;> exact ⟨_, rfl⟩
  · simp only [hc, if_false, Option.some_bind, h1]
    split <;> exact ⟨_, rfl⟩

/-- C36: for a datagram of `len >= 6` bytes the header part of `handleUDPRead`
reads only bytes at indices below `len`: it has a result, and the same one on
the array cut off after `len` bytes, where every read at an index of `len` or
more would have none.  The two ids take between 2 and 6 bytes, the payload
starts 4 bytes after them inside the datagram, and the payload length
`end - ptr` is `len` minus the id length minus 4. -/
theorem C36_frame_header_in_bounds (buf : List Nat) (len : Nat) (h6 : 6 ≤ len)
    (hlen : len ≤ buf.length) :
    ∃ r, readRPFrame buf len = some r ∧ readRPFrame (buf.take len) len = some r
      ∧ ∀ f, r = some f →
          2 ≤ f.idLen ∧ f.idLen ≤ 6 ∧ f.ptr = f.idLen + 4 ∧ f.ptr ≤ len
            ∧ len - f.ptr = len - f.idLen - 4 := by
  obtain ⟨⟨fromId, p1⟩, hr1⟩ := readRPId_isSome buf 0 (by omega)
  have hb1 := readRPId_bounds _ _ _ _ hr1
  obtain ⟨⟨toId, p2⟩, hr2⟩ := readRPId_isSome buf p1 (by omega)
  have hb2 := readRPId_bounds _ _ _ _ hr2
  have ht1 : readRPId (buf.take len) 0 = some (fromId, p1) := by
    rw [readRPId_take buf len 0 (by omega)]; exact hr1
  have ht2 : readRPId (buf.take len) p1 = some (toId, p2) := by
    rw [readRPId_take buf len p1 (by omega)]; exact hr2
  unfold readRPFrame
  simp only [Option.bind_eq_bind, hr1, hr2, ht1, ht2, Option.some_bind, Option.pure_def]
  by_cases hshort : (len : Int) - p2 < 4
  · simp only [hshort, if_true]
    exact ⟨none, rfl, rfl, fun f hf => by cases hf⟩
  · simp only [hshort, if_false]
    have hp : p2 + 4 ≤ len := by omega
    obtain ⟨flags, h0⟩ := rd8_isSome buf p2 (by omega)
    obtain ⟨messageId, h1⟩ := rd8_isSome buf (p2 + 1) (by omega)
    obtain ⟨sequence, h2⟩ := rd8_isSome buf (p2 + 2) (by omega)
    obtain ⟨serial, h3⟩ := rd8_isSome buf (p2 + 3) (by omega)
    rw [rd8_take buf len p2 (by omega), rd8_take buf len (p2 + 1) (by omega),
      rd8_take buf len (p2 + 2) (by omega), rd8_take buf len (p2 + 3) (by omega)]
    simp only [h0, h1, h2, h3, Option.some_bind]
    refine ⟨_, rfl, rfl, fun f hf => ?_⟩
    cases hf
    refine ⟨?_, ?_, rfl, ?_, ?_⟩
    · show 2 ≤ p2
      omega
    · show p2 ≤ 6
      omega
    · show p2 + 4 ≤ len
      omega
    · show len - (p2 + 4) = len - p2 - 4
      omega

/-- C36 at a datagram of 7 bytes in an array of 9. -/
theorem C36_frame_header_in_bounds_witness :
    ∃ r, readRPFrame (exampleDatagram 0x18 7 0 9 [0x61]).buf 7 = some r
      ∧ readRPFrame ((exampleDatagram 0x18 7 0 9 [0x61]).buf.take 7) 7 = some r
      ∧ ∀ f, r = some f →
          2 ≤ f.idLen ∧ f.idLen ≤ 6 ∧ f.ptr = f.idLen + 4 ∧ f.ptr ≤ 7
            ∧ 7 - f.ptr = 7 - f.idLen - 4 :=
  C36_frame_header_in_bounds (exampleDatagram 0x18 7 0 9 [0x61]).buf 7 (by decide) (by decide)

/-! ## `Packet` with a single fragment -/

theorem rd16_le16_append (v : Nat) (hv : v < 65536) (rest : List Nat) :
    rd16 (le16 v ++ rest) 0 = some v := by
  simp only [rd16, rd8, le16, List.cons_append, List.nil_append, List.getElem?_cons_zero,
    List.getElem?_cons_succ, Option.bind_eq_bind, Option.some_bind, Option.pure_def,
    Option.some.injEq]
  omega

/-- C32: a `Packet` command with `totalPackets = 1` whose data are an inner
message (signature `"play"`, command `c`, version 14, then `blen` bytes of
body, `dataSize = 8 + blen`) is the dispatch of the command `c` on that body:
same return value, same session and client state, same replies and console
lines.  A `Packet` command with any other `totalPackets` returns `true` with
session, client and output unchanged. -/
theorem C32_single_fragment_packet (env : Env) (mem : List Nat) (data len : Nat) (w : World) :
    (∀ c blen, rd32 mem (data + 28) = some 1 →
        rdBytes mem (data + 40) 8 = some (playSignature ++ le16 c ++ le16 14) →
        rd32 mem (data + 20) = some (8 + blen) → c < 65536 → 8 + blen < 2 ^ 32 →
        handleDPlayCommand env mem DPSPCommand.Packet data len w
          = handleDPlayCommand env mem c (data + 48) blen w)
      ∧ (∀ total index, rd32 mem (data + 28) = some total → total ≠ 1 →
          rd32 mem (data + 16) = some index →
          ∃ w2, handleDPlayCommand env mem DPSPCommand.Packet data len w = some (true, w2)
            ∧ w2.session = w.session ∧ w2.client = w.client ∧ w2.out = w.out) := by
  constructor
  · intro c blen htotal hhdr hsize hc hb
    have hlen : data + 40 + 8 ≤ mem.length := by
      unfold rdBytes at hhdr
      split at hhdr
      · assumption
      · cases hhdr
    have hver : rd16 (playSignature ++ le16 c ++ le16 14) 6 = some 14 := by
      simp [playSignature, le16, rd16, rd8]
    have hcmd : rd16 (playSignature ++ le16 c ++ le16 14) 4 = some c := by
      simp only [playSignature, le16, rd16, rd8, List.cons_append, List.nil_append,
        List.getElem?_cons_zero, List.getElem?_cons_succ, Option.bind_eq_bind,
        Option.some_bind, Option.pure_def, Option.some.injEq]
      omega
    have htake : (playSignature ++ le16 c ++ le16 14).take 4 = playSignature := by
      simp [playSignature, le16]
    obtain ⟨n, hn⟩ : ∃ n, mem.length = n + 1 := ⟨mem.length - 1, by omega⟩
    unfold handleDPlayCommand
    rw [handleDPlayCommandFuel_enough env mem mem.length n c (data + 48) blen w
      (by omega) (by omega), ← hn]
    conv_lhs => unfold handleDPlayCommandFuel
    rw [if_neg (by decide), if_neg (by decide), if_neg (by decide), if_neg (by decide),
      if_pos rfl]
    simp only [if_false, if_true, Option.bind_eq_bind, htotal, Option.some_bind, hhdr,
      hver, hcmd, htake, hsize, ne_eq, not_true_eq_false, or_self]
    rw [show (8 + blen + 2 ^ 64 - 8) % 2 ^ 64 = blen from by omega]
  · intro total index htotal hne hindex
    unfold handleDPlayCommand
    unfold handleDPlayCommandFuel
    rw [if_neg (by decide), if_neg (by decide), if_neg (by decide), if_neg (by decide),
      if_pos rfl]
    simp only [if_false, if_true, Option.bind_eq_bind, htotal, Option.some_bind, hne,
      hindex, Option.pure_def]
    exact ⟨_, rfl, rfl, rfl, rfl⟩

/-- C32 at a packet that wraps a `RequestPlayerId` message, and at the second
of three fragments. -/
theorem C32_single_fragment_packet_witness :
    handleDPlayCommand exampleEnv examplePacket DPSPCommand.Packet 0 52 exampleWorld
        = handleDPlayCommand exampleEnv examplePacket DPSPCommand.RequestPlayerId (0 + 48) 4
            exampleWorld
      ∧ ∃ w2, handleDPlayCommand exampleEnv exampleFragment DPSPCommand.Packet 0 52 exampleWorld
            = some (true, w2)
          ∧ w2.session = exampleWorld.session ∧ w2.client = exampleWorld.client
          ∧ w2.out = exampleWorld.out :=
  ⟨(C32_single_fragment_packet exampleEnv examplePacket 0 52 exampleWorld).1
      DPSPCommand.RequestPlayerId 4 (by decide) (by decide) (by decide) (by decide) (by decide),
    (C32_single_fragment_packet exampleEnv exampleFragment 0 52 exampleWorld).2 3 1 (by decide)
      (by decide) (by decide)⟩

/-! ## The size of the `SuperEnumPlayersReply` -/

/-- The service-provider data `storePlayerInfo` leaves with the player is the old
one or a piece of the array. -/
theorem storePlayerInfo_data (mem : List Nat) (info key : Nat) (player : Player)
    (s s2 : Session) (h : storePlayerInfo mem info key player s = some s2) :
    ∃ p2, s2 = { s with players := mapSet s.players key p2 }
      ∧ (p2.serviceProviderData = player.serviceProviderData
          ∨ p2.serviceProviderData.length ≤ mem.length) := by
  unfold storePlayerInfo at h
  simp only [Option.bind_eq_bind, Option.bind_eq_some, Option.pure_def] at h
  obtain ⟨_, -, _, -, _, -, _, -, _, -, _, -, size, -, h⟩ := h
  split at h
  · simp only [Option.bind_eq_some, Option.map_eq_some'] at h
    obtain ⟨p2, ⟨bytes, hb, hp2⟩, h⟩ := h
    refine ⟨p2, (Option.some.inj h).symm, Or.inr ?_⟩
    unfold rdBytes at hb
    split at hb
    · cases hb
      rw [← hp2]
      show (List.take size (List.drop _ mem)).length ≤ _
      rw [List.length_take, List.length_drop]
      omega
    · cases hb
  · simp only [Option.bind_eq_some] at h
    obtain ⟨p2, hp2, h⟩ := h
    cases hp2
    exact ⟨_, (Option.some.inj h).symm, Or.inl rfl⟩

/-- Handling `AddForwardRequest` from an array of fewer than `2 ^ 32 - 1` bytes keeps
every player's service-provider data shorter than that. -/
theorem handleAddForwardRequest_dataLen (env : Env) (mem : List Nat) (data : Nat) (w : World)
    (r : Bool × World) (h : handleAddForwardRequest env mem data w = some r)
    (hmem : mem.length < 2 ^ 32 - 1)
    (hsp : ∀ e ∈ w.session.getPlayers, e.2.getServiceProviderData.length < 2 ^ 32 - 1) :
    ∀ e ∈ r.2.session.getPlayers, e.2.getServiceProviderData.length < 2 ^ 32 - 1 := by
  obtain ⟨info, playerId, -, -, -, hcase⟩ := handleAddForwardRequest_some _ _ _ _ _ h
  rcases hcase with ⟨-, hs, -⟩ | ⟨player, hplayer, hstore, -, -⟩
  · rw [hs]; exact hsp
  · obtain ⟨p2, hs2, hp2⟩ := storePlayerInfo_data _ _ _ _ _ _ hstore
    have hmemb := mapFind_mem _ _ _ hplayer
    have hold := hsp _ hmemb
    intro e he
    rw [hs2] at he
    simp only [Session.getPlayers, mapSet, List.mem_map] at he
    obtain ⟨e0, he0, heq⟩ := he
    split at heq
    · rw [← heq]
      show p2.serviceProviderData.length < _
      rcases hp2 with hsame | hle
      · rw [hsame]; exact hold
      · omega
    · rw [← heq]; exact hsp _ he0

/-- C37: the bytes `case AddForwardRequest` writes (header, 28-byte body, 80-byte
session description, name with terminator, and for every player the 20-byte
entry with its length byte and data when it has any) are as many as the
`replySize` computed and allocated beforehand, in every session in which each
player holds fewer than `2 ^ 32 - 1` bytes of service-provider data (the
handlers keep it so from arrays shorter than that, see
`handleAddForwardRequest_dataLen`). -/
theorem C37_reply_size_agreement (c : Client) (s : Session) (hg : s.guid.length = 16)
    (ha : s.appGUID.length = 16)
    (hsp : ∀ e ∈ s.getPlayers, e.2.getServiceProviderData.length < 2 ^ 32 - 1) :
    (superEnumPlayersReply c s).length = superEnumPlayersReplySize s
      ∧ superEnumPlayersReplySize s
        = 28 + 28 + 80 + 2 * ((convertUTF8ToUCS2 s.getName).length + 1)
          + (s.getPlayers.map (fun e =>
              20 + (if e.2.getServiceProviderData.length ≠ 0 then
                      1 + e.2.getServiceProviderData.length
                    else 0))).sum := by
  refine ⟨superEnumPlayersReply_length c s hg ha hsp, ?_⟩
  have hent : ∀ (l : List (Nat × Player)),
      (∀ e ∈ l, e.2.getServiceProviderData.length < 2 ^ 32 - 1) →
      20 * l.length + (l.map (fun e =>
            if e.2.getServiceProviderDataLen ≠ 0 then (e.2.getServiceProviderDataLen + 1) % 2 ^ 32
            else 0)).sum
        = (l.map (fun e =>
              20 + (if e.2.getServiceProviderData.length ≠ 0 then
                      1 + e.2.getServiceProviderData.length
                    else 0))).sum := by
    intro l
    induction l with
    | nil => intro _; rfl
    | cons a l ih =>
      intro hall
      have ha2 := hall a (List.mem_cons_self _ _)
      have hlen : a.2.getServiceProviderDataLen = a.2.getServiceProviderData.length := by
        unfold Player.getServiceProviderDataLen Player.getServiceProviderData at *
        omega
      have ih2 := ih (fun e he => hall e (List.mem_cons_of_mem _ he))
      rw [List.map_cons, List.sum_cons, List.map_cons, List.sum_cons, List.length_cons, hlen,
        ← ih2]
      split
      · rw [Nat.mod_eq_of_lt (by omega)]; omega
      · omega
  unfold superEnumPlayersReplySize
  simp only
  rw [← hent s.getPlayers hsp]
  omega

/-- C37 at the example session. -/
theorem C37_reply_size_agreement_witness :
    (superEnumPlayersReply exampleClient exampleSession).length
        = superEnumPlayersReplySize exampleSession
      ∧ superEnumPlayersReplySize exampleSession
        = 28 + 28 + 80 + 2 * ((convertUTF8ToUCS2 exampleSession.getName).length + 1)
          + (exampleSession.getPlayers.map (fun e =>
              20 + (if e.2.getServiceProviderData.length ≠ 0 then
                      1 + e.2.getServiceProviderData.length
                    else 0))).sum :=
  C37_reply_size_agreement exampleClient exampleSession (by decide) (by decide) (by decide)

/-! ## The two string conversions -/

theorem utf8_lead2_bits :
    ∀ q, q < 32 →
      (0xC0 ||| q) = 192 + q ∧ (192 + q) &&& 0xE0 = 0xC0 ∧ (192 + q) &&& 0x1F = q := by
  decide

theorem utf8_tail_bits :
    ∀ r, r < 64 → (0x80 ||| r) = 128 + r ∧ (128 + r) &&& 0x3F = r := by
  decide

theorem utf8_lead3_bits :
    ∀ t, t < 16 → (0xE0 ||| t) = 224 + t ∧ (224 + t) &&& 0xE0 ≠ 0xC0
      ∧ (224 + t) &&& 0xF0 = 0xE0 ∧ (224 + t) &&& 0x0F = t := by
  decide

theorem shl6_or (q r : Nat) (hr : r < 64) : (q <<< 6) ||| r = 64 * q + r := by
  rw [Nat.shiftLeft_eq, Nat.mul_comm]
  exact (Nat.mul_add_lt_is_or (show r < 2 ^ 6 from hr) q).symm

theorem shl12_or (t m r : Nat) (hm : m < 64) (hr : r < 64) :
    ((t <<< 12) ||| (m <<< 6)) ||| r = 4096 * t + 64 * m + r := by
  have h1 : (t <<< 12) ||| (m <<< 6) = 4096 * t + 64 * m := by
    rw [Nat.shiftLeft_eq, Nat.shiftLeft_eq, Nat.mul_comm t]
    have := Nat.mul_add_lt_is_or (show m * 2 ^ 6 < 2 ^ 12 from by omega) t
    rw [← this]
    omega
  rw [h1, show 4096 * t + 64 * m = 2 ^ 6 * (64 * t + m) from by omega]
  exact (Nat.mul_add_lt_is_or (show r < 2 ^ 6 from hr) _).symm

/-- One round of the loop of `convertUTF8ToUCS2`. -/
theorem convertUTF8ToUCS2_cons (c : Nat) (rest : List Nat) :
    convertUTF8ToUCS2 (c :: rest)
      = if c < 0x80 then
          (c % 65536) :: convertUTF8ToUCS2 rest
        else if c &&& 0xE0 = 0xC0 then
          match rest with
          | [] => []
          | c1 :: rest1 =>
            ((((c &&& 0x1F) <<< 6) ||| (c1 &&& 0x3F)) % 65536) :: convertUTF8ToUCS2 rest1
        else if c &&& 0xF0 = 0xE0 then
          match rest with
          | c1 :: c2 :: rest2 =>
            (((((c &&& 0x0F) <<< 12) ||| ((c1 &&& 0x3F) <<< 6)) ||| (c2 &&& 0x3F)) % 65536)
              :: convertUTF8ToUCS2 rest2
          | _ => []
        else [] := by
  cases rest with
  | nil => rfl
  | cons c1 r1 =>
    cases r1 with
    | nil => rfl
    | cons c2 r2 => rfl

/-- Decoding what `convertUCS2ToUTF8` wrote for one code unit gives the unit back. -/
theorem convertUTF8ToUCS2_utf8OfUnit (c : Nat) (hc : c < 65536) (tail : List Nat) :
    convertUTF8ToUCS2 (utf8OfUnit c ++ tail) = c :: convertUTF8ToUCS2 tail := by
  have hshr6 : c >>> 6 = c / 64 := Nat.shiftRight_eq_div_pow c 6
  have hshr12 : c >>> 12 = c / 4096 := Nat.shiftRight_eq_div_pow c 12
  have hand : ∀ x, x &&& 0x3F = x % 64 := fun x =>
    Nat.and_pow_two_sub_one_eq_mod x 6
  unfold utf8OfUnit
  by_cases h1 : c ≤ 0x7F
  · rw [if_pos h1, List.singleton_append, convertUTF8ToUCS2_cons,
      if_pos (show c % 256 < 0x80 from by omega)]
    congr 1
    omega
  · rw [if_neg h1]
    by_cases h2 : c ≤ 0x7FF
    · rw [if_pos h2, hshr6, hand]
      obtain ⟨a1, a2, a3⟩ := utf8_lead2_bits (c / 64) (by omega)
      obtain ⟨b1, b2⟩ := utf8_tail_bits (c % 64) (by omega)
      rw [a1, b1, Nat.mod_eq_of_lt (show 192 + c / 64 < 256 from by omega),
        Nat.mod_eq_of_lt (show 128 + c % 64 < 256 from by omega)]
      show convertUTF8ToUCS2 ((192 + c / 64) :: (128 + c % 64) :: tail) = _
      rw [convertUTF8ToUCS2_cons, if_neg (by omega), if_pos a2, a3]
      dsimp only
      rw [b2, shl6_or _ _ (by omega)]
      congr 1
      omega
    · rw [if_neg h2, hshr6, hshr12, hand, hand]
      obtain ⟨a1, a2, a3, a4⟩ := utf8_lead3_bits (c / 4096) (by omega)
      obtain ⟨b1, b2⟩ := utf8_tail_bits (c / 64 % 64) (by omega)
      obtain ⟨c1, c2⟩ := utf8_tail_bits (c % 64) (by omega)
      rw [a1, b1, c1, Nat.mod_eq_of_lt (show 224 + c / 4096 < 256 from by omega),
        Nat.mod_eq_of_lt (show 128 + c / 64 % 64 < 256 from by omega),
        Nat.mod_eq_of_lt (show 128 + c % 64 < 256 from by omega)]
      show convertUTF8ToUCS2
        ((224 + c / 4096) :: (128 + c / 64 % 64) :: (128 + c % 64) :: tail) = _
      rw [convertUTF8ToUCS2_cons, if_neg (by omega), if_neg a2, if_pos a3, a4]
      dsimp only
      rw [b2, c2, shl12_or _ _ _ (by omega) (by omega)]
      congr 1
      omega

/-- C39: for every sequence of 16-bit code units without a surrogate,
`convertUCS2ToUTF8` returns (no `assert` fails) and `convertUTF8ToUCS2` of the
bytes it returns is the sequence again. -/
theorem C39_string_round_trip (s : List Nat)
    (h : ∀ c ∈ s, c < 65536 ∧ (c < 0xD800 ∨ 0xE000 ≤ c)) :
    (convertUCS2ToUTF8 s).map convertUTF8ToUCS2 = some s := by
  induction s with
  | nil => rfl
  | cons c rest ih =>
    have hc := h c (List.mem_cons_self _ _)
    have ih2 := ih (fun x hx => h x (List.mem_cons_of_mem _ hx))
    unfold convertUCS2ToUTF8
    rw [if_pos (by omega)]
    cases hr : convertUCS2ToUTF8 rest with
    | none => rw [hr] at ih2; cases ih2
    | some bytes =>
      rw [hr] at ih2
      simp only [Option.map_some'] at ih2 ⊢
      rw [convertUTF8ToUCS2_utf8OfUnit c hc.1, Option.some.inj ih2]

/-- C39 at `"A"`, `"é"`, `"€"`, the unit `0xFFFF` and a zero unit. -/
theorem C39_string_round_trip_witness :
    (convertUCS2ToUTF8 [0x41, 0xE9, 0x20AC, 0xFFFF, 0]).map convertUTF8ToUCS2
      = some [0x41, 0xE9, 0x20AC, 0xFFFF, 0] :=
  C39_string_round_trip [0x41, 0xE9, 0x20AC, 0xFFFF, 0] (by decide)

/-! ## The upper half of the ids -/

/-- With the uniqueness counter 1 and fewer than 32768 players, the id
`allocPlayerId` returns lies in `[0x10000, 0x1FFFF]`. -/
theorem allocPlayerId_range (s : Session) (id : Nat) (hU : s.idUnique = 1)
    (hn : s.players.length < 32768) (h : s.allocPlayerId = some id) :
    0x10000 ≤ id ∧ id ≤ 0x1FFFF := by
  unfold Session.allocPlayerId at h
  have hor : s.players.length ||| 65536 = 65536 + s.players.length := by
    have := Nat.mul_add_lt_is_or (show s.players.length < 2 ^ 16 from by omega) 1
    rw [show 2 ^ 16 * 1 = 65536 from by decide] at this
    rw [Nat.lor_comm, ← this]
  rw [hU, show ((1 <<< 16) % 2 ^ 32 : Nat) = 65536 from by decide, hor,
    Nat.mod_eq_of_lt (by omega)] at h
  obtain ⟨k, hk, hid, -⟩ := allocPlayerIdLoop_trace _ _ _ _ (by omega) h
  omega

/-- C38, amended: in every session state reached from a session without
players, with the uniqueness counter 1, by creates that are each called on
fewer than 32768 players and by deletes, every player id lies in
`[0x10000, 0x1FFFF]`; and while the state holds fewer than 32768 players the id
`allocPlayerId` returns next lies there too. -/
theorem C38_ids_in_the_upper_half (s : Session) (h : Session.ReachableBelow 32768 s)
    (hU : s.idUnique = 1) :
    (∀ e ∈ s.players, 0x10000 ≤ e.1 ∧ e.1 ≤ 0x1FFFF)
      ∧ (s.players.length < 32768 →
          ∃ id, s.allocPlayerId = some id ∧ 0x10000 ≤ id ∧ id ≤ 0x1FFFF) := by
  have hinv : (∀ e ∈ s.players, 0x10000 ≤ e.1 ∧ e.1 ≤ 0x1FFFF) := by
    induction h with
    | empty s h0 => intro e he; rw [h0] at he; cases he
    | createSystem s s2 flags p _ hlt hc ih =>
      obtain ⟨newId, hid, -, -, hs2⟩ := createNewSystemPlayer_eq _ _ _ _ hc
      have hUs : s.idUnique = 1 := by rw [hs2] at hU; exact hU
      intro e he
      rw [hs2] at he
      rcases mem_mapEmplace _ _ _ _ he with heq | hold
      · rw [heq]; exact allocPlayerId_range s newId hUs hlt hid
      · exact ih hUs e hold
    | create s s2 systemPlayerId flags p _ hlt hc ih =>
      obtain ⟨newId, hid, -, -, hs2⟩ := createNewPlayer_eq _ _ _ _ _ hc
      have hUs : s.idUnique = 1 := by rw [hs2] at hU; exact hU
      intro e he
      rw [hs2] at he
      rcases mem_mapEmplace _ _ _ _ he with heq | hold
      · rw [heq]; exact allocPlayerId_range s newId hUs hlt hid
      · exact ih hUs e hold
    | delete s id _ ih =>
      have hUs : s.idUnique = 1 := by
        unfold Session.deletePlayer at hU
        split at hU
        · exact hU
        · split at hU <;> exact hU
      intro e he
      exact ih hUs e ((deletePlayer_sublist s id).subset he)
  refine ⟨hinv, fun hlt => ?_⟩
  obtain ⟨id, hid⟩ := allocPlayerId_isSome s (by omega)
  exact ⟨id, hid, allocPlayerId_range s id hU hlt hid⟩

/-- The example session is reached without a create on 32768 or more players. -/
theorem exampleSession_reachableBelow : Session.ReachableBelow 32768 exampleSession :=
  Session.ReachableBelow.create systemOnlySession exampleSession 0x10000 0
    (Player.init 0x10001 0x10000 0)
    (Session.ReachableBelow.createSystem emptySession systemOnlySession 0
      (Player.init 0x10000 0x10000 DPPlayer_System)
      (Session.ReachableBelow.empty emptySession rfl) (by decide) (by decide))
    (by decide) (by decide)

/-- C38 (amended) at the example session. -/
theorem C38_ids_in_the_upper_half_witness :
    (∀ e ∈ exampleSession.players, 0x10000 ≤ e.1 ∧ e.1 ≤ 0x1FFFF)
      ∧ (exampleSession.players.length < 32768 →
          ∃ id, exampleSession.allocPlayerId = some id ∧ 0x10000 ≤ id ∧ id ≤ 0x1FFFF) :=
  C38_ids_in_the_upper_half exampleSession exampleSession_reachableBelow (by decide)

/-! ## A history that leaves the range `[0x10000, 0x1FFFF]` -/

theorem mapEmplace_last (m : List (Nat × Player)) (k : Nat) (p : Player)
    (h : ∀ e ∈ m, e.1 < k) : mapEmplace m k p = m ++ [(k, p)] := by
  induction m with
  | nil => rfl
  | cons a l ih =>
    have ha := h a (List.mem_cons_self _ _)
    unfold mapEmplace
    rw [if_neg (by omega), if_neg (by omega), ih (fun e he => h e (List.mem_cons_of_mem _ he))]
    rfl

theorem fullPlayers_succ (k : Nat) :
    fullPlayers (k + 1)
      = fullPlayers k ++ [(0x10000 + k,
          if k = 0 then Player.init (0x10000 + k) (0x10000 + k) (0 ||| DPPlayer_System)
          else Player.init (0x10000 + k) 0x10000 0)] := by
  unfold fullPlayers
  rw [List.range_succ, List.map_append]
  rfl

theorem fullPlayers_length (k : Nat) : (fullPlayers k).length = k := by
  unfold fullPlayers
  rw [List.length_map, List.length_range]

theorem fullPlayers_key (k : Nat) (e : Nat × Player) (he : e ∈ fullPlayers k) :
    0x10000 ≤ e.1 ∧ e.1 < 0x10000 + k ∧ e.2.getSystemPlayerId = 0x10000 := by
  unfold fullPlayers at he
  obtain ⟨i, hi, heq⟩ := List.mem_map.mp he
  have hik : i < k := List.mem_range.mp hi
  rw [← heq]
  refine ⟨by show 0x10000 ≤ 0x10000 + i; omega, by show 0x10000 + i < _; omega, ?_⟩
  by_cases h0 : i = 0
  · simp [h0, Player.init, Player.getSystemPlayerId]
  · simp [h0, Player.init, Player.getSystemPlayerId]

theorem fullPlayers_find (k j : Nat) (hj : j < k) :
    (mapFind (fullPlayers k) (0x10000 + j)).isSome = true := by
  cases hf : mapFind (fullPlayers k) (0x10000 + j) with
  | some p => rfl
  | none =>
    exfalso
    have hall := (mapFind_eq_none _ _).mp hf
    have hm : ((fun i => (0x10000 + i,
        if i = 0 then Player.init (0x10000 + i) (0x10000 + i) (0 ||| DPPlayer_System)
        else Player.init (0x10000 + i) 0x10000 0)) j) ∈ fullPlayers k :=
      List.mem_map.mpr ⟨j, List.mem_range.mpr hj, rfl⟩
    exact hall _ hm rfl

theorem fullSession_alloc (k : Nat) (hk : k < 65536) :
    (fullSession k).allocPlayerId = some (0x10000 + k) := by
  unfold Session.allocPlayerId
  show allocPlayerIdLoop (fullPlayers k) ((fullPlayers k).length + 1)
    (((fullPlayers k).length ||| ((1 <<< 16) % 2 ^ 32)) % 2 ^ 32) = _
  have hor : k ||| 65536 = 65536 + k := by
    have := Nat.mul_add_lt_is_or (show k < 2 ^ 16 from by omega) 1
    rw [show 2 ^ 16 * 1 = 65536 from by decide] at this
    rw [Nat.lor_comm, ← this]
  rw [fullPlayers_length, show ((1 <<< 16) % 2 ^ 32 : Nat) = 65536 from by decide, hor,
    Nat.mod_eq_of_lt (by omega)]
  unfold allocPlayerIdLoop
  have hfree : mapFind (fullPlayers k) (65536 + k) = none :=
    (mapFind_eq_none _ _).mpr (fun e he => by have := fullPlayers_key k e he; omega)
  rw [hfree]
  rfl

/-- The session with `k` players numbered from `0x10000` on is reached by `k` creates. -/
theorem fullSession_reachable (k : Nat) (hk : k ≤ 65536) :
    Session.Reachable (fun flags => flags = 0) (fullSession k) := by
  induction k with
  | zero => exact Session.Reachable.empty _ rfl
  | succ n ih =>
    have hr := ih (by omega)
    have halloc := fullSession_alloc n (by omega)
    have hlast : ∀ p, mapEmplace (fullSession n).players (0x10000 + n) p
        = fullPlayers n ++ [(0x10000 + n, p)] := fun p =>
      mapEmplace_last _ _ _ (fun e he => (fullPlayers_key n e he).2.1)
    by_cases h0 : n = 0
    · have hc : ∃ p, (fullSession n).createNewSystemPlayer 0 = some (fullSession (n + 1), p) := by
        unfold Session.createNewSystemPlayer
        simp only [halloc, Option.bind_eq_bind, Option.some_bind, Option.pure_def,
          Option.some.injEq, Prod.mk.injEq, exists_eq_right']
        rw [hlast]
        unfold fullSession
        rw [fullPlayers_succ, if_pos h0]
      obtain ⟨p, hp⟩ := hc
      exact Session.Reachable.createSystem (fullSession n) _ 0 p hr hp
    · have hc : ∃ p, (fullSession n).createNewPlayer 0x10000 0
          = some (fullSession (n + 1), p) := by
        unfold Session.createNewPlayer
        simp only [halloc, Option.bind_eq_bind, Option.some_bind, Option.pure_def,
          Option.some.injEq, Prod.mk.injEq, exists_eq_right']
        rw [hlast]
        unfold fullSession
        rw [fullPlayers_succ, if_neg h0]
      obtain ⟨p, hp⟩ := hc
      exact Session.Reachable.create (fullSession n) _ 0x10000 0 p hr rfl hp

/-- With the 65536 ids from `0x10000` to `0x1FFFF` in use, `allocPlayerId` returns
`0x20000`. -/
theorem fullSession_alloc_full (k : Nat) (hk : k = 65536) :
    (fullSession k).allocPlayerId = some 0x20000 := by
  have hlen : (fullSession k).players.length = k := fullPlayers_length k
  obtain ⟨id, hid⟩ := allocPlayerId_isSome (fullSession k) (by rw [hlen]; omega)
  have hfree : mapFind (fullPlayers k) id = none := allocPlayerId_free _ _ hid
  have hid0 := hid
  unfold Session.allocPlayerId at hid
  have hU : (fullSession k).idUnique = 1 := rfl
  have hor : k ||| 65536 = 65536 := by rw [hk]; decide
  rw [hlen, hU, show ((1 <<< 16) % 2 ^ 32 : Nat) = 65536 from by decide, hor,
    Nat.mod_eq_of_lt (by omega)] at hid
  obtain ⟨j, hj, hidj, -⟩ := allocPlayerIdLoop_trace _ _ _ _ (by omega) hid
  have hj2 : ¬ j < k := by
    intro hlt
    have hused := fullPlayers_find k j hlt
    rw [hidj, Nat.mod_eq_of_lt (by omega)] at hfree
    rw [hfree] at hused
    cases hused
  have : id = 0x20000 := by omega
  rw [← this]
  exact hid0

/-- Deleting the system player `0x10000` removes every player of `fullPlayers` and
leaves the player created last. -/
theorem fullSession_delete (n : Nat) (last : Nat × Player)
    (hlast : last.2.getSystemPlayerId ≠ 0x10000) :
    Session.deletePlayer { emptySession with players := fullPlayers (n + 1) ++ [last] } 0x10000
      = { emptySession with players := [last] } := by
  have hhead : fullPlayers (n + 1)
      = (0x10000, Player.init 0x10000 0x10000 (0 ||| DPPlayer_System))
          :: (fullPlayers (n + 1)).tail := by
    unfold fullPlayers
    rw [List.range_succ_eq_map, List.map_cons]
    rfl
  have hfind : mapFind (fullPlayers (n + 1) ++ [last]) 0x10000
      = some (Player.init 0x10000 0x10000 (0 ||| DPPlayer_System)) := by
    rw [hhead]
    simp [mapFind]
  have hfilter : (fullPlayers (n + 1) ++ [last]).filter
      (fun e => e.2.getSystemPlayerId ≠ 0x10000) = [last] := by
    rw [List.filter_append]
    have hnil : (fullPlayers (n + 1)).filter (fun e => e.2.getSystemPlayerId ≠ 0x10000)
        = [] := by
      rw [List.filter_eq_nil_iff]
      intro e he
      have := (fullPlayers_key (n + 1) e he).2.2
      simp [this]
    rw [hnil, List.nil_append, List.filter_cons_of_pos (by simpa using hlast)]
    rfl
  unfold Session.deletePlayer
  show (match mapFind (fullPlayers (n + 1) ++ [last]) 0x10000 with
    | none => _
    | some p => _) = _
  rw [hfind]
  simp only
  rw [if_pos (by decide)]
  rw [hfilter]

/-- The session with one player `0x20000` is reached from the empty session:
`k = 65536` creates, the first of a system player, one more create for a client
without system player, and the deletion of the system player. -/
theorem overflowSession_reachable_of (k : Nat) (hk : k = 65536) :
    Session.Reachable (fun flags => flags = 0) overflowSession := by
  have hr := fullSession_reachable k (by omega)
  have halloc := fullSession_alloc_full k hk
  have hlast : mapEmplace (fullSession k).players 0x20000
        (Player.init 0x20000 0xFFFFFFFF 0)
      = fullPlayers k ++ [(0x20000, Player.init 0x20000 0xFFFFFFFF 0)] :=
    mapEmplace_last _ _ _ (fun e he => by have := (fullPlayers_key k e he).2.1; omega)
  have hc : ∃ p, (fullSession k).createNewPlayer 0xFFFFFFFF 0
      = some ({ emptySession with
          players := fullPlayers k ++ [(0x20000, Player.init 0x20000 0xFFFFFFFF 0)] },
        p) := by
    unfold Session.createNewPlayer
    simp only [halloc, Option.bind_eq_bind, Option.some_bind, Option.pure_def,
      Option.some.injEq, Prod.mk.injEq, exists_eq_right']
    rw [hlast]
    rfl
  obtain ⟨p, hp⟩ := hc
  have hr2 := Session.Reachable.create (fullSession k) _ 0xFFFFFFFF 0 p hr rfl hp
  have hdel := Session.Reachable.delete _ 0x10000 hr2
  obtain ⟨n, hn⟩ : ∃ n, k = n + 1 := ⟨k - 1, by omega⟩
  rw [hn, fullSession_delete n _ (by decide)] at hdel
  exact hdel

/-- C38 as the spec states it fails: the session that holds the single player
`0x20000` is reached from the empty session by creates and deletes (through a
state with 65536 players) and holds fewer than 32768 players; its player id is
not in `[0x10000, 0x1FFFF]`. -/
theorem C38_id_outside_upper_half :
    Session.Reachable (fun flags => flags = 0) overflowSession
      ∧ overflowSession.idUnique = 1
      ∧ overflowSession.players.length = 1
      ∧ overflowSession.players.map Prod.fst = [0x20000]
      ∧ overflowSession.allocPlayerId = some 0x10001 :=
  ⟨overflowSession_reachable_of 65536 rfl, by decide, by decide, by decide, by decide⟩

/-! ## The configuration file -/


theorem getLineWs_shorter (stream line rest : List Nat)
    (h : getLineWs stream = some (line, rest)) : rest.length < stream.length := by
  unfold getLineWs at h
  have hd := (List.dropWhile_sublist (l := stream) isSpace).length_le
  cases hs : stream.dropWhile isSpace with
  | nil => rw [hs] at h; cases h
  | cons c tl =>
    rw [hs] at h hd
    simp only [Option.some.injEq, Prod.mk.injEq] at h
    rw [← h.2]
    have h2 := (List.dropWhile_sublist (l := c :: tl) (fun x => decide (x ≠ 0x0A))).length_le
    rw [List.length_drop]
    simp only [List.length_cons] at hd h2 ⊢
    omega

/-- The loop of `IniFile::load` ends by itself: more fuel than the stream has
characters changes nothing. -/
theorem loadLoop_enough (fuel1 : Nat) :
    ∀ (fuel2 : Nat) (stream : List Nat) (st : IniLoad),
      stream.length < fuel1 → stream.length < fuel2 →
      loadLoop fuel1 stream st = loadLoop fuel2 stream st := by
  induction fuel1 with
  | zero => intro fuel2 stream st h1 _; exact absurd h1 (Nat.not_lt_zero _)
  | succ n ih =>
    intro fuel2 stream st h1 h2
    cases fuel2 with
    | zero => exact absurd h2 (Nat.not_lt_zero _)
    | succ m =>
      unfold loadLoop
      cases hg : getLineWs stream with
      | none => rfl
      | some r =>
        obtain ⟨line, rest⟩ := r
        have := getLineWs_shorter _ _ _ hg
        exact ih m rest _ (by omega) (by omega)

/-- The example text: of the three `k` in section `S` the first counts, also
across the repeated header; a key before the first header and a key after a
header without `]` have no value; a quoted value without closing quote is no
occurrence. -/
theorem exampleIni_values :
    (IniFile.load exampleIni).getValue (iniText "S") (iniText "k") = some (iniText "1")
      ∧ (IniFile.load exampleIni).getValue (iniText "T") (iniText "k") = some (iniText "3")
      ∧ (IniFile.load exampleIni).getValue (iniText "S") (iniText "j") = some (iniText "a b")
      ∧ (IniFile.load exampleIni).getValue (iniText "S") (iniText "m") = some (iniText "5")
      ∧ (IniFile.load exampleIni).getValue (iniText "S") (iniText "k0") = none
      ∧ (IniFile.load exampleIni).getValue (iniText "S") (iniText "z") = none
      ∧ (IniFile.load exampleIni).getValue (iniText "bad") (iniText "z") = none := by
  decide

/-! ## The join scenario on the server `main` starts -/

theorem mainSession_create (sessionName appGUID : List Nat) (flags : Nat) :
    (Session.init sessionName appGUID flags).createNewSystemPlayer
        (DPPlayer_NameServer ||| DPPlayer_SendingMachine)
      = some ({ Session.init sessionName appGUID flags with
          players := [(0x10000, Player.init 0x10000 0x10000 11)] },
        Player.init 0x10000 0x10000 11) := by
  have h : (Session.init sessionName appGUID flags).allocPlayerId = some 0x10000 := by
    simp [Session.allocPlayerId, Session.init, allocPlayerIdLoop, mapFind]
  unfold Session.createNewSystemPlayer
  simp only [Option.bind_eq_bind, h, Option.some_bind, Option.pure_def]
  rfl

theorem mainSession_eq (sessionName appGUID : List Nat) (port : Nat) :
    mainSession sessionName appGUID port = some (mainSessionOf sessionName appGUID port) := by
  unfold mainSession
  simp only [Option.bind_eq_bind, mainSession_create, Option.some_bind, Option.pure_def]
  rfl

theorem handleDPlayPacket_complete (env : Env) (mem : List Nat) (len : Nat) (w : World)
    (size command : Nat) (hlen : 28 ≤ len)
    (htok : (rd32 mem 0).map (fun tok => tok &&& 0xFFFFF) = some size)
    (hsize : size ≤ len) (hsig : rdBytes mem 20 4 = some playSignature)
    (hver : rd16 mem 26 = some 14) (hcmd : rd16 mem 24 = some command) :
    handleDPlayPacket env mem len w
      = (handleDPlayCommand env mem command 28 ((size + 2 ^ 64 - 28) % 2 ^ 64) w).map
          (fun r => { ret := r.1, len := size, world := r.2 }) := by
  unfold handleDPlayPacket
  rw [if_neg (by omega)]
  cases h0 : rd32 mem 0 with
  | none => rw [h0] at htok; cases htok
  | some tok =>
    rw [h0] at htok
    have hsz : tok &&& 0xFFFFF = size := Option.some.inj htok
    simp only [Option.bind_eq_bind, Option.some_bind, hsig, hver, hcmd, Option.pure_def, hsz]
    rw [if_neg (by omega)]
    simp only [ne_eq, not_true_eq_false, if_false]
    cases handleDPlayCommand env mem command 28 ((size + 2 ^ 64 - 28) % 2 ^ 64) w with
    | none => rfl
    | some r => rfl

theorem mapFind_cons_ne (k1 k : Nat) (p : Player) (m : List (Nat × Player)) (h : k1 ≠ k) :
    mapFind ((k1, p) :: m) k = mapFind m k := by
  unfold mapFind
  rw [List.find?_cons_of_neg]
  simpa using h

theorem mapFind_cons_self (k : Nat) (p : Player) (m : List (Nat × Player)) :
    mapFind ((k, p) :: m) k = some p := by
  unfold mapFind
  simp

theorem mapEmplace_cons_lt (k1 k : Nat) (p1 p : Player) (m : List (Nat × Player))
    (h : k1 < k) : mapEmplace ((k1, p1) :: m) k p = (k1, p1) :: mapEmplace m k p := by
  rw [mapEmplace, if_neg (show ¬ k < k1 by omega), if_neg (show ¬ k = k1 by omega)]

theorem mapSet_cons_ne (k1 k : Nat) (p1 p : Player) (m : List (Nat × Player)) (h : k1 ≠ k) :
    mapSet ((k1, p1) :: m) k p = (k1, p1) :: mapSet m k p := by
  unfold mapSet
  rw [List.map_cons, if_neg h]

theorem mapSet_cons_self (k : Nat) (p1 p : Player) (m : List (Nat × Player)) :
    mapSet ((k, p1) :: m) k p = (k, p) :: mapSet m k p := by
  unfold mapSet
  rw [List.map_cons, if_pos rfl]

theorem allocPlayerIdLoop_here (players : List (Nat × Player)) (fuel newId : Nat)
    (h : mapFind players newId = none) :
    allocPlayerIdLoop players (fuel + 1) newId = some newId := by
  rw [allocPlayerIdLoop, h]
  rfl

theorem join_step1 (e1 : Env) (w : World) (loc : Player)
    (hs : w.session.players = [(0x10000, loc)]) (hu : w.session.idUnique = 1)
    (hc : w.client.systemPlayerId = 0xFFFFFFFF) :
    ∃ r, handleDPlayPacket e1 exampleRequestSystemId 32 w = some r
      ∧ r.world.session = { w.session with
          players := [(0x10000, loc), (0x10001, Player.init 0x10001 0x10001 1)] }
      ∧ r.world.client.systemPlayerId = 0x10001 := by
  rw [handleDPlayPacket_complete e1 exampleRequestSystemId 32 w 32 DPSPCommand.RequestPlayerId
    (by decide) (by decide) (by decide) (by decide) (by decide) (by decide),
    handleDPlayCommand_requestPlayerId]
  have hflags : rd32 exampleRequestSystemId 28 = some 1 := by decide
  obtain ⟨w2, h2⟩ := handleRequestPlayerId_defined e1 exampleRequestSystemId 28 1 w hflags
    (by rw [hs]; simp)
  obtain ⟨-, hsys, -⟩ := handleRequestPlayerId_session e1 exampleRequestSystemId 28 1 w _ hflags h2
  obtain ⟨p, hp, hid⟩ := hsys ⟨by decide, hc⟩
  have hcreate : w.session.createNewSystemPlayer
      = some ({ w.session with
          players := [(0x10000, loc), (0x10001, Player.init 0x10001 0x10001 1)] },
        Player.init 0x10001 0x10001 1) := by
    have h : w.session.allocPlayerId = some 0x10001 := by
      unfold Session.allocPlayerId
      rw [hs, hu]
      have hn : (([(0x10000, loc)] : List (Nat × Player)).length ||| ((1 <<< 16) % 2 ^ 32))
          % 2 ^ 32 = 0x10001 := by
        show (1 ||| ((1 <<< 16) % 2 ^ 32)) % 2 ^ 32 = 0x10001
        decide
      rw [hn]
      exact allocPlayerIdLoop_here _ _ _ (by rw [mapFind_cons_ne _ _ _ _ (by decide)]; rfl)
    unfold Session.createNewSystemPlayer
    simp only [Option.bind_eq_bind, h, Option.some_bind, Option.pure_def, hs]
    rw [mapEmplace_cons_lt _ _ _ _ _ (by decide), mapEmplace,
      mapFind_cons_ne _ _ _ _ (by decide), mapFind_cons_self]
    rfl
  rw [hcreate] at hp
  obtain ⟨hs2, hp2⟩ := Prod.mk.inj (Option.some.inj hp)
  rw [h2]
  exact ⟨_, rfl, hs2.symm, by rw [hid, ← hp2]; rfl⟩

theorem join_step2 (e2 : Env) (w : World) (loc sys : Player)
    (hs : w.session.players = [(0x10000, loc), (0x10001, sys)]) (hu : w.session.idUnique = 1)
    (hc : w.client.systemPlayerId = 0x10001) :
    ∃ r, handleDPlayPacket e2 exampleRequestPlayerId 32 w = some r
      ∧ r.world.session = { w.session with
          players := [(0x10000, loc), (0x10001, sys), (0x10002, Player.init 0x10002 0x10001 0)] } := by
  rw [handleDPlayPacket_complete e2 exampleRequestPlayerId 32 w 32 DPSPCommand.RequestPlayerId
    (by decide) (by decide) (by decide) (by decide) (by decide) (by decide),
    handleDPlayCommand_requestPlayerId]
  have hflags : rd32 exampleRequestPlayerId 28 = some 0 := by decide
  obtain ⟨w2, h2⟩ := handleRequestPlayerId_defined e2 exampleRequestPlayerId 28 0 w hflags
    (by rw [hs]; simp)
  obtain ⟨-, -, hpl⟩ := handleRequestPlayerId_session e2 exampleRequestPlayerId 28 0 w _ hflags h2
  obtain ⟨p, hp, -⟩ := hpl (by decide)
  have hcreate : w.session.createNewPlayer w.client.systemPlayerId
      = some ({ w.session with
          players := [(0x10000, loc), (0x10001, sys), (0x10002, Player.init 0x10002 0x10001 0)] },
        Player.init 0x10002 0x10001 0) := by
    have h : w.session.allocPlayerId = some 0x10002 := by
      unfold Session.allocPlayerId
      rw [hs, hu]
      have hn : (([(0x10000, loc), (0x10001, sys)] : List (Nat × Player)).length
          ||| ((1 <<< 16) % 2 ^ 32)) % 2 ^ 32 = 0x10002 := by
        show (2 ||| ((1 <<< 16) % 2 ^ 32)) % 2 ^ 32 = 0x10002
        decide
      rw [hn]
      exact allocPlayerIdLoop_here _ _ _ (by
        rw [mapFind_cons_ne _ _ _ _ (by decide), mapFind_cons_ne _ _ _ _ (by decide)]
        rfl)
    unfold Session.createNewPlayer
    simp only [Option.bind_eq_bind, h, Option.some_bind, Option.pure_def, hs, hc]
    rw [mapEmplace_cons_lt _ _ _ _ _ (by decide), mapEmplace_cons_lt _ _ _ _ _ (by decide),
      mapEmplace, mapFind_cons_ne _ _ _ _ (by decide), mapFind_cons_ne _ _ _ _ (by decide),
      mapFind_cons_self]
    rfl
  rw [hcreate] at hp
  obtain ⟨hs2, -⟩ := Prod.mk.inj (Option.some.inj hp)
  rw [h2]
  exact ⟨_, rfl, hs2.symm⟩

theorem rdUnits_append (msg junk : List Nat) (n i : Nat) (hi : i + 2 * n ≤ msg.length) :
    rdUnits (msg ++ junk) i n = rdUnits msg i n := by
  induction n generalizing i with
  | zero => rfl
  | succ n ih =>
    unfold rdUnits
    rw [rd16_append _ _ i (by omega), ih (i + 2) (by omega)]

/-- What `case CreatePlayer` does for a player it finds. -/
theorem handleCreatePlayer_found (env : Env) (mem : List Nat) (data : Nat) (w : World)
    (info playerId : Nat) (player : Player) (s2 : Session)
    (hinfo : playerInfoOffset mem data = some info) (hpid : rd32 mem (info + 8) = some playerId)
    (hplayer : w.session.getPlayer (w.session.adjustId playerId) = some player)
    (hstore : storePlayerInfo mem info (w.session.adjustId playerId) player w.session = some s2) :
    ∃ w2, handleCreatePlayer env mem data w = some (true, w2) ∧ w2.session = s2
      ∧ w2.out = w.out := by
  unfold handleCreatePlayer
  simp only [Option.bind_eq_bind, hinfo, hpid, Option.some_bind, Option.pure_def, hplayer, hstore]
  split
  · exact ⟨_, rfl, (udpSocketConnect_session _ _).1, (udpSocketConnect_session _ _).2⟩
  · exact ⟨_, rfl, (udpSocketConnect_session _ _).1, (udpSocketConnect_session _ _).2⟩

/-- What the statements shared by `CreatePlayer` and `AddForwardRequest` store when
the names and the data lie inside the array. -/
theorem storePlayerInfo_eq (mem : List Nat) (info key : Nat) (player : Player) (s : Session)
    (n1 n2 n3 : Nat) (u1 u2 name1 name2 bytes : List Nat)
    (h1 : rd32 mem (info + 12) = some n1) (hu1 : rdUnits mem (info + 48) (n1 / 2) = some u1)
    (hc1 : convertUCS2ToUTF8 u1 = some name1)
    (h2 : rd32 mem (info + 16) = some n2)
    (hu2 : rdUnits mem (info + 48 + n1) (n2 / 2) = some u2)
    (hc2 : convertUCS2ToUTF8 u2 = some name2)
    (h3 : rd32 mem (info + 20) = some n3)
    (hb : n3 ≠ 0 → rdBytes mem (info + 48 + n1 + n2) n3 = some bytes) :
    storePlayerInfo mem info key player s
      = some { s with
          players := mapSet s.players key
            (if n3 ≠ 0 then
              ((player.setShortName name1).setShortName name2).setServiceProviderData bytes
            else (player.setShortName name1).setShortName name2) } := by
  unfold storePlayerInfo
  simp only [Option.bind_eq_bind, h1, hu1, hc1, h2, hu2, hc2, h3, Option.some_bind,
    Option.pure_def]
  by_cases hn : n3 ≠ 0
  · rw [if_pos hn, if_pos hn, hb hn]
    rfl
  · rw [if_neg hn, if_neg hn]

theorem join_step3 (e3 : Env) (w : World) (sp : List Nat) (loc sys p : Player)
    (hs : w.session.players = [(0x10000, loc), (0x10001, sys), (0x10002, p)])
    (hx : w.session.idXor = 0) (hsp : sp.length = 32) :
    ∃ r, handleDPlayPacket e3 (joinCreatePlayer sp) 140 w = some r
      ∧ r.world.session = { w.session with
          players := [(0x10000, loc), (0x10001, sys),
            (0x10002, ((p.setShortName [0x41, 0x6C, 0x69, 0x63, 0x65, 0]).setShortName
              []).setServiceProviderData sp)] } := by
  have hmem : joinCreatePlayer sp
      = (exampleHeader 140 playSignature DPSPCommand.CreatePlayer 14
          ++ (le32 0 ++ le32 0x10002 ++ le32 0 ++ le32 28 ++ le32 0)
          ++ (le32 92 ++ le32 0 ++ le32 0x10002 ++ le32 12 ++ le32 0 ++ le32 32 ++ le32 0
              ++ le32 0 ++ le32 0x10001 ++ le32 48 ++ le32 14 ++ le32 0)
          ++ unitsBytes [0x41, 0x6C, 0x69, 0x63, 0x65, 0]) ++ sp := rfl
  generalize hhead : (exampleHeader 140 playSignature DPSPCommand.CreatePlayer 14
          ++ (le32 0 ++ le32 0x10002 ++ le32 0 ++ le32 28 ++ le32 0)
          ++ (le32 92 ++ le32 0 ++ le32 0x10002 ++ le32 12 ++ le32 0 ++ le32 32 ++ le32 0
              ++ le32 0 ++ le32 0x10001 ++ le32 48 ++ le32 14 ++ le32 0)
          ++ unitsBytes [0x41, 0x6C, 0x69, 0x63, 0x65, 0]) = head at hmem
  have hlen : head.length = 108 := by rw [← hhead]; decide
  have r32 : ∀ i v, i + 4 ≤ 108 → rd32 head i = some v → rd32 (joinCreatePlayer sp) i = some v := by
    intro i v hi hv
    rw [hmem, rd32_append _ _ i (by omega), hv]
  have r16 : ∀ i v, i + 2 ≤ 108 → rd16 head i = some v → rd16 (joinCreatePlayer sp) i = some v := by
    intro i v hi hv
    rw [hmem, rd16_append _ _ i (by omega), hv]
  rw [handleDPlayPacket_complete e3 (joinCreatePlayer sp) 140 w 140 DPSPCommand.CreatePlayer
    (by decide)
    (by rw [r32 0 (140 ||| (0xFAB <<< 20)) (by decide) (by rw [← hhead]; decide)]; decide)
    (by decide)
    (by rw [hmem, rdBytes_append _ _ 20 4 (by omega), ← hhead]; decide)
    (r16 26 14 (by decide) (by rw [← hhead]; decide))
    (r16 24 _ (by decide) (by rw [← hhead]; decide)),
    handleDPlayCommand_createPlayer]
  have hinfo : playerInfoOffset (joinCreatePlayer sp) 28 = some 48 := by
    unfold playerInfoOffset
    rw [r32 40 28 (by decide) (by rw [← hhead]; decide)]
    rfl
  have hpid : rd32 (joinCreatePlayer sp) (48 + 8) = some 0x10002 :=
    r32 56 _ (by decide) (by rw [← hhead]; decide)
  have hkey : w.session.adjustId 0x10002 = 0x10002 := by
    unfold Session.adjustId
    rw [hx]
    rfl
  have hplayer : w.session.getPlayer (w.session.adjustId 0x10002) = some p := by
    rw [hkey]
    unfold Session.getPlayer
    rw [hs, mapFind_cons_ne _ _ _ _ (by decide), mapFind_cons_ne _ _ _ _ (by decide),
      mapFind_cons_self]
  have hstore := storePlayerInfo_eq (joinCreatePlayer sp) 48 (w.session.adjustId 0x10002) p
    w.session 12 0 32 [0x41, 0x6C, 0x69, 0x63, 0x65, 0] [] [0x41, 0x6C, 0x69, 0x63, 0x65, 0] [] sp
    (r32 60 _ (by decide) (by rw [← hhead]; decide))
    (by rw [hmem, rdUnits_append _ _ _ _ (by rw [hlen]), ← hhead]; decide)
    (by decide)
    (r32 64 _ (by decide) (by rw [← hhead]; decide))
    rfl
    (by decide)
    (r32 68 _ (by decide) (by rw [← hhead]; decide))
    (by
      intro _
      rw [hmem, rdBytes_eq _ _ _ (by rw [List.length_append, hlen, hsp]),
        List.drop_left' hlen, List.take_of_length_le (by omega)])
  obtain ⟨w2, h2, hs2, -⟩ := handleCreatePlayer_found e3 (joinCreatePlayer sp) 28 w 48 0x10002 p _
    hinfo hpid hplayer hstore
  rw [h2]
  refine ⟨_, rfl, ?_⟩
  show w2.session = _
  rw [hs2, hkey, hs, if_pos (by decide), mapSet_cons_ne _ _ _ _ _ (by decide),
    mapSet_cons_ne _ _ _ _ _ (by decide), mapSet_cons_self]
  rfl

theorem join_step4 (e4 : Env) (w : World) (loc sys al : Player)
    (hs : w.session.players = [(0x10000, loc), (0x10001, sys), (0x10002, al)])
    (hx : w.session.idXor = 0) (hg : w.session.guid.length = 16)
    (ha : w.session.appGUID.length = 16)
    (hsp : ∀ e ∈ w.session.players, e.2.serviceProviderData.length < 2 ^ 32 - 1)
    (hconn : w.client.tcpOutgoingOpen = true ∨ e4.tcpConnectOk = true) :
    ∃ r, handleDPlayPacket e4 joinAddForward 102 w = some r
      ∧ r.world.session = { w.session with
          players := [(0x10000, loc),
            (0x10001, (sys.setShortName []).setShortName []), (0x10002, al)] }
      ∧ r.world.out
          = w.out ++ [Event.tcpSend (superEnumPlayersReply r.world.client r.world.session)] := by
  rw [handleDPlayPacket_complete e4 joinAddForward 102 w 102 DPSPCommand.AddForwardRequest
    (by decide) (by decide) (by decide) (by decide) (by decide) (by decide),
    handleDPlayCommand_addForwardRequest]
  have hinfo : playerInfoOffset joinAddForward 28 = some 48 := by decide
  have hpid : rd32 joinAddForward (48 + 8) = some 0x10001 := by decide
  have hkey : w.session.adjustId 0x10001 = 0x10001 := by
    unfold Session.adjustId
    rw [hx]
    rfl
  have hplayer : w.session.getPlayer (w.session.adjustId 0x10001) = some sys := by
    rw [hkey]
    unfold Session.getPlayer
    rw [hs, mapFind_cons_ne _ _ _ _ (by decide), mapFind_cons_self]
  have hstore := storePlayerInfo_eq joinAddForward 48 (w.session.adjustId 0x10001) sys
    w.session 0 0 0 [] [] [] [] [] (by decide) rfl (by decide) (by decide) rfl (by decide)
    (by decide) (fun h => absurd rfl h)
  rw [if_neg (by decide)] at hstore
  obtain ⟨w1, h1, hs1, -⟩ := handleCreatePlayer_found e4 joinAddForward 28 w 48 0x10001 sys _
    hinfo hpid hplayer hstore
  have hs1p : w1.session.players
      = [(0x10000, loc), (0x10001, (sys.setShortName []).setShortName []), (0x10002, al)] := by
    rw [hs1, hkey]
    show mapSet w.session.players 0x10001 _ = _
    rw [hs, mapSet_cons_ne _ _ _ _ _ (by decide), mapSet_cons_self,
      mapSet_cons_ne _ _ _ _ _ (by decide)]
    rfl
  obtain ⟨w2, h2, hs2⟩ := handleAddForwardRequest_defined e4 e4 joinAddForward 28 w (true, w1)
    48 48 0 77 h1 hinfo (by decide) (by decide) (by decide)
    (by show w1.session.guid.length = 16; rw [hs1]; exact hg)
    (by show w1.session.appGUID.length = 16; rw [hs1]; exact ha)
    (by
      show ∀ e ∈ w1.session.players, e.2.serviceProviderData.length < 2 ^ 32 - 1
      rw [hs1p]
      intro e he
      simp only [List.mem_cons, List.mem_singleton, List.not_mem_nil, or_false] at he
      rcases he with he | he | he
      · rw [he]; exact hsp _ (by rw [hs]; simp)
      · rw [he]; exact hsp (0x10001, sys) (by rw [hs]; simp)
      · rw [he]; exact hsp _ (by rw [hs]; simp))
  obtain ⟨info, playerId, hinfo2, hpid2, -, hcase⟩ := handleAddForwardRequest_some _ _ _ _ _ h2
  rw [hinfo] at hinfo2
  cases hinfo2
  rw [hpid] at hpid2
  cases hpid2
  rw [h2]
  refine ⟨_, rfl, ?_, ?_⟩
  · show w2.session = _
    rw [hs2]
    show w1.session = _
    rw [hs1, hkey, hs, mapSet_cons_ne _ _ _ _ _ (by decide), mapSet_cons_self,
      mapSet_cons_ne _ _ _ _ _ (by decide)]
    rfl
  · rcases hcase with ⟨hnone, -, -⟩ | ⟨_, -, -, hyes, -⟩
    · rw [hplayer] at hnone
      cases hnone
    · exact (hyes hconn).1

theorem mainSockaddr_length (port : Nat) : (mainSockaddr port).length = 16 := rfl

/-- The entry of a player with 32 bytes of service-provider data in a session
that does not obfuscate ids. -/
theorem superPackedPlayer_32 (s : Session) (id : Nat) (p : Player) (hx : s.idXor = 0)
    (hl : p.serviceProviderData.length = 32) :
    superPackedPlayer s (id, p)
      = le32 16 ++ le32 (p.flags % 2 ^ 32) ++ le32 id ++ le32 4
          ++ le32 (if p.flags % 2 ^ 32 &&& DPPlayer_System ≠ 0 then 14 else p.systemPlayerId)
          ++ 32 :: p.serviceProviderData := by
  have hlen : p.getServiceProviderDataLen = 32 := by
    unfold Player.getServiceProviderDataLen
    rw [hl]
    decide
  have hid : s.adjustId id = id := by
    unfold Session.adjustId
    rw [hx]
    exact Nat.xor_zero id
  unfold superPackedPlayer
  simp only [hlen, hid, Player.getFlags, Player.getSystemPlayerId, Player.getServiceProviderData]
  rw [List.take_of_length_le (by omega)]
  rfl

/-- The entry of a player without service-provider data in a session that does
not obfuscate ids. -/
theorem superPackedPlayer_0 (s : Session) (id : Nat) (p : Player) (hx : s.idXor = 0)
    (hl : p.serviceProviderData = []) :
    superPackedPlayer s (id, p)
      = le32 16 ++ le32 (p.flags % 2 ^ 32) ++ le32 id ++ le32 0
          ++ le32 (if p.flags % 2 ^ 32 &&& DPPlayer_System ≠ 0 then 14 else p.systemPlayerId) := by
  have hlen : p.getServiceProviderDataLen = 0 := by
    unfold Player.getServiceProviderDataLen
    rw [hl]
    rfl
  have hid : s.adjustId id = id := by
    unfold Session.adjustId
    rw [hx]
    exact Nat.xor_zero id
  unfold superPackedPlayer
  simp only [hlen, hid, Player.getFlags, Player.getSystemPlayerId]
  simp

theorem superEnumPlayersReply_command (c : Client) (s : Session) :
    ((superEnumPlayersReply c s).drop 24).take 2 = le16 DPSPCommand.SuperEnumPlayersReply := by
  rfl

/-- The join scenario on the server `main` has started, step by step. -/
theorem join_scenario (sessionName appGUID address sp : List Nat) (port : Nat)
    (e1 e2 e3 e4 : Env) (happ : appGUID.length = 16) (hsp : sp.length = 32)
    (hconn : e4.tcpConnectOk = true) :
    ∃ s0 w reply,
      mainSession sessionName appGUID port = some s0
      ∧ handleDPlayPackets (joinReads e1 e2 e3 e4 sp) (joinWorld s0 address port) = some w
      ∧ w.out.getLast? = some (Event.tcpSend reply)
      ∧ (reply.drop 24).take 2 = le16 DPSPCommand.SuperEnumPlayersReply
      ∧ (reply.drop 28).take 4 = le32 3
      ∧ reply.drop (28 + 28 + 80 + 2 * ((convertUTF8ToUCS2 sessionName).length + 1))
          = (le32 16 ++ le32 11 ++ le32 0x10000 ++ le32 4 ++ le32 14
              ++ [32] ++ (mainSockaddr port ++ mainSockaddr port))
            ++ (le32 16 ++ le32 1 ++ le32 0x10001 ++ le32 0 ++ le32 14)
            ++ (le32 16 ++ le32 0 ++ le32 0x10002 ++ le32 4 ++ le32 0x10001 ++ [32] ++ sp) := by
  obtain ⟨s0, hs0⟩ : ∃ s0, s0 = mainSessionOf sessionName appGUID port := ⟨_, rfl⟩
  obtain ⟨loc, hloc⟩ : ∃ loc : Player, loc = mainLocalPlayer port := ⟨_, rfl⟩
  have hp0 : s0.players = [(0x10000, loc)] := by rw [hs0, hloc]; rfl
  have hu0 : s0.idUnique = 1 := by rw [hs0]; rfl
  have hx0 : s0.idXor = 0 := by rw [hs0]; rfl
  have hg0 : s0.guid.length = 16 := by rw [hs0]; rfl
  have ha0 : s0.appGUID.length = 16 := by
    rw [hs0]
    show (appGUID.take 16).length = 16
    rw [List.length_take, happ]
    rfl
  have hn0 : s0.name = sessionName := by rw [hs0]; rfl
  obtain ⟨r1, h1, hs1, hc1⟩ := join_step1 e1 (joinWorld s0 address port) loc hp0 hu0 rfl
  obtain ⟨r2, h2, hs2⟩ := join_step2 e2 r1.world loc (Player.init 0x10001 0x10001 1)
    (by rw [hs1]) (by rw [hs1]; exact hu0) hc1
  obtain ⟨r3, h3, hs3⟩ := join_step3 e3 r2.world sp loc (Player.init 0x10001 0x10001 1)
    (Player.init 0x10002 0x10001 0) (by rw [hs2]) (by rw [hs2, hs1]; exact hx0) hsp
  obtain ⟨al, hal⟩ : ∃ al : Player, al = (((Player.init 0x10002 0x10001 0).setShortName
      [0x41, 0x6C, 0x69, 0x63, 0x65, 0]).setShortName []).setServiceProviderData sp := ⟨_, rfl⟩
  rw [← hal] at hs3
  have hlocl : loc.serviceProviderData.length = 32 := by rw [hloc]; rfl
  have hall : al.serviceProviderData.length = 32 := by rw [hal]; exact hsp
  obtain ⟨r4, h4, hs4, ho4⟩ := join_step4 e4 r3.world loc (Player.init 0x10001 0x10001 1) al
    (by rw [hs3]) (by rw [hs3, hs2, hs1]; exact hx0) (by rw [hs3, hs2, hs1]; exact hg0)
    (by rw [hs3, hs2, hs1]; exact ha0)
    (by
      rw [hs3]
      intro e he
      simp only [List.mem_cons, List.mem_singleton, List.not_mem_nil, or_false] at he
      rcases he with he | he | he
      · rw [he, hlocl]; decide
      · rw [he]; decide
      · rw [he, hall]; decide)
    (Or.inr hconn)
  have hx4 : r4.world.session.idXor = 0 := by rw [hs4, hs3, hs2, hs1]; exact hx0
  have hg4 : r4.world.session.guid.length = 16 := by rw [hs4, hs3, hs2, hs1]; exact hg0
  have ha4 : r4.world.session.appGUID.length = 16 := by rw [hs4, hs3, hs2, hs1]; exact ha0
  have hn4 : r4.world.session.getName = sessionName := by
    unfold Session.getName
    rw [hs4, hs3, hs2, hs1]
    exact hn0
  have hp4 : r4.world.session.getPlayers = [(0x10000, loc),
      (0x10001, ((Player.init 0x10001 0x10001 1).setShortName []).setShortName []),
      (0x10002, al)] := by
    unfold Session.getPlayers
    rw [hs4]
  obtain ⟨l1, -, -, l4⟩ := superEnumPlayersReply_layout r4.world.client r4.world.session hg4 ha4
  refine ⟨s0, r4.world, superEnumPlayersReply r4.world.client r4.world.session, ?_, ?_, ?_,
    superEnumPlayersReply_command _ _, ?_, ?_⟩
  · rw [hs0]
    exact mainSession_eq sessionName appGUID port
  · have hcons : ∀ (d : Read) (rest : List Read) (v : World) (r : PacketResult),
        handleDPlayPacket d.env d.buf d.len v = some r →
        handleDPlayPackets (d :: rest) v = handleDPlayPackets rest r.world := by
      intro d rest v r hr
      show (handleDPlayPacket d.env d.buf d.len v).bind _ = _
      rw [hr]
      rfl
    unfold joinReads
    rw [hcons _ _ _ r1 h1, hcons _ _ _ r2 h2, hcons _ _ _ r3 h3, hcons _ _ _ r4 h4]
    rfl
  · rw [ho4, List.getLast?_append]
    rfl
  · rw [l1, hp4]
    rfl
  · rw [hn4] at l4
    rw [l4, hp4]
    simp only [List.map_cons, List.map_nil, List.flatten_cons, List.flatten_nil, List.append_nil]
    have q1 : superPackedPlayer r4.world.session (0x10000, loc)
        = le32 16 ++ le32 11 ++ le32 0x10000 ++ le32 4 ++ le32 14
            ++ [32] ++ (mainSockaddr port ++ mainSockaddr port) := by
      have f1 : loc.flags % 2 ^ 32 = 11 := by
        rw [hloc]
        show (11 : Nat) % 2 ^ 32 = 11
        decide
      rw [superPackedPlayer_32 _ _ _ hx4 hlocl, f1, if_pos (by decide), hloc]
      simp only [List.append_assoc, List.singleton_append]
      rfl
    have q2 : superPackedPlayer r4.world.session
          (0x10001, ((Player.init 0x10001 0x10001 1).setShortName []).setShortName [])
        = le32 16 ++ le32 1 ++ le32 0x10001 ++ le32 0 ++ le32 14 := by
      have f1 : (((Player.init 0x10001 0x10001 1).setShortName []).setShortName []).flags
          % 2 ^ 32 = 1 := by
        show (1 : Nat) % 2 ^ 32 = 1
        decide
      rw [superPackedPlayer_0 _ _ _ hx4 rfl, f1, if_pos (by decide)]
    have q3 : superPackedPlayer r4.world.session (0x10002, al)
        = le32 16 ++ le32 0 ++ le32 0x10002 ++ le32 4 ++ le32 0x10001 ++ [32] ++ sp := by
      have f1 : al.flags % 2 ^ 32 = 0 := by
        rw [hal]
        show (0 : Nat) % 2 ^ 32 = 0
        decide
      rw [superPackedPlayer_32 _ _ _ hx4 hall, f1, if_neg (by decide), hal]
      simp only [List.append_assoc, List.singleton_append]
      rfl
    rw [q1, q2, q3]
    simp only [List.append_assoc]

/-- C31 as the spec states it fails: on the server `main` starts with the
session name `"Te"` and port 2300, after the four messages of the join
scenario the `SuperEnumPlayersReply` has `playerCount` 3, not 2, and lists three
entries: before the client's system player `0x10001` and the created player
`0x10002` stands the local system player `0x10000` of the server (flags
`System | NameServer | SendingMachine`) with the byte 32 and its two socket
addresses. -/
theorem C31_local_player_listed :
    ∃ s0 w reply,
      mainSession [0x54, 0x65] (List.replicate 16 7) 2300 = some s0
      ∧ handleDPlayPackets (joinReads exampleEnv exampleEnv exampleEnv exampleEnv exampleSpData)
          (joinWorld s0 [] 2300) = some w
      ∧ w.out.getLast? = some (Event.tcpSend reply)
      ∧ (reply.drop 24).take 2 = le16 DPSPCommand.SuperEnumPlayersReply
      ∧ (reply.drop 28).take 4 = le32 3
      ∧ (reply.drop 28).take 4 ≠ le32 2
      ∧ reply.drop 142
          = (le32 16 ++ le32 11 ++ le32 0x10000 ++ le32 4 ++ le32 14
              ++ [32] ++ (mainSockaddr 2300 ++ mainSockaddr 2300))
            ++ (le32 16 ++ le32 1 ++ le32 0x10001 ++ le32 0 ++ le32 14)
            ++ (le32 16 ++ le32 0 ++ le32 0x10002 ++ le32 4 ++ le32 0x10001 ++ [32]
              ++ exampleSpData) := by
  obtain ⟨s0, w, reply, h0, hw, hout, hcmd, hcount, hentries⟩ :=
    join_scenario [0x54, 0x65] (List.replicate 16 7) [] exampleSpData 2300 exampleEnv exampleEnv
      exampleEnv exampleEnv (by decide) (by decide) (by decide)
  refine ⟨s0, w, reply, h0, hw, hout, hcmd, hcount, ?_, hentries⟩
  rw [hcount]
  decide

/-- C31: on a server started as `main` starts it (any session name, application
GUID and port), after one client sends `RequestPlayerId` for a system player,
`RequestPlayerId` for a player, `CreatePlayer` for the second id with 32 bytes of
service-provider data and `AddForwardRequest`, each handled to a defined result,
the last message sent is a `SuperEnumPlayersReply` with `playerCount` 3 whose
player list is exactly three entries: the local system player `0x10000` of the
server with the byte 32 and its 32 service-provider bytes, the client's system
player `0x10001` without data, and the created player `0x10002` with the byte 32
and the 32 bytes of the `CreatePlayer` message.  `hconn`: the connection to the
client can be opened when the reply is due. -/
theorem C31_join_scenario (sessionName appGUID address sp : List Nat) (port : Nat)
    (e1 e2 e3 e4 : Env) (happ : appGUID.length = 16) (hsp : sp.length = 32)
    (hconn : e4.tcpConnectOk = true) :
    ∃ s0 w reply,
      mainSession sessionName appGUID port = some s0
      ∧ handleDPlayPackets (joinReads e1 e2 e3 e4 sp) (joinWorld s0 address port) = some w
      ∧ w.out.getLast? = some (Event.tcpSend reply)
      ∧ (reply.drop 24).take 2 = le16 DPSPCommand.SuperEnumPlayersReply
      ∧ (reply.drop 28).take 4 = le32 3
      ∧ reply.drop (28 + 28 + 80 + 2 * ((convertUTF8ToUCS2 sessionName).length + 1))
          = (le32 16 ++ le32 11 ++ le32 0x10000 ++ le32 4 ++ le32 14
              ++ [32] ++ (mainSockaddr port ++ mainSockaddr port))
            ++ (le32 16 ++ le32 1 ++ le32 0x10001 ++ le32 0 ++ le32 14)
            ++ (le32 16 ++ le32 0 ++ le32 0x10002 ++ le32 4 ++ le32 0x10001 ++ [32] ++ sp) :=
  join_scenario sessionName appGUID address sp port e1 e2 e3 e4 happ hsp hconn

/-- C31 at a server named `"TestRoom"` on port 2300 and a client whose first
connection attempt fails. -/
theorem C31_join_scenario_witness :
    ∃ s0 w reply,
      mainSession testRoomSession.name (List.replicate 16 7) 2300 = some s0
      ∧ handleDPlayPackets (joinReads offlineEnv exampleEnv exampleEnv exampleEnv exampleSpData)
          (joinWorld s0 [] 2300) = some w
      ∧ w.out.getLast? = some (Event.tcpSend reply)
      ∧ (reply.drop 24).take 2 = le16 DPSPCommand.SuperEnumPlayersReply
      ∧ (reply.drop 28).take 4 = le32 3
      ∧ reply.drop
            (28 + 28 + 80 + 2 * ((convertUTF8ToUCS2 testRoomSession.name).length + 1))
          = (le32 16 ++ le32 11 ++ le32 0x10000 ++ le32 4 ++ le32 14
              ++ [32] ++ (mainSockaddr 2300 ++ mainSockaddr 2300))
            ++ (le32 16 ++ le32 1 ++ le32 0x10001 ++ le32 0 ++ le32 14)
            ++ (le32 16 ++ le32 0 ++ le32 0x10002 ++ le32 4 ++ le32 0x10001 ++ [32]
              ++ exampleSpData) :=
  C31_join_scenario testRoomSession.name (List.replicate 16 7) [] exampleSpData 2300 offlineEnv
    exampleEnv exampleEnv exampleEnv (by decide) (by decide) (by decide)

end DPlay
